import Mathlib

/-! The pod worker of the cluster agent.

A shallow embedding of `workers/pods.go`: the pod transformation pipeline
(`processObject`, `processContainer`, `CheckPort`, `updateConatainerStatus`),
the aggregation step (`summarize`), the dispatch queue (`flushQueue`) and the
instrumentation bookkeeping (`checkForInstrumentation`).

Conventions of the embedding.

* A Go `map[string]T` is an association list (`GoMap`); a `range` over the map
  visits the entries in list order, one of the orders the Go runtime may pick.
* Go integers (`int`, `int32`, `int64`) are `Int`. The counters only ever grow by
  one per pod or by a resource figure, so the wrap-around at `2^63` is out of
  reach and is not modelled. Integer division is `Int.tdiv` (truncation), and a
  zero divisor is a fault, as in Go.
* A `time.Time` is its `UnixNano()` value; a `*time.Time` is an `Option`.
* A run-time panic (nil dereference, write to a nil map, zero divisor) is an
  `Except.error`.
* Calls that leave the process (posting records, fetching logs, starting an
  instrumentation attempt, emitting an event, deregistering a node) are returned
  as a list of `Effect`s, in program order. Console output and the
  business-transaction markers (`StartBT`/`StopBT`) are left out.
* The packages `models` (but for the configuration bag), `utils`,
  `instrumentation` and `watchers` lie outside the verified sources. Their
  constants, and their helpers on whose behaviour no property below rests, are
  the fields of `Env`; the other helpers are modelled from the specification
  and say so in their doc comment.
-/

namespace ClusterAgent

/-! ## Go maps -/

/-- A Go `map[string]α` as an association list. -/
abbrev GoMap (α : Type) := List (String × α)

/-- Map read `m[k]` with the comma-ok result as an `Option`. -/
def mapGet {α : Type} : GoMap α → String → Option α
  | [], _ => none
  | (k', v) :: t, k => if k' = k then some v else mapGet t k

/-- Map write `m[k] = v`: an existing entry is replaced in place, a new one is added. -/
def mapSet {α : Type} : GoMap α → String → α → GoMap α
  | [], k, v => [(k, v)]
  | (k', v') :: t, k, v => if k' = k then (k, v) :: t else (k', v') :: mapSet t k v

/-- The read `v, ok := m[k]` followed by `if !ok { v = fresh }`: the value the local copy
holds afterwards. -/
def mapGetD {α : Type} (m : GoMap α) (k : String) (fresh : α) : α := (mapGet m k).getD fresh

/-- The idiom `if _, ok := m[k]; !ok { m[k] = fresh }`: the map afterwards. -/
def mapEnsure {α : Type} (m : GoMap α) (k : String) (fresh : α) : GoMap α :=
  if (mapGet m k).isSome then m else mapSet m k fresh

/-- The values of a map, in iteration order. -/
def mapValues {α : Type} (m : GoMap α) : List α := m.map Prod.snd

/-- A map field of a record that may still be the nil map. Reading and ranging over
the nil map behave as for the empty map; writing to it is a fault. -/
abbrev NilMap (α : Type) := Option (GoMap α)

/-- The entries of a possibly nil map. -/
def entries {α : Type} (m : NilMap α) : GoMap α := m.getD []

/-! ## Time and quantities -/

/-- A `time.Time`, as the value of `UnixNano()`. -/
abbrev Time := Int

/-- The idiom `t.UnixNano() / 1000000`. -/
def millis (t : Time) : Int := Int.tdiv t 1000000

/-- A `v1.ResourceList`: resource name to quantity, the quantity given by its `MilliValue()`. -/
abbrev ResourceList := GoMap Int

/-- The accessor `ResourceList.Cpu().MilliValue()`; a missing entry is the zero quantity. -/
def ResourceList.cpuMilli (rl : ResourceList) : Int := (mapGet rl "cpu").getD 0

/-- The accessor `ResourceList.Memory().MilliValue()`; a missing entry is the zero quantity. -/
def ResourceList.memoryMilli (rl : ResourceList) : Int := (mapGet rl "memory").getD 0

/-- The resource name `v1.ResourceRequestsEphemeralStorage`. -/
def ResourceRequestsEphemeralStorage : String := "requests.ephemeral-storage"

/-- The resource name `v1.ResourceLimitsEphemeralStorage`. -/
def ResourceLimitsEphemeralStorage : String := "limits.ephemeral-storage"

/-- The resource name `v1.ResourceStorage`. -/
def ResourceStorage : String := "storage"

/-! ## The raw pod (`v1.Pod`), as far as the worker reads it -/

/-- A declared port of a container (`v1.ContainerPort`). -/
structure V1ContainerPort where
  Name : String := ""
  ContainerPort : Int := 0

/-- The source of an environment variable (`v1.EnvVarSource`), by the referenced names. -/
structure EnvVarSource where
  ConfigMapKeyRef : Option String := none
  SecretKeyRef : Option String := none

/-- An environment variable (`v1.EnvVar`). -/
structure EnvVar where
  ValueFrom : Option EnvVarSource := none

/-- An `envFrom` entry (`v1.EnvFromSource`), by the referenced names. -/
structure EnvFromSource where
  ConfigMapRef : Option String := none
  SecretRef : Option String := none

/-- A volume mount of a container (`v1.VolumeMount`). -/
structure VolumeMount where
  Name : String := ""
  MountPath : String := ""

/-- A pod volume (`v1.Volume`), by the names of what it refers to. -/
structure Volume where
  Name : String := ""
  PersistentVolumeClaim : Option String := none
  ConfigMap : Option String := none
  Secret : Option String := none

/-- The resource requirements of a container; `none` is the nil `ResourceList`. -/
structure ResourceRequirements where
  Requests : Option ResourceList := none
  Limits : Option ResourceList := none

/-- A container of the pod spec (`v1.Container`). `SecurityContext` is `none` for a nil
security context and `some none` for a context without the `Privileged` flag. -/
structure Container where
  Name : String := ""
  SecurityContext : Option (Option Bool) := none
  LivenessProbe : Bool := false
  ReadinessProbe : Bool := false
  Ports : List V1ContainerPort := []
  Resources : ResourceRequirements := {}
  Env : List EnvVar := []
  EnvFrom : List EnvFromSource := []
  VolumeMounts : Option (List VolumeMount) := none

/-- A terminated container state (`v1.ContainerStateTerminated`). -/
structure ContainerStateTerminated where
  Reason : String := ""
  FinishedAt : Time := 0
  ExitCode : Int := 0

/-- A container state (`v1.ContainerState`): `Waiting` by its reason, `Running` by `StartedAt`. -/
structure ContainerState where
  Waiting : Option String := none
  Terminated : Option ContainerStateTerminated := none
  Running : Option Time := none

/-- A reported container status (`v1.ContainerStatus`). -/
structure ContainerStatus where
  Name : String := ""
  RestartCount : Int := 0
  Image : String := ""
  State : ContainerState := {}
  LastTerminationState : ContainerState := {}

/-- A pod condition (`v1.PodCondition`); `CondType` is its field `Type`, a reserved word here. -/
structure PodCondition where
  CondType : String := ""
  Status : String := ""
  Reason : String := ""
  Message : String := ""
  LastTransitionTime : Time := 0

/-- A node selector term; each requirement is kept as the text its `String()` renders. -/
structure NodeSelectorTerm where
  MatchExpressions : Option (List String) := none
  MatchFields : Option (List String) := none

/-- Node affinity. `Preferred` holds the rendered preferred terms; `Required` is `none` for a
nil selector and `some none` for a selector whose `NodeSelectorTerms` is nil. -/
structure NodeAffinity where
  Preferred : Option (List String) := none
  Required : Option (Option (List NodeSelectorTerm)) := none

/-- A pod affinity term; selector and namespaces are kept as the text `%s` renders. -/
structure PodAffinityTerm where
  TopologyKey : String := ""
  LabelSelector : String := ""
  Namespaces : String := ""

/-- A weighted pod affinity term. -/
structure WeightedPodAffinityTerm where
  Weight : Int := 0
  PodAffinityTerm : PodAffinityTerm := {}

/-- Pod affinity and pod anti-affinity share this shape; `none` is the nil slice. -/
structure PodAffinity where
  Preferred : Option (List WeightedPodAffinityTerm) := none
  Required : Option (List PodAffinityTerm) := none

/-- The affinity block of the pod spec; `none` is the nil pointer. -/
structure Affinity where
  NodeAffinity : Option ClusterAgent.NodeAffinity := none
  PodAffinity : Option ClusterAgent.PodAffinity := none
  PodAntiAffinity : Option ClusterAgent.PodAffinity := none

/-- The pod spec (`v1.PodSpec`). A toleration is kept as the text its `String()` renders. -/
structure PodSpec where
  NodeName : String := ""
  Containers : List Container := []
  InitContainers : List Container := []
  Volumes : List Volume := []
  Priority : Option Int := none
  ServiceAccountName : String := ""
  TerminationGracePeriodSeconds : Option Int := none
  RestartPolicy : String := ""
  Tolerations : Option (List String) := none
  Affinity : Option Affinity := none

/-- The pod status (`v1.PodStatus`). -/
structure PodStatus where
  Phase : String := ""
  Reason : String := ""
  StartTime : Option Time := none
  HostIP : String := ""
  PodIP : String := ""
  Conditions : List PodCondition := []
  ContainerStatuses : List ContainerStatus := []
  InitContainerStatuses : List ContainerStatus := []

/-- A pod as delivered by the watch (`v1.Pod`); owner references by their names. -/
structure Pod where
  Name : String := ""
  Namespace : String := ""
  ClusterName : String := ""
  Labels : GoMap String := []
  Annotations : GoMap String := []
  OwnerReferences : List String := []
  DeletionTimestamp : Option Time := none
  Spec : PodSpec := {}
  Status : PodStatus := {}

/-! ## Records of the `models` package -/

/-- Modelled from the spec: the service record `m.ServiceSchema` of the models package,
which lies outside the verified sources. It carries the selector, the ports the service exposes and
the (pod name, port) pairs the service reports ready. -/
structure ServiceSchema where
  Name : String := ""
  Namespace : String := ""
  HasExternalService : Bool := false
  Selector : GoMap String := []
  Ports : List Int := []
  ReadyPorts : List (String × Int) := []

/-- An endpoints object (`v1.Endpoints`), as far as the worker reads it. -/
structure Endpoints where
  Name : String := ""
  Namespace : String := ""
  Labels : GoMap String := []

/-- The port record `m.ContainerPort` of a container record. -/
structure ContainerPort where
  PortNumber : Int := 0
  Name : String := ""
  Mapped : Bool := false
  Ready : Bool := false

/-- The container record `m.ContainerSchema`, with the fields the worker touches. -/
structure ContainerSchema where
  Name : String := ""
  Namespace : String := ""
  NodeName : String := ""
  PodName : String := ""
  Init : Bool := false
  PodInitTime : Option Time := none
  Privileged : Int := 0
  LiveProbes : Int := 0
  ReadyProbes : Int := 0
  ContainerPorts : List ContainerPort := []
  MissingServices : String := ""
  MissingConfigs : String := ""
  MissingSecrets : String := ""
  CpuRequest : Int := 0
  MemRequest : Int := 0
  CpuLimit : Int := 0
  MemLimit : Int := 0
  PodStorageRequest : Int := 0
  PodStorageLimit : Int := 0
  StorageRequest : Int := 0
  StorageCapacity : Int := 0
  Mounts : String := ""
  LimitsDefined : Bool := false
  Restarts : Int := 0
  Image : String := ""
  WaitReason : String := ""
  TermReason : String := ""
  TerminationTime : Option Time := none
  StartTime : Option Time := none
  LastTerminationTime : Option Time := none
  ExitCode : Int := 0
  CpuUse : Int := 0
  MemUse : Int := 0

/-- Modelled from the spec: the constructor `m.NewContainerObj` of the models package,
outside the verified sources; a fresh container record has every field at its zero value. -/
def NewContainerObj : ContainerSchema := {}

/-- The canonical pod record `m.PodSchema`, with the fields the worker touches. -/
structure PodSchema where
  Name : String := ""
  Namespace : String := ""
  NodeName : String := ""
  ClusterName : String := ""
  Owner : String := ""
  Labels : String := ""
  Annotations : String := ""
  AppName : String := ""
  TierName : String := ""
  AppID : Int := 0
  TierID : Int := 0
  NodeID : Int := 0
  APMNodeName : String := ""
  HostIP : String := ""
  PodIP : String := ""
  Reason : String := ""
  IsEvicted : Bool := false
  Phase : String := ""
  StartTime : Option Time := none
  StartTimeMillis : Int := 0
  TerminationTime : Option Time := none
  TerminationTimeMillis : Int := 0
  RunningStartTime : Option Time := none
  RunningStartTimeMillis : Int := 0
  BreakPointMillis : Int := 0
  PendingTime : Int := 0
  UpTimeMillis : Int := 0
  Services : List ServiceSchema := []
  Endpoints : List Endpoints := []
  InitContainerCount : Int := 0
  ContainerCount : Int := 0
  Containers : NilMap ContainerSchema := none
  InitContainers : NilMap ContainerSchema := none
  LimitsDefined : Bool := false
  MissingDependencies : Bool := false
  NoConnectivity : Bool := false
  NumPrivileged : Int := 0
  LiveProbes : Int := 0
  ReadyProbes : Int := 0
  CpuRequest : Int := 0
  MemRequest : Int := 0
  CpuLimit : Int := 0
  MemLimit : Int := 0
  PodStorageRequest : Int := 0
  PodStorageLimit : Int := 0
  StorageRequest : Int := 0
  StorageCapacity : Int := 0
  CpuUse : Int := 0
  MemUse : Int := 0
  PodRestarts : Int := 0
  Priority : Int := 0
  ServiceAccountName : String := ""
  TerminationGracePeriodSeconds : Int := 0
  RestartPolicy : String := ""
  Tolerations : String := ""
  NodeAffinityPreferred : String := ""
  NodeAffinityRequired : String := ""
  PodAffinityPreferred : String := ""
  PodAffinityRequired : String := ""
  PodAntiAffinityPreferred : String := ""
  PodAntiAffinityRequired : String := ""
  ReasonCondition : String := ""
  StatusCondition : String := ""
  TypeCondition : String := ""
  LastTransitionTimeCondition : Option Time := none

/-- Modelled from the spec: the constructor `m.NewPodObj` of the models package, outside the
verified sources; a fresh pod record has every field at its zero value (empty owner, no
containers, all figures zero). -/
def NewPodObj : PodSchema := {}

/-- The result `m.AttachStatus` of an instrumentation attempt. -/
structure AttachStatus where
  Key : String := ""
  Count : Int := 0
  LastMessage : String := ""
  Success : Bool := false

/-- The usage figures `m.UsageStats` of the metrics endpoint. -/
structure UsageStats where
  CPU : Int := 0
  Memory : Int := 0

/-- The answer `m.PodMetricsObj` of the metrics query, by what its two accessors return. -/
structure PodMetricsObj where
  GetPodUsage : UsageStats := {}
  GetContainerUsage : String → UsageStats := fun _ => {}

/-- A persistent volume claim (`v1.PersistentVolumeClaim`): requests of the spec and capacity
of the status. -/
structure PersistentVolumeClaim where
  Requests : ResourceList := []
  Capacity : ResourceList := []

/-- A resource quota (`v1.ResourceQuota`), as far as the worker reads it. -/
structure ResourceQuota where
  Name : String := ""
  Namespace : String := ""

/-- The namespace record `m.NsSchema`. -/
structure NsSchema where
  Name : String := ""
  Quotas : Int := 0

/-- The configuration bag (`models/appdbag.go`), with the fields the worker reads. -/
structure AppDBag where
  AppName : String := ""
  AppID : Int := 0
  TierID : Int := 0
  NodeID : Int := 0
  EventAPILimit : Int := 0
  AppDAppLabel : String := ""
  AppDTierLabel : String := ""
  SnapshotSyncInterval : Int := 0
  DeploysToDashboard : List String := []

/-! ## Summaries -/

/-- The pod summary `m.ClusterPodMetrics` (global, per node and per namespace). The quota
sub-metrics are kept as the list of quotas applied to the summary. -/
structure ClusterPodMetrics where
  Namespace : String := ""
  Nodename : String := ""
  PodCount : Int := 0
  ContainerCount : Int := 0
  InitContainerCount : Int := 0
  NoLimits : Int := 0
  Privileged : Int := 0
  NoLivenessProbe : Int := 0
  NoReadinessProbe : Int := 0
  MissingDependencies : Int := 0
  NoConnectivity : Int := 0
  LimitCpu : Int := 0
  LimitMemory : Int := 0
  RequestCpu : Int := 0
  RequestMemory : Int := 0
  PodPending : Int := 0
  PodFailed : Int := 0
  PodRunning : Int := 0
  Evictions : Int := 0
  PendingTime : Int := 0
  UpTime : Int := 0
  PodRestarts : Int := 0
  UseCpu : Int := 0
  UseMemory : Int := 0
  PodStorageLimit : Int := 0
  PodStorageRequest : Int := 0
  StorageCapacity : Int := 0
  StorageRequest : Int := 0
  ServiceCount : Int := 0
  ExtServiceCount : Int := 0
  EndpointCount : Int := 0
  EPReadyCount : Int := 0
  EPNotReadyCount : Int := 0
  OrphanEndpoint : Int := 0
  NamespaceCount : Int := 0
  NamespaceNoQuotas : Int := 0
  QuotasApplied : List ResourceQuota := []

/-- Modelled from the spec: the constructor `m.NewClusterPodMetrics(bag, ns, node)` of the
models package, outside the verified sources; a summary is created with its counters at zero. -/
def NewClusterPodMetrics (_bag : AppDBag) (ns node : String) : ClusterPodMetrics :=
  { Namespace := ns, Nodename := node }

/-- The application/tier summary `m.ClusterAppMetrics`. -/
structure ClusterAppMetrics where
  Namespace : String := ""
  TierName : String := ""
  PodCount : Int := 0
  ContainerCount : Int := 0
  InitContainerCount : Int := 0
  NoLimits : Int := 0
  Privileged : Int := 0
  NoLivenessProbe : Int := 0
  NoReadinessProbe : Int := 0
  MissingDependencies : Int := 0
  NoConnectivity : Int := 0
  LimitCpu : Int := 0
  LimitMemory : Int := 0
  RequestCpu : Int := 0
  RequestMemory : Int := 0
  PodPending : Int := 0
  PodFailed : Int := 0
  PodRunning : Int := 0
  Evictions : Int := 0
  PendingTime : Int := 0
  UpTime : Int := 0
  PodRestarts : Int := 0
  UseCpu : Int := 0
  UseMemory : Int := 0
  QuotasApplied : List ResourceQuota := []

/-- Modelled from the spec: the constructor `m.NewClusterAppMetrics(bag, podObject)` of the
models package, outside the verified sources; a summary is created with its counters at zero. -/
def NewClusterAppMetrics (_bag : AppDBag) (podObject : PodSchema) : ClusterAppMetrics :=
  { Namespace := podObject.Namespace, TierName := podObject.Owner }

/-- The container summary `m.ClusterContainerMetrics`. -/
structure ClusterContainerMetrics where
  Namespace : String := ""
  TierName : String := ""
  ContainerName : String := ""
  LimitCpu : Int := 0
  LimitMemory : Int := 0
  RequestCpu : Int := 0
  RequestMemory : Int := 0
  NoLivenessProbe : Int := 0
  NoReadinessProbe : Int := 0
  PodStorageRequest : Int := 0
  PodStorageLimit : Int := 0
  StorageRequest : Int := 0
  StorageCapacity : Int := 0
  NoLimits : Int := 0
  Restarts : Int := 0

/-- Modelled from the spec: the constructor `m.NewClusterContainerMetrics` of the models
package, outside the verified sources; a summary is created with its counters at zero. -/
def NewClusterContainerMetrics (_bag : AppDBag) (ns owner name : String) : ClusterContainerMetrics :=
  { Namespace := ns, TierName := owner, ContainerName := name }

/-- The container instance summary `m.ClusterInstanceMetrics`. -/
structure ClusterInstanceMetrics where
  Namespace : String := ""
  TierName : String := ""
  ContainerName : String := ""
  PodName : String := ""
  UseCpu : Int := 0
  UseMemory : Int := 0
  Restarts : Int := 0

/-- Modelled from the spec: the constructor `m.NewClusterInstanceMetrics` of the models
package, outside the verified sources; a summary is created with its counters at zero. -/
def NewClusterInstanceMetrics (_bag : AppDBag) (podObject : PodSchema) (name : String) :
    ClusterInstanceMetrics :=
  { Namespace := podObject.Namespace, TierName := podObject.Owner, ContainerName := name,
    PodName := podObject.Name }

/-! ## The environment and the worker -/

/-- Constants and helpers of the packages outside the verified sources on whose value no
property below rests; every definition of the embedding takes them as given. -/
structure Env where
  /-- The key `m.ALL` of the global summary. -/
  ALL : String
  /-- The attempt ceiling `instr.MAX_INSTRUMENTATION_ATTEMPTS`. -/
  MAX_INSTRUMENTATION_ATTEMPTS : Int
  /-- The annotation key `instr.APPD_APPID`. -/
  APPD_APPID : String
  /-- The annotation key `instr.APPD_TIERID`. -/
  APPD_TIERID : String
  /-- The annotation key `instr.APPD_NODEID`. -/
  APPD_NODEID : String
  /-- The annotation key `instr.APPD_NODENAME`. -/
  APPD_NODENAME : String
  /-- The marker test `instr.IsPodInstrumented`. -/
  IsPodInstrumented : Pod → Bool
  /-- The namespace policy `utils.NSQualifiesForMonitoring`. -/
  NSQualifiesForMonitoring : String → AppDBag → Bool
  /-- The method `ContainerSchema.HasMissingDependencies`. -/
  HasMissingDependencies : ContainerSchema → Bool
  /-- The method `ContainerSchema.NoConnectivity`. -/
  NoConnectivity : ContainerSchema → Bool
  /-- The helper `m.GetEPStats`: ready count, not-ready count, orphan flag. -/
  GetEPStats : Endpoints → Int × Int × Bool
  /-- The method `RQSchemaObj.AppliesToPod` of the quota built by `m.NewRQ`. -/
  AppliesToPod : ResourceQuota → PodSchema → Bool

/-- The state of `PodWorker`. The work queue `WQ` is the list of queued records, oldest
first; `Bag` is what `ConfManager.Get()` returns. -/
structure PodWorker where
  Bag : AppDBag := {}
  SummaryMap : GoMap ClusterPodMetrics := []
  AppSummaryMap : GoMap ClusterAppMetrics := []
  ContainerSummaryMap : GoMap ClusterContainerMetrics := []
  InstanceSummaryMap : GoMap ClusterInstanceMetrics := []
  WQ : List PodSchema := []
  PendingCache : List String := []
  FailedCache : GoMap AttachStatus := []
  ServiceCache : GoMap ServiceSchema := []
  EndpointCache : GoMap Endpoints := []
  RQCache : GoMap ResourceQuota := []
  PVCCache : GoMap PersistentVolumeClaim := []
  CMCache : GoMap Unit := []
  SecretCache : GoMap Unit := []
  NSCache : GoMap NsSchema := []
  OwnerMap : GoMap String := []
  NamespaceMap : GoMap String := []
  DashboardCache : GoMap PodSchema := []
  DelayDashboard : Bool := true

/-- A run-time panic of the Go program. -/
inductive Fault where
  | nilDereference
  | nilMapWrite
  | divideByZero

/-- A call that leaves the process. -/
inductive Effect where
  | postPodRecords (objList : List PodSchema)
  | postContainerBatchRecords (objList : List ContainerSchema)
  | saveLogs (clusterName ns podOwner podName container : String) (sinceSeconds tailLines : Int)
  | instrument (podKey : String)
  | emitInstrumentationEvent (podKey message : String) (warning : Bool)
  | deleteAppDNode (nodeID : Int)

/-! ## Helpers of the `utils` package -/

/-- Modelled from the spec: the helper `utils.GetKey`, outside the verified sources; entries
are keyed by namespace and name, in the form the pod store looks keys up by. -/
def GetKey (ns name : String) : String := ns ++ "/" ++ name

/-- Modelled from the spec: the helper `utils.GetPodKey`, outside the verified sources; the
key of a pod is that of its namespace and name. -/
def GetPodKey (p : Pod) : String := GetKey p.Namespace p.Name

/-- Modelled from the spec: the helper `utils.StringInSlice`, outside the verified sources;
membership of a string in a slice. -/
def StringInSlice (s : String) (list : List String) : Bool := decide (s ∈ list)

/-- Modelled from the spec: the helper `utils.RemoveFromSlice`, outside the verified sources;
the slice without the given string. -/
def RemoveFromSlice (s : String) (list : List String) : List String :=
  list.filter (fun x => decide (x ≠ s))

/-- Modelled from the spec: the helper `utils.IsPodRunnnig`, outside the verified sources; the
pod is in the running phase. -/
def IsPodRunnnig (p : Pod) : Bool := decide (p.Status.Phase = "Running")

/-! ## Service correlation and the port check -/

/-- The selector test `labels.SelectorFromSet(sel).Matches(labels.Set(lbls))` of the
Kubernetes library: every pair of the selector is a label of the pod. -/
def selectorMatches (sel lbls : GoMap String) : Bool :=
  sel.all (fun kv => decide (mapGet lbls kv.1 = some kv.2))

/-- Modelled from the spec: the method `ServiceSchema.IsPortAvailable`, outside the verified
sources; a port is mapped if the service exposes it, and ready if the service additionally
reports the pod ready on that port. -/
def ServiceSchema.IsPortAvailable (svc : ServiceSchema) (cp : ContainerPort)
    (podSchema : PodSchema) : Bool × Bool :=
  (decide (cp.PortNumber ∈ svc.Ports),
   decide (cp.PortNumber ∈ svc.Ports) && decide ((podSchema.Name, cp.PortNumber) ∈ svc.ReadyPorts))

/-- Modelled from the spec: the method `ServiceSchema.MatchesPod`, outside the verified
sources; a pod matches a service when the selector of the service matches the labels of the
pod and the service exposes at least one of the container ports of the pod. -/
def ServiceSchema.MatchesPod (svc : ServiceSchema) (p : Pod) : Bool :=
  selectorMatches svc.Selector p.Labels &&
    p.Spec.Containers.any (fun c => c.Ports.any (fun port => decide (port.ContainerPort ∈ svc.Ports)))

/-- One round of the loop of `CheckPort`: the flags of the port record are set from what the
service reports, each only while it is still false. -/
def checkPortStep (podSchema : PodSchema) (cp : ContainerPort) (svc : ServiceSchema) :
    ContainerPort :=
  let r := svc.IsPortAvailable cp podSchema
  let cp1 : ContainerPort := if !cp.Mapped then { cp with Mapped := r.1 } else cp
  if !cp1.Ready then { cp1 with Ready := r.2 } else cp1

/-- The function `CheckPort`: the port record of a declared port, checked against every
service correlated with the pod. -/
def CheckPort (port : V1ContainerPort) (_podObj : Pod) (podSchema : PodSchema) : ContainerPort :=
  podSchema.Services.foldl (checkPortStep podSchema)
    { PortNumber := port.ContainerPort, Name := port.Name }

/-! ## processContainer -/

/-- The port loop of `processContainer`: the port records, and the text appended to
`MissingServices`, one `"<port>;"` per port that is not mapped. -/
def portsLoop (podObj : Pod) (podSchema : PodSchema) (ports : List V1ContainerPort)
    (acc : List ContainerPort × String) : List ContainerPort × String :=
  ports.foldl
    (fun acc p =>
      let cp := CheckPort p podObj podSchema
      (acc.1 ++ [cp], if !cp.Mapped then acc.2 ++ (toString cp.PortNumber ++ ";") else acc.2))
    acc

/-- The ephemeral-storage loops of `processContainer`: a range over a resource list that,
at every entry named `key`, sets the container figure (first component) and adds it to the
pod figure (second component). -/
def ephemeralLoop (key : String) (rl : ResourceList) (acc : Int × Int) : Int × Int :=
  rl.foldl (fun acc kv => if kv.1 = key then (kv.2, acc.2 + kv.2) else acc) acc

/-- The texts `MissingConfigs` and `MissingSecrets` while they are being appended to. -/
structure Missing where
  Configs : String := ""
  Secrets : String := ""

/-- The loop of `processContainer` over `c.Env`. -/
def envLoop (w : PodWorker) (podObj : Pod) (env : List EnvVar) (acc : Missing) : Missing :=
  env.foldl
    (fun acc ev =>
      let acc1 : Missing :=
        match ev.ValueFrom with
        | some { ConfigMapKeyRef := some name, .. } =>
          if (mapGet w.CMCache (GetKey podObj.Namespace name)).isNone then
            { acc with Configs := acc.Configs ++ (name ++ ";") } else acc
        | _ => acc
      match ev.ValueFrom with
      | some { SecretKeyRef := some name, .. } =>
        if (mapGet w.SecretCache (GetKey podObj.Namespace name)).isNone then
          { acc1 with Secrets := acc1.Secrets ++ (name ++ ";") } else acc1
      | _ => acc1)
    acc

/-- The loop of `processContainer` over `c.EnvFrom`. -/
def envFromLoop (w : PodWorker) (podObj : Pod) (env : List EnvFromSource) (acc : Missing) :
    Missing :=
  env.foldl
    (fun acc evf =>
      let acc1 : Missing :=
        match evf.ConfigMapRef with
        | some name =>
          if (mapGet w.CMCache (GetKey podObj.Namespace name)).isNone then
            { acc with Configs := acc.Configs ++ (name ++ ";") } else acc
        | none => acc
      match evf.SecretRef with
      | some name =>
        if (mapGet w.SecretCache (GetKey podObj.Namespace name)).isNone then
          { acc1 with Secrets := acc1.Secrets ++ (name ++ ";") } else acc1
      | none => acc1)
    acc

/-- What the volume loops of `processContainer` accumulate: the mount paths, the storage
figures added to the container and to the pod alike, and the missing references. -/
structure VolAcc where
  Mounts : String := ""
  StorageRequest : Int := 0
  StorageCapacity : Int := 0
  Missing : Missing := {}

/-- The inner loop over `podObj.Spec.Volumes` for one volume mount. -/
def volumeLoop (w : PodWorker) (podObj : Pod) (podSchema : PodSchema) (vol : VolumeMount)
    (acc : VolAcc) : VolAcc :=
  podObj.Spec.Volumes.foldl
    (fun acc vm =>
      let acc1 : VolAcc :=
        match vm.PersistentVolumeClaim with
        | some claimName =>
          if vm.Name = vol.Name then
            match mapGet w.PVCCache (GetKey podSchema.Namespace claimName) with
            | some pvc =>
              let a : VolAcc :=
                match mapGet pvc.Requests ResourceStorage with
                | some q => { acc with StorageRequest := acc.StorageRequest + q }
                | none => acc
              match mapGet pvc.Capacity ResourceStorage with
              | some q => { a with StorageCapacity := a.StorageCapacity + q }
              | none => a
            | none => acc
          else acc
        | none => acc
      let acc2 : VolAcc :=
        match vm.ConfigMap with
        | some name =>
          if vm.Name = vol.Name ∧ (mapGet w.CMCache (GetKey podObj.Namespace name)).isNone then
            { acc1 with Missing := { acc1.Missing with Configs := acc1.Missing.Configs ++ (name ++ ";") } }
          else acc1
        | none => acc1
      match vm.Secret with
      | some name =>
        if vm.Name = vol.Name ∧ (mapGet w.SecretCache (GetKey podObj.Namespace name)).isNone then
          { acc2 with Missing := { acc2.Missing with Secrets := acc2.Missing.Secrets ++ (name ++ ";") } }
        else acc2
      | none => acc2)
    acc

/-- The loop of `processContainer` over `c.VolumeMounts`. -/
def mountsLoop (w : PodWorker) (podObj : Pod) (podSchema : PodSchema) (mounts : List VolumeMount)
    (acc : VolAcc) : VolAcc :=
  mounts.foldl
    (fun acc vol =>
      volumeLoop w podObj podSchema vol { acc with Mounts := acc.Mounts ++ (vol.MountPath ++ ";") })
    acc

/-- The outcome of `processContainer`: the container record, the `limitsDefined` flag and
the pod record as the call leaves it. -/
structure ContainerResult where
  containerObj : ContainerSchema
  limitsDefined : Bool
  podSchema : PodSchema

/-- The function `processContainer`. Each field of the two records is given by the
statements of the source that assign it, in their order. -/
def processContainer (w : PodWorker) (podObj : Pod) (podSchema : PodSchema) (c : Container)
    (init : Bool) : ContainerResult :=
  let c0 := NewContainerObj
  let privileged : Bool := c.SecurityContext = some (some true)
  let ps1 : PodSchema :=
    { podSchema with
      NumPrivileged := if privileged then podSchema.NumPrivileged + 1 else podSchema.NumPrivileged
      LiveProbes := if !c.LivenessProbe then podSchema.LiveProbes + 1 else podSchema.LiveProbes }
  let ports := portsLoop podObj ps1 c.Ports (c0.ContainerPorts, c0.MissingServices)
  let limitsDefined : Bool := c.Resources.Requests.isSome || c.Resources.Limits.isSome
  let cpuReq : Int := match c.Resources.Requests with
    | some rq => rq.cpuMilli
    | none => c0.CpuRequest
  let memReq : Int := match c.Resources.Requests with
    | some rq => Int.tdiv rq.memoryMilli 1000
    | none => c0.MemRequest
  let cpuLim : Int := match c.Resources.Limits with
    | some lim => lim.cpuMilli
    | none => c0.CpuLimit
  let memLim : Int := match c.Resources.Limits with
    | some lim => Int.tdiv lim.memoryMilli 1000
    | none => c0.MemLimit
  let ephReq : Int × Int := match c.Resources.Limits with
    | some _ => ephemeralLoop ResourceRequestsEphemeralStorage (entries c.Resources.Requests)
        (c0.PodStorageRequest, ps1.PodStorageRequest)
    | none => (c0.PodStorageRequest, ps1.PodStorageRequest)
  let ephLim : Int × Int := match c.Resources.Limits with
    | some lim => ephemeralLoop ResourceLimitsEphemeralStorage lim
        (c0.PodStorageLimit, ps1.PodStorageLimit)
    | none => (c0.PodStorageLimit, ps1.PodStorageLimit)
  let missing := envFromLoop w podObj c.EnvFrom
    (envLoop w podObj c.Env { Configs := c0.MissingConfigs, Secrets := c0.MissingSecrets })
  let vols : VolAcc := match c.VolumeMounts with
    | some mounts => mountsLoop w podObj ps1 mounts
        { Mounts := "", StorageRequest := 0, StorageCapacity := 0, Missing := missing }
    | none => { Mounts := c0.Mounts, StorageRequest := 0, StorageCapacity := 0, Missing := missing }
  { containerObj :=
      { c0 with
        Name := c.Name
        Namespace := podSchema.Namespace
        NodeName := podSchema.NodeName
        PodName := podSchema.Name
        Init := init
        PodInitTime := podSchema.StartTime
        Privileged := if privileged then 1 else c0.Privileged
        LiveProbes := if !c.LivenessProbe then 1 else c0.LiveProbes
        ContainerPorts := ports.1
        MissingServices := ports.2
        ReadyProbes := if !c.ReadinessProbe then 1 else c0.ReadyProbes
        CpuRequest := cpuReq
        MemRequest := memReq
        CpuLimit := cpuLim
        MemLimit := memLim
        PodStorageRequest := ephReq.1
        PodStorageLimit := ephLim.1
        MissingConfigs := vols.Missing.Configs
        MissingSecrets := vols.Missing.Secrets
        StorageRequest := c0.StorageRequest + vols.StorageRequest
        StorageCapacity := c0.StorageCapacity + vols.StorageCapacity
        Mounts := vols.Mounts
        LimitsDefined := limitsDefined }
    limitsDefined := limitsDefined
    podSchema :=
      { ps1 with
        ReadyProbes := if !c.ReadinessProbe then ps1.ReadyProbes + 1 else ps1.ReadyProbes
        CpuRequest := if c.Resources.Requests.isSome then ps1.CpuRequest + cpuReq else ps1.CpuRequest
        MemRequest := if c.Resources.Requests.isSome then ps1.MemRequest + memReq else ps1.MemRequest
        CpuLimit := if c.Resources.Limits.isSome then ps1.CpuLimit + cpuLim else ps1.CpuLimit
        MemLimit := if c.Resources.Limits.isSome then ps1.MemLimit + memLim else ps1.MemLimit
        PodStorageRequest := ephReq.2
        PodStorageLimit := ephLim.2
        StorageRequest := ps1.StorageRequest + vols.StorageRequest
        StorageCapacity := ps1.StorageCapacity + vols.StorageCapacity } }

/-! ## processObject -/

/-- The standard-library function `strconv.Atoi`: an optional sign followed by decimal
digits, within the range of a 64-bit `int`; anything else is an error (`none`). -/
def atoi (s : String) : Option Int :=
  let cs := s.toList
  let neg : Bool := cs.head? = some '-'
  let ds : List Char := if cs.head? = some '-' ∨ cs.head? = some '+' then cs.tail else cs
  if ds.isEmpty || !ds.all Char.isDigit then none
  else
    let n : Int := ds.foldl (fun a ch => 10 * a + ((ch.toNat : Int) - 48)) 0
    let v : Int := if neg then -n else n
    if -9223372036854775808 ≤ v ∧ v ≤ 9223372036854775807 then some v else none

/-- The helper `compareString`. -/
def compareString (val1 val2 : String) (differ : Bool) : Bool :=
  if differ then differ else decide (val1 ≠ val2)

/-- The first label loop of `processObject`: the rendered labels and the owner taken from a
label whose key is `name`. -/
def labelsLoop (labels : GoMap String) (acc : String × String) : String × String :=
  labels.foldl
    (fun acc kv => (acc.1 ++ (kv.1 ++ ":" ++ kv.2 ++ ";"), if kv.1 = "name" then kv.2 else acc.2))
    acc

/-- The second label loop of `processObject`: application and tier name. -/
def appTierLoop (bag : AppDBag) (labels : GoMap String) (acc : String × String) : String × String :=
  labels.foldl
    (fun acc kv =>
      (if kv.1 = bag.AppDAppLabel then kv.2 else acc.1,
       if kv.1 = bag.AppDTierLabel then kv.2 else acc.2))
    acc

/-- What the annotation loop of `processObject` accumulates. -/
structure AnnAcc where
  Text : String := ""
  AppID : Int := 0
  TierID : Int := 0
  NodeID : Int := 0
  APMNodeName : String := ""

/-- The annotation loop of `processObject`; a value that `Atoi` rejects leaves the
identifier as it was. -/
def annotationsLoop (E : Env) (anns : GoMap String) (acc : AnnAcc) : AnnAcc :=
  anns.foldl
    (fun acc kv =>
      { Text := acc.Text ++ (kv.1 ++ ":" ++ kv.2 ++ ";")
        AppID := if kv.1 = E.APPD_APPID then (atoi kv.2).getD acc.AppID else acc.AppID
        TierID := if kv.1 = E.APPD_TIERID then (atoi kv.2).getD acc.TierID else acc.TierID
        NodeID := if kv.1 = E.APPD_NODEID then (atoi kv.2).getD acc.NodeID else acc.NodeID
        APMNodeName := if kv.1 = E.APPD_NODENAME then kv.2 else acc.APMNodeName })
    acc

/-- Lines 956 to 1048 of `processObject`: owner, eviction flag, identity, timestamps and
annotation-driven identifiers of a fresh record. -/
def identityPhase (E : Env) (bag : AppDBag) (p : Pod) : PodSchema :=
  let o := NewPodObj
  let lbl := labelsLoop p.Labels ("", o.Owner)
  let owner : String :=
    if lbl.2 = "" ∧ p.OwnerReferences.length > 0 then p.OwnerReferences.headD "" else lbl.2
  let appTier := appTierLoop bag p.Labels (o.AppName, o.TierName)
  let ann := annotationsLoop E p.Annotations
    { Text := "", AppID := o.AppID, TierID := o.TierID, NodeID := o.NodeID,
      APMNodeName := o.APMNodeName }
  { o with
    Owner := owner
    Reason := p.Status.Reason
    IsEvicted := if p.Status.Reason ≠ "" ∧ p.Status.Reason = "Evicted" then true else o.IsEvicted
    Labels := lbl.1
    Name := p.Name
    Namespace := p.Namespace
    NodeName := p.Spec.NodeName
    ClusterName := if p.ClusterName ≠ "" then p.ClusterName else bag.AppName
    StartTime := match p.Status.StartTime with
      | some t => some t
      | none => o.StartTime
    StartTimeMillis := match p.Status.StartTime with
      | some t => millis t
      | none => o.StartTimeMillis
    TerminationTime := match p.DeletionTimestamp with
      | some t => some t
      | none => o.TerminationTime
    TerminationTimeMillis := match p.DeletionTimestamp with
      | some t => millis t
      | none => o.TerminationTimeMillis
    AppName := appTier.1
    TierName := appTier.2
    AppID := ann.AppID
    TierID := ann.TierID
    NodeID := ann.NodeID
    APMNodeName := ann.APMNodeName
    Annotations := ann.Text
    HostIP := p.Status.HostIP
    PodIP := p.Status.PodIP }

/-- The loop of `processObject` over `p.Spec.Containers`. The map `Containers` was made just
before the loop whenever the list is not empty, so the write cannot hit the nil map. -/
def containersLoop (E : Env) (w : PodWorker) (p : Pod) (cs : List Container)
    (podObject : PodSchema) : PodSchema :=
  cs.foldl
    (fun podObject c =>
      let r := processContainer w p podObject c false
      { r.podSchema with
        Containers := some (mapSet (entries r.podSchema.Containers) c.Name r.containerObj)
        LimitsDefined := r.limitsDefined
        MissingDependencies := E.HasMissingDependencies r.containerObj
        NoConnectivity := E.NoConnectivity r.containerObj })
    podObject

/-- The loop of `processObject` over `p.Spec.InitContainers`; as above the map exists. -/
def initContainersLoop (w : PodWorker) (p : Pod) (cs : List Container)
    (podObject : PodSchema) : PodSchema :=
  cs.foldl
    (fun podObject c =>
      let r := processContainer w p podObject c true
      { r.podSchema with
        InitContainers := some (mapSet (entries r.podSchema.InitContainers) c.Name r.containerObj) })
    podObject

/-- Lines 1050 to 1093 of `processObject`, run for a pod that is not evicted: service and
endpoint correlation, container counts, and the two container loops. -/
def containersPhase (E : Env) (w : PodWorker) (p : Pod) (podObject : PodSchema) : PodSchema :=
  let po1 : PodSchema :=
    { podObject with
      Services := podObject.Services ++ (mapValues w.ServiceCache).filter (fun svc => svc.MatchesPod p)
      Endpoints := podObject.Endpoints ++ (mapValues w.EndpointCache).filter
        (fun ep => decide (ep.Namespace = podObject.Namespace) && selectorMatches ep.Labels p.Labels)
      InitContainerCount := p.Spec.InitContainers.length
      ContainerCount := p.Spec.Containers.length
      Containers := if p.Spec.Containers.length > 0 then some [] else podObject.Containers
      InitContainers := if p.Spec.InitContainers.length > 0 then some [] else podObject.InitContainers }
  initContainersLoop w p p.Spec.InitContainers (containersLoop E w p p.Spec.Containers po1)

/-- The toleration text: `"t0;"` for the first toleration, then `";t"` appended for each
further one, as the two `Sprintf` formats give it. -/
def tolerationsText (ts : List String) (start : String) : String :=
  match ts with
  | [] => start
  | t0 :: rest => rest.foldl (fun acc t => acc ++ ";" ++ t) (t0 ++ ";")

/-- The text of the required node selector terms. When `MatchFields` is set the source ranges
over `MatchExpressions` a second time, and so does this. -/
def nodeRequiredText (terms : List NodeSelectorTerm) : String :=
  terms.foldl
    (fun acc term =>
      let a1 : String := match term.MatchExpressions with
        | some mexs => mexs.foldl (fun a mex => a ++ (mex ++ ";")) acc
        | none => acc
      match term.MatchFields with
      | some _ => (term.MatchExpressions.getD []).foldl (fun a mfld => a ++ (mfld ++ ";")) a1
      | none => a1)
    ""

/-- The text of weighted pod affinity terms. -/
def weightedTermsText (terms : List WeightedPodAffinityTerm) : String :=
  terms.foldl
    (fun acc term =>
      acc ++ (toString term.Weight ++ " " ++ term.PodAffinityTerm.TopologyKey ++ " " ++
        term.PodAffinityTerm.LabelSelector ++ " " ++ term.PodAffinityTerm.Namespaces ++ ";"))
    ""

/-- The text of required pod affinity terms. -/
def requiredTermsText (terms : List PodAffinityTerm) : String :=
  terms.foldl
    (fun acc term => acc ++ (term.TopologyKey ++ " " ++ term.LabelSelector ++ " " ++ term.Namespaces ++ ";"))
    ""

/-- Lines 1162 to 1177: the anti-affinity texts. With required anti-affinity terms present
the source ranges over `p.Spec.Affinity.PodAffinity.Required...`, which dereferences the
pod-affinity pointer: a nil pointer there is a fault. -/
def antiAffinityPhase (aff : Affinity) (podObject : PodSchema) : Except Fault PodSchema :=
  match aff.PodAntiAffinity with
  | none => .ok podObject
  | some anti =>
    let po1 : PodSchema := match anti.Preferred with
      | some terms => { podObject with PodAntiAffinityPreferred := weightedTermsText terms }
      | none => podObject
    match anti.Required with
    | none => .ok po1
    | some _ =>
      match aff.PodAffinity with
      | none => .error Fault.nilDereference
      | some pa => .ok { po1 with PodAntiAffinityRequired := requiredTermsText (pa.Required.getD []) }

/-- Lines 1095 to 1178 of `processObject`: the scheduling-shape fields. -/
def schedulingPhase (p : Pod) (podObject : PodSchema) : Except Fault PodSchema :=
  let po1 : PodSchema :=
    { podObject with
      Priority := match p.Spec.Priority with
        | some v => v
        | none => podObject.Priority
      ServiceAccountName := p.Spec.ServiceAccountName
      TerminationGracePeriodSeconds := match p.Spec.TerminationGracePeriodSeconds with
        | some v => v
        | none => podObject.TerminationGracePeriodSeconds
      RestartPolicy := p.Spec.RestartPolicy
      Tolerations := match p.Spec.Tolerations with
        | some ts => tolerationsText ts podObject.Tolerations
        | none => podObject.Tolerations }
  match p.Spec.Affinity with
  | none => .ok po1
  | some aff =>
    let po2 : PodSchema := match aff.NodeAffinity with
      | none => po1
      | some na =>
        { po1 with
          NodeAffinityPreferred := match na.Preferred with
            | some terms => terms.foldl (fun acc pna => acc ++ (pna ++ ";")) ""
            | none => po1.NodeAffinityPreferred
          NodeAffinityRequired := match na.Required with
            | some (some terms) => nodeRequiredText terms
            | _ => po1.NodeAffinityRequired }
    let po3 : PodSchema := match aff.PodAffinity with
      | none => po2
      | some pa =>
        { po2 with
          PodAffinityPreferred := match pa.Preferred with
            | some terms => weightedTermsText terms
            | none => po2.PodAffinityPreferred
          PodAffinityRequired := match pa.Required with
            | some terms => requiredTermsText terms
            | none => po2.PodAffinityRequired }
    antiAffinityPhase aff po3

/-- The helper `findContainer`. -/
def findContainer (podObject : PodSchema) (containerName : String) : Option ContainerSchema :=
  mapGet (entries podObject.Containers) containerName

/-- The helper `findInitContainer`. -/
def findInitContainer (podObject : PodSchema) (containerName : String) : Option ContainerSchema :=
  mapGet (entries podObject.InitContainers) containerName

/-- The function `updateConatainerStatus`. The guarded statements update the container
record when there is one; the final write `podObject.Containers[containerObj.Name]` is not
guarded: it dereferences `containerObj` and writes to `Containers`, whatever map the record
was found in. A restart count above 10 fetches the logs. -/
def updateConatainerStatus (bag : AppDBag) (podObject : PodSchema)
    (containerObj : Option ContainerSchema) (st : ContainerStatus) :
    Except Fault (PodSchema × List Effect) :=
  let cobj : Option ContainerSchema := containerObj.map fun c =>
    { c with
      Restarts := st.RestartCount
      Image := st.Image
      WaitReason := match st.State.Waiting with
        | some reason => reason
        | none => c.WaitReason
      TermReason := match st.State.Terminated with
        | some t => t.Reason
        | none => c.TermReason
      TerminationTime := match st.State.Terminated with
        | some t => some t.FinishedAt
        | none => c.TerminationTime
      StartTime := match st.State.Running with
        | some startedAt => some startedAt
        | none => c.StartTime
      LastTerminationTime := match st.State.Running, st.LastTerminationState.Terminated with
        | some _, some lt => some lt.FinishedAt
        | _, _ => c.LastTerminationTime
      ExitCode := match st.State.Running, st.LastTerminationState.Terminated with
        | some _, some lt => lt.ExitCode
        | _, _ => c.ExitCode }
  let po1 : PodSchema :=
    { podObject with
      PodRestarts := podObject.PodRestarts + st.RestartCount
      TerminationTime := match st.State.Terminated, containerObj with
        | some t, some _ => some t.FinishedAt
        | _, _ => podObject.TerminationTime }
  match cobj with
  | none => .error Fault.nilDereference
  | some c =>
    match po1.Containers with
    | none => .error Fault.nilMapWrite
    | some m =>
      .ok ({ po1 with Containers := some (mapSet m c.Name c) },
        if c.Restarts > 10 then
          [Effect.saveLogs po1.ClusterName po1.Namespace po1.Owner po1.Name c.Name
            bag.SnapshotSyncInterval bag.EventAPILimit]
        else [])

/-- The two status loops of `processObject`: each status is looked up with `find` and folded
in by `updateConatainerStatus`; the first fault ends the run. -/
def statusLoop (bag : AppDBag) (find : PodSchema → String → Option ContainerSchema) :
    List ContainerStatus → PodSchema → Except Fault (PodSchema × List Effect)
  | [], podObject => .ok (podObject, [])
  | st :: rest, podObject =>
    match updateConatainerStatus bag podObject (find podObject st.Name) st with
    | .error f => .error f
    | .ok r1 =>
      match statusLoop bag find rest r1.1 with
      | .error f => .error f
      | .ok r2 => .ok (r2.1, r1.2 ++ r2.2)

/-- Lines 1190 to 1232 of `processObject`. The loop keeps `&cn`, the address of the loop
variable, whenever a condition is later than all before it; that variable is one and the
same for all iterations (the semantics of Go before 1.22, which this code base is written
for), so after the loop it holds the last condition of the list. -/
def conditionsPhase (conds : List PodCondition) (podObject : PodSchema) : PodSchema :=
  let r : Int × Bool := conds.foldl
    (fun acc cn =>
      if millis cn.LastTransitionTime > acc.1 then (millis cn.LastTransitionTime, true) else acc)
    (0, false)
  match (if r.2 then conds.getLast? else none) with
  | some lastCondition =>
    { podObject with
      ReasonCondition := lastCondition.Reason ++ ". " ++ lastCondition.Message
      StatusCondition := lastCondition.Status
      TypeCondition := lastCondition.CondType
      LastTransitionTimeCondition := some lastCondition.LastTransitionTime }
  | none => podObject

/-- Lines 1250 to 1263 of `processObject`: the first container, in iteration order, that has
a start time gives the running start and the break point. -/
def startTimePhase (podObject : PodSchema) : PodSchema :=
  match (mapValues (entries podObject.Containers)).find? (fun c => c.StartTime.isSome) with
  | some c =>
    { podObject with
      RunningStartTime := c.StartTime
      RunningStartTimeMillis := millis (c.StartTime.getD 0)
      BreakPointMillis := match c.LastTerminationTime with
        | some t => millis t
        | none => podObject.StartTimeMillis }
  | none => podObject

/-- Lines 1265 to 1280 of `processObject`: pending time and up time; `now` is `time.Now()`. -/
def pendingTimePhase (now : Time) (podObject : PodSchema) : PodSchema :=
  if podObject.Phase ≠ "Failed" ∧ podObject.StartTimeMillis > 0 then
    if podObject.RunningStartTimeMillis > 0 then
      { podObject with
        PendingTime := podObject.RunningStartTimeMillis - podObject.BreakPointMillis
        UpTimeMillis :=
          if podObject.TerminationTimeMillis > 0 then
            podObject.TerminationTimeMillis - podObject.BreakPointMillis
          else millis now - podObject.BreakPointMillis }
    else { podObject with PendingTime := millis now - podObject.StartTimeMillis }
  else podObject

/-- The usage loops of `processObject`: every entry of the map is written back with the usage
of the container of that name. -/
def usageLoop (md : PodMetricsObj) (m : NilMap ContainerSchema) : NilMap ContainerSchema :=
  m.map fun es =>
    es.foldl
      (fun acc kv =>
        mapSet acc kv.1
          { kv.2 with CpuUse := (md.GetContainerUsage kv.1).CPU, MemUse := (md.GetContainerUsage kv.1).Memory })
      es

/-- The function `GetPodMetricsSingle`: nil for a pod that is not running, else the object
`md` that the metrics query delivered. -/
def GetPodMetricsSingle (p : Pod) (md : PodMetricsObj) : Option PodMetricsObj :=
  if !IsPodRunnnig p then none else some md

/-- Lines 1282 to 1305 of `processObject`: live usage, for a running pod only. -/
def metricsPhase (p : Pod) (md : PodMetricsObj) (podObject : PodSchema) : PodSchema :=
  if IsPodRunnnig p then
    match GetPodMetricsSingle p md with
    | some podMetricsObj =>
      { podObject with
        CpuUse := podMetricsObj.GetPodUsage.CPU
        MemUse := podMetricsObj.GetPodUsage.Memory
        Containers := usageLoop podMetricsObj podObject.Containers
        InitContainers := usageLoop podMetricsObj podObject.InitContainers }
    | none => podObject
  else podObject

/-- Lines 1189 to 1306 of `processObject`, run for a pod that is not evicted. -/
def statusPhase (bag : AppDBag) (p : Pod) (now : Time) (md : PodMetricsObj)
    (podObject : PodSchema) : Except Fault (PodSchema × List Effect) :=
  match statusLoop bag findContainer p.Status.ContainerStatuses
      (conditionsPhase p.Status.Conditions podObject) with
  | .error f => .error f
  | .ok r1 =>
    match statusLoop bag findInitContainer p.Status.InitContainerStatuses r1.1 with
    | .error f => .error f
    | .ok r2 =>
      .ok (metricsPhase p md (pendingTimePhase now (startTimePhase r2.1)), r1.2 ++ r2.2)

/-- What a call of `processObject` leaves behind: the record, the `changed` flag, the worker
with its owner and namespace index updated, and the log fetches it made. -/
structure ProcessResult where
  record : PodSchema
  changed : Bool
  worker : PodWorker
  effects : List Effect

/-- The function `processObject`; `old` is the previous observation (`none` for nil), `now`
the clock and `md` the answer of the metrics query. -/
def processObject (E : Env) (w : PodWorker) (p : Pod) (old : Option Pod) (now : Time)
    (md : PodMetricsObj) : Except Fault ProcessResult :=
  let changed : Bool := true
  let oldObject : Option PodSchema := old.map fun _ => NewPodObj
  let po1 := identityPhase E w.Bag p
  let w1 : PodWorker :=
    { w with
      OwnerMap := mapSet w.OwnerMap (GetPodKey p) po1.Owner
      NamespaceMap := mapSet w.NamespaceMap p.Namespace p.Namespace }
  let po2 := if !po1.IsEvicted then containersPhase E w1 p po1 else po1
  match schedulingPhase p po2 with
  | .error f => .error f
  | .ok po3 =>
    let po4 : PodSchema :=
      { po3 with
        TerminationTime := match p.DeletionTimestamp with
          | some t => some t
          | none => po3.TerminationTime
        Phase := p.Status.Phase }
    let oldObject1 : Option PodSchema := match oldObject, old with
      | some o, some oldPod => some { o with Phase := oldPod.Status.Phase }
      | _, _ => oldObject
    match (if !po4.IsEvicted then statusPhase w1.Bag p now md po4 else .ok (po4, [])) with
    | .error f => .error f
    | .ok r =>
      .ok { record := r.1
            changed := match oldObject1 with
              | some o => compareString r.1.Phase o.Phase changed
              | none => changed
            worker := w1
            effects := r.2 }

/-! ## summarize -/

/-- Lines 655 to 675 of `summarize`: the global summary as it is created, with the service
and endpoint counts of the caches. -/
def newGlobalSummary (E : Env) (w : PodWorker) : ClusterPodMetrics :=
  let s0 := NewClusterPodMetrics w.Bag E.ALL E.ALL
  let s1 : ClusterPodMetrics :=
    { s0 with
      ServiceCount := w.ServiceCache.length
      ExtServiceCount := (mapValues w.ServiceCache).foldl
        (fun n svc => if svc.HasExternalService then n + 1 else n) s0.ExtServiceCount }
  (mapValues w.EndpointCache).foldl
    (fun s ep =>
      { s with
        EndpointCount := s.EndpointCount + 1
        EPReadyCount := s.EPReadyCount + (E.GetEPStats ep).1
        EPNotReadyCount := s.EPNotReadyCount + (E.GetEPStats ep).2.1
        OrphanEndpoint := if (E.GetEPStats ep).2.2 then s.OrphanEndpoint + 1 else s.OrphanEndpoint })
    s1

/-- Lines 690 to 713 of `summarize`: a namespace summary as it is created, with the service
and endpoint counts of that namespace. -/
def newNamespaceSummary (E : Env) (w : PodWorker) (ns : String) : ClusterPodMetrics :=
  let s0 := NewClusterPodMetrics w.Bag ns E.ALL
  let s1 : ClusterPodMetrics := (mapValues w.ServiceCache).foldl
    (fun s svc =>
      if svc.Namespace = ns then
        { s with
          ServiceCount := s.ServiceCount + 1
          ExtServiceCount := if svc.HasExternalService then s.ExtServiceCount + 1 else s.ExtServiceCount }
      else s)
    s0
  (mapValues w.EndpointCache).foldl
    (fun s ep =>
      if ep.Namespace = ns then
        { s with
          EndpointCount := s.EndpointCount + 1
          EPReadyCount := s.EPReadyCount + (E.GetEPStats ep).1
          EPNotReadyCount := s.EPNotReadyCount + (E.GetEPStats ep).2.1
          OrphanEndpoint := if (E.GetEPStats ep).2.2 then s.OrphanEndpoint + 1 else s.OrphanEndpoint }
      else s)
    s1

/-- Lines 726 to 732 of `summarize`: the quota scan. The loop does not stop at a match, so
the quota it ends with is the last one of the cache that applies to the pod. -/
def theQuota (E : Env) (w : PodWorker) (podObject : PodSchema) : Option ResourceQuota :=
  (mapValues w.RQCache).foldl
    (fun q rq => if E.AppliesToPod rq podObject then some rq else q) none

/-- Modelled from the spec: the methods `AddQuotaStatsToNamespaceMetrics` and
`IncrementQuotaStatsClusterMetrics` of the models package, outside the verified sources; the
quota is applied to the quota sub-metrics of the summary, kept here as the list of the
quotas applied. -/
def addQuotaStats (q : Option ResourceQuota) (s : ClusterPodMetrics) : ClusterPodMetrics :=
  match q with
  | some rq => { s with QuotasApplied := s.QuotasApplied ++ [rq] }
  | none => s

/-- Modelled from the spec: the method `AddQuotaStatsToAppMetrics` of the models package,
outside the verified sources; as `addQuotaStats`, for the application summary. -/
def addQuotaStatsApp (q : Option ResourceQuota) (s : ClusterAppMetrics) : ClusterAppMetrics :=
  match q with
  | some rq => { s with QuotasApplied := s.QuotasApplied ++ [rq] }
  | none => s

/-- Lines 720 to 737 of `summarize`: an application summary as it is created, with the
container counts of the pod and the quota found for it. -/
def newAppSummary (bag : AppDBag) (podObject : PodSchema) (quota : Option ResourceQuota) :
    ClusterAppMetrics :=
  addQuotaStatsApp quota
    { NewClusterAppMetrics bag podObject with
      ContainerCount := podObject.ContainerCount
      InitContainerCount := podObject.InitContainerCount }

/-- Lines 740 to 858 of `summarize`, as they act on the global summary and, field for field
alike, on the namespace summary. -/
def foldPod (podObject : PodSchema) (s : ClusterPodMetrics) : ClusterPodMetrics :=
  { s with
    PodCount := s.PodCount + 1
    ContainerCount := s.ContainerCount + podObject.ContainerCount
    NoLimits := if !podObject.LimitsDefined then s.NoLimits + 1 else s.NoLimits
    Privileged := s.Privileged + podObject.NumPrivileged
    NoLivenessProbe := s.NoLivenessProbe + podObject.LiveProbes
    NoReadinessProbe := s.NoReadinessProbe + podObject.ReadyProbes
    MissingDependencies :=
      if podObject.MissingDependencies then s.MissingDependencies + 1 else s.MissingDependencies
    NoConnectivity := if podObject.NoConnectivity then s.NoConnectivity + 1 else s.NoConnectivity
    LimitCpu := s.LimitCpu + podObject.CpuLimit
    LimitMemory := s.LimitMemory + podObject.MemLimit
    RequestCpu := s.RequestCpu + podObject.CpuRequest
    RequestMemory := s.RequestMemory + podObject.MemRequest
    InitContainerCount := s.InitContainerCount + podObject.InitContainerCount
    PodPending := if podObject.Phase = "Pending" then s.PodPending + 1 else s.PodPending
    PodFailed := if podObject.Phase = "Failed" then s.PodFailed + 1 else s.PodFailed
    PodRunning := if podObject.Phase = "Running" then s.PodRunning + 1 else s.PodRunning
    Evictions :=
      if podObject.Reason ≠ "" ∧ podObject.Reason = "Evicted" then s.Evictions + 1 else s.Evictions
    PendingTime := s.PendingTime + Int.tdiv podObject.PendingTime (s.PodCount + 1)
    UpTime := s.UpTime + Int.tdiv podObject.UpTimeMillis (s.PodCount + 1)
    PodRestarts := s.PodRestarts + podObject.PodRestarts
    UseCpu := s.UseCpu + podObject.CpuUse
    UseMemory := s.UseMemory + podObject.MemUse }

/-- Lines 740 to 858 of `summarize`, as they act on the node summary: no dependency,
connectivity or usage figures. -/
def foldPodNode (podObject : PodSchema) (s : ClusterPodMetrics) : ClusterPodMetrics :=
  { s with
    PodCount := s.PodCount + 1
    ContainerCount := s.ContainerCount + podObject.ContainerCount
    NoLimits := if !podObject.LimitsDefined then s.NoLimits + 1 else s.NoLimits
    Privileged := s.Privileged + podObject.NumPrivileged
    NoLivenessProbe := s.NoLivenessProbe + podObject.LiveProbes
    NoReadinessProbe := s.NoReadinessProbe + podObject.ReadyProbes
    LimitCpu := s.LimitCpu + podObject.CpuLimit
    LimitMemory := s.LimitMemory + podObject.MemLimit
    RequestCpu := s.RequestCpu + podObject.CpuRequest
    RequestMemory := s.RequestMemory + podObject.MemRequest
    InitContainerCount := s.InitContainerCount + podObject.InitContainerCount
    PodPending := if podObject.Phase = "Pending" then s.PodPending + 1 else s.PodPending
    PodFailed := if podObject.Phase = "Failed" then s.PodFailed + 1 else s.PodFailed
    PodRunning := if podObject.Phase = "Running" then s.PodRunning + 1 else s.PodRunning
    Evictions :=
      if podObject.Reason ≠ "" ∧ podObject.Reason = "Evicted" then s.Evictions + 1 else s.Evictions
    PendingTime := s.PendingTime + Int.tdiv podObject.PendingTime (s.PodCount + 1)
    UpTime := s.UpTime + Int.tdiv podObject.UpTimeMillis (s.PodCount + 1)
    PodRestarts := s.PodRestarts + podObject.PodRestarts }

/-- Lines 740 to 858 of `summarize`, as they act on the application summary: the container
counts are not added to. -/
def foldPodApp (podObject : PodSchema) (s : ClusterAppMetrics) : ClusterAppMetrics :=
  { s with
    PodCount := s.PodCount + 1
    NoLimits := if !podObject.LimitsDefined then s.NoLimits + 1 else s.NoLimits
    Privileged := s.Privileged + podObject.NumPrivileged
    NoLivenessProbe := s.NoLivenessProbe + podObject.LiveProbes
    NoReadinessProbe := s.NoReadinessProbe + podObject.ReadyProbes
    MissingDependencies :=
      if podObject.MissingDependencies then s.MissingDependencies + 1 else s.MissingDependencies
    NoConnectivity := if podObject.NoConnectivity then s.NoConnectivity + 1 else s.NoConnectivity
    LimitCpu := s.LimitCpu + podObject.CpuLimit
    LimitMemory := s.LimitMemory + podObject.MemLimit
    RequestCpu := s.RequestCpu + podObject.CpuRequest
    RequestMemory := s.RequestMemory + podObject.MemRequest
    PodPending := if podObject.Phase = "Pending" then s.PodPending + 1 else s.PodPending
    PodFailed := if podObject.Phase = "Failed" then s.PodFailed + 1 else s.PodFailed
    PodRunning := if podObject.Phase = "Running" then s.PodRunning + 1 else s.PodRunning
    Evictions :=
      if podObject.Reason ≠ "" ∧ podObject.Reason = "Evicted" then s.Evictions + 1 else s.Evictions
    PendingTime := s.PendingTime + Int.tdiv podObject.PendingTime (s.PodCount + 1)
    UpTime := s.UpTime + Int.tdiv podObject.UpTimeMillis (s.PodCount + 1)
    PodRestarts := s.PodRestarts + podObject.PodRestarts
    UseCpu := s.UseCpu + podObject.CpuUse
    UseMemory := s.UseMemory + podObject.MemUse }

/-- What the container loop of `summarize` accumulates: the container and instance summary
maps, and the storage figures it adds to the global and to the namespace summary. -/
structure ContAcc where
  ContainerSummaryMap : GoMap ClusterContainerMetrics
  InstanceSummaryMap : GoMap ClusterInstanceMetrics
  PodStorageLimit : Int := 0
  PodStorageRequest : Int := 0
  StorageCapacity : Int := 0
  StorageRequest : Int := 0

/-- The function `nextContainerInstance`: the summary it hands back is the new one when the
key was absent and the zero value of the type when the key was present; in the second case
the map is left as it is. -/
def nextContainerInstance (bag : AppDBag) (ism : GoMap ClusterInstanceMetrics)
    (podObject : PodSchema) (c : ContainerSchema) :
    ClusterInstanceMetrics × String × GoMap ClusterInstanceMetrics :=
  let instanceKey := podObject.Namespace ++ "_" ++ podObject.Owner ++ "_" ++ c.Name ++ "_" ++ podObject.Name
  match mapGet ism instanceKey with
  | some _ => ({}, instanceKey, ism)
  | none =>
    let summaryInstance := NewClusterInstanceMetrics bag podObject c.Name
    (summaryInstance, instanceKey, mapSet ism instanceKey summaryInstance)

/-- One round of the container loop of `summarize` (lines 862 to 904). -/
def containerStep (bag : AppDBag) (podObject : PodSchema) (acc : ContAcc) (c : ContainerSchema) :
    ContAcc :=
  let key := podObject.Namespace ++ "_" ++ podObject.Owner ++ "_" ++ c.Name
  let okCont := (mapGet acc.ContainerSummaryMap key).isSome
  let summaryContainer : ClusterContainerMetrics :=
    match mapGet acc.ContainerSummaryMap key with
    | some sc => { sc with Restarts := sc.Restarts + c.Restarts }
    | none =>
      let sc := NewClusterContainerMetrics bag podObject.Namespace podObject.Owner c.Name
      { sc with
        LimitCpu := c.CpuLimit
        LimitMemory := c.MemLimit
        RequestCpu := c.CpuRequest
        RequestMemory := c.MemRequest
        NoLivenessProbe := c.LiveProbes
        NoReadinessProbe := c.ReadyProbes
        PodStorageRequest := c.PodStorageRequest
        PodStorageLimit := c.PodStorageLimit
        StorageRequest := c.StorageRequest
        StorageCapacity := c.StorageCapacity
        NoLimits := if !c.LimitsDefined then 1 else sc.NoLimits
        Restarts := sc.Restarts + c.Restarts }
  let inst := nextContainerInstance bag acc.InstanceSummaryMap podObject c
  { ContainerSummaryMap := mapSet acc.ContainerSummaryMap key summaryContainer
    InstanceSummaryMap := mapSet inst.2.2 inst.2.1
      { inst.1 with UseCpu := c.CpuUse, UseMemory := c.MemUse, Restarts := c.Restarts }
    PodStorageLimit := if okCont then acc.PodStorageLimit else acc.PodStorageLimit + c.PodStorageLimit
    PodStorageRequest :=
      if okCont then acc.PodStorageRequest else acc.PodStorageRequest + c.PodStorageRequest
    StorageCapacity := if okCont then acc.StorageCapacity else acc.StorageCapacity + c.StorageCapacity
    StorageRequest := if okCont then acc.StorageRequest else acc.StorageRequest + c.StorageRequest }

/-- The container loop of `summarize`, skipped for an evicted pod. -/
def containerLoop (w : PodWorker) (podObject : PodSchema) : ContAcc :=
  let acc0 : ContAcc :=
    { ContainerSummaryMap := w.ContainerSummaryMap, InstanceSummaryMap := w.InstanceSummaryMap }
  if !podObject.IsEvicted then
    (mapValues (entries podObject.Containers)).foldl (containerStep w.Bag podObject) acc0
  else acc0

/-- The storage figures of the container loop, added to a summary. -/
def addStorage (acc : ContAcc) (s : ClusterPodMetrics) : ClusterPodMetrics :=
  { s with
    PodStorageLimit := s.PodStorageLimit + acc.PodStorageLimit
    PodStorageRequest := s.PodStorageRequest + acc.PodStorageRequest
    StorageCapacity := s.StorageCapacity + acc.StorageCapacity
    StorageRequest := s.StorageRequest + acc.StorageRequest }

/-- The function `summarize`: the record is folded into the global, node, namespace and
application summaries and, unless the pod is evicted, into the container and instance
summaries. The three pod summaries are read from `SummaryMap` one after the other, changed
as local copies and written back at the end in the order global, namespace, node. A pod count
of zero after the increment is a division by zero. -/
def summarize (E : Env) (w : PodWorker) (podObject : PodSchema) : Except Fault PodWorker :=
  let bag := w.Bag
  let summary0 := mapGetD w.SummaryMap E.ALL (newGlobalSummary E w)
  let m1 := mapEnsure w.SummaryMap E.ALL (newGlobalSummary E w)
  let summaryNode0 :=
    mapGetD m1 podObject.NodeName (NewClusterPodMetrics bag E.ALL podObject.NodeName)
  let m2 := mapEnsure m1 podObject.NodeName (NewClusterPodMetrics bag E.ALL podObject.NodeName)
  let summaryNS0 := mapGetD m2 podObject.Namespace (newNamespaceSummary E w podObject.Namespace)
  let m3 := mapEnsure m2 podObject.Namespace (newNamespaceSummary E w podObject.Namespace)
  let okApp := (mapGet w.AppSummaryMap podObject.Owner).isSome
  let quota : Option ResourceQuota := if okApp then none else theQuota E w podObject
  let summaryApp0 := mapGetD w.AppSummaryMap podObject.Owner (newAppSummary bag podObject quota)
  let summary := foldPod podObject (addQuotaStats quota summary0)
  let summaryNS := foldPod podObject (addQuotaStats quota summaryNS0)
  let summaryNode := foldPodNode podObject summaryNode0
  let summaryApp := foldPodApp podObject summaryApp0
  if summary.PodCount = 0 ∨ summaryNS.PodCount = 0 ∨ summaryNode.PodCount = 0 ∨
      summaryApp.PodCount = 0 then
    .error Fault.divideByZero
  else
    let acc := containerLoop w podObject
    .ok { w with
          AppSummaryMap := mapSet w.AppSummaryMap podObject.Owner summaryApp
          SummaryMap :=
            mapSet
              (mapSet (mapSet m3 E.ALL (addStorage acc summary)) podObject.Namespace
                (addStorage acc summaryNS))
              podObject.NodeName summaryNode
          ContainerSummaryMap := acc.ContainerSummaryMap
          InstanceSummaryMap := acc.InstanceSummaryMap }

/-! ## The dispatch queue -/

/-- The function `getNextQueueItem` on a queue that is not shut down: the oldest record and
the rest of the queue; on an empty queue `WQ.Get()` blocks, which is `none`. -/
def getNextQueueItem (queue : List PodSchema) : Option (PodSchema × List PodSchema) :=
  match queue with
  | [] => none
  | podRecord :: rest => some (podRecord, rest)

/-- The loop of `postContainerRecords`: `count` and the batch under construction, and the
batches posted so far. -/
def containerBatchLoop (limit : Int) (objList : List ContainerSchema) :
    Int × List ContainerSchema × List Effect :=
  objList.foldl
    (fun acc c =>
      let containerList := acc.2.1 ++ [c]
      if acc.1 = limit then (0 + 1, [], acc.2.2 ++ [Effect.postContainerBatchRecords containerList])
      else (acc.1 + 1, containerList, acc.2.2))
    (0, [], [])

/-- The function `postContainerRecords`: the calls of `postContainerBatchRecords` it makes. -/
def postContainerRecords (bag : AppDBag) (objList : List ContainerSchema) : List Effect :=
  let r := containerBatchLoop bag.EventAPILimit objList
  if r.1 > 0 then r.2.2 ++ [Effect.postContainerBatchRecords r.2.1] else r.2.2

/-- The loop `for count >= 0` of `flushQueue`, on the queue, the counter and the two lists
built so far. The match on the queue is `getNextQueueItem`; the result is the queue that is
left and the posts made, or `none` when the loop blocks on an empty queue. The loop is left
through the `return` that follows the first post. -/
def flushLoop (bag : AppDBag) :
    List PodSchema → Int → List PodSchema → List ContainerSchema →
      Option (List PodSchema × List Effect)
  | [], count, _, _ => if count ≥ 0 then none else some ([], [])
  | podRecord :: rest, count, objList, containerList =>
    if count ≥ 0 then
      let count1 := count - 1
      let objList1 := objList ++ [podRecord]
      let containerList1 := containerList ++ mapValues (entries podRecord.Containers)
      if count1 = 0 ∨ (objList1.length : Int) ≥ bag.EventAPILimit then
        some (rest, Effect.postPodRecords objList1 :: postContainerRecords bag containerList1)
      else flushLoop bag rest count1 objList1 containerList1
    else some (podRecord :: rest, [])

/-- The function `flushQueue`; `refreshed` is the service cache as `updateServiceCache`
leaves it. The result is `none` when the run blocks on the queue. -/
def flushQueue (w : PodWorker) (refreshed : GoMap ServiceSchema) :
    Option (PodWorker × List Effect) :=
  let w1 : PodWorker := { w with ServiceCache := refreshed }
  let count : Int := w1.WQ.length
  if count = 0 then some (w1, [])
  else
    match flushLoop w1.Bag w1.WQ count [] [] with
    | some r => some ({ w1 with WQ := r.1 }, r.2)
    | none => none

/-! ## Dashboard eligibility and instrumentation -/

/-- The function `tryDashboardCache`. -/
def tryDashboardCache (w : PodWorker) (podRecord : PodSchema) : PodWorker :=
  if StringInSlice podRecord.Owner w.Bag.DeploysToDashboard then
    { w with
      DashboardCache :=
        mapSet w.DashboardCache (GetKey podRecord.Namespace podRecord.Owner) podRecord }
  else w

/-- The function `checkForInstrumentation`; `st` is the status the attempt sends back on the
channel, read only when an attempt is dispatched. The dispatch itself is the effect
`instrument`. -/
def checkForInstrumentation (E : Env) (w : PodWorker) (podObj : Pod) (podSchema : PodSchema)
    (st : AttachStatus) : PodWorker × List Effect :=
  if E.IsPodInstrumented podObj then
    ({ w with PendingCache := RemoveFromSlice (GetPodKey podObj) w.PendingCache }, [])
  else if (match mapGet w.FailedCache (GetPodKey podObj) with
      | some status => decide (status.Count ≥ E.MAX_INSTRUMENTATION_ATTEMPTS)
      | none => false) then
    ({ w with PendingCache := RemoveFromSlice (GetPodKey podObj) w.PendingCache }, [])
  else if IsPodRunnnig podObj then
    if StringInSlice (GetPodKey podObj) w.PendingCache then (w, [])
    else
      let w1 : PodWorker := { w with PendingCache := w.PendingCache ++ [GetPodKey podObj] }
      if st.Success then
        if st.LastMessage ≠ "" then
          ({ w1 with PendingCache := RemoveFromSlice st.Key w1.PendingCache },
            [Effect.instrument (GetPodKey podObj),
             Effect.emitInstrumentationEvent (GetPodKey podObj) st.LastMessage true])
        else
          let w2 := tryDashboardCache w1 podSchema
          ({ w2 with PendingCache := RemoveFromSlice st.Key w2.PendingCache },
            [Effect.instrument (GetPodKey podObj),
             Effect.emitInstrumentationEvent (GetPodKey podObj) "Successfully instrumented" false])
      else
        let st1 : AttachStatus :=
          match mapGet w1.FailedCache st.Key with
          | some existing => { st with Count := existing.Count + 1 }
          | none => st
        ({ w1 with FailedCache := mapSet w1.FailedCache st.Key st1 },
          Effect.instrument (GetPodKey podObj) ::
            (if st.LastMessage ≠ "" then
              [Effect.emitInstrumentationEvent (GetPodKey podObj) st.LastMessage true]
            else []))
  else (w, [])

/-! ## The watch callbacks -/

/-- The function `qualifies`. -/
def qualifies (E : Env) (w : PodWorker) (p : Pod) : Bool :=
  E.NSQualifiesForMonitoring p.Namespace w.Bag

/-- The function `onNewPod`; `now`, `md` and `st` are the clock, the metrics answer and the
attempt status the call may read. -/
def onNewPod (E : Env) (w : PodWorker) (podObj : Pod) (now : Time) (md : PodMetricsObj)
    (st : AttachStatus) : Except Fault (PodWorker × List Effect) :=
  if !qualifies E w podObj then .ok (w, [])
  else
    match processObject E w podObj none now md with
    | .error f => .error f
    | .ok r =>
      let w1 := tryDashboardCache r.worker r.record
      let w2 : PodWorker := { w1 with WQ := w1.WQ ++ [r.record] }
      let chk := checkForInstrumentation E w2 podObj r.record st
      .ok (chk.1, r.effects ++ chk.2)

/-- The function `onDeletePod`. -/
def onDeletePod (E : Env) (w : PodWorker) (podObj : Pod) (now : Time) (md : PodMetricsObj) :
    Except Fault (PodWorker × List Effect) :=
  if !qualifies E w podObj then .ok (w, [])
  else
    match processObject E w podObj none now md with
    | .error f => .error f
    | .ok r =>
      .ok ({ r.worker with WQ := r.worker.WQ ++ [r.record] },
        r.effects ++ (if r.record.NodeID > 0 then [Effect.deleteAppDNode r.record.NodeID] else []))

/-- The function `onUpdatePod`. -/
def onUpdatePod (E : Env) (w : PodWorker) (podOldObj podObj : Pod) (now : Time)
    (md : PodMetricsObj) (st : AttachStatus) : Except Fault (PodWorker × List Effect) :=
  if !qualifies E w podObj then .ok (w, [])
  else
    match processObject E w podObj (some podOldObj) now md with
    | .error f => .error f
    | .ok r =>
      let w1 := tryDashboardCache r.worker r.record
      let w2 : PodWorker := if r.changed then { w1 with WQ := w1.WQ ++ [r.record] } else w1
      let chk := checkForInstrumentation E w2 podObj r.record st
      .ok (chk.1, r.effects ++ chk.2)

/-! ## The metrics cycle, as far as it folds records -/

/-- The first lines of `buildAppDMetrics`: the four summary maps are made anew. -/
def resetSummaries (w : PodWorker) : PodWorker :=
  { w with SummaryMap := [], AppSummaryMap := [], ContainerSummaryMap := [], InstanceSummaryMap := [] }

/-- The records of a list folded one after another by `summarize`; the first fault ends the
run. -/
def summarizeAll (E : Env) : PodWorker → List PodSchema → Except Fault PodWorker
  | w, [] => .ok w
  | w, podObject :: rest =>
    match summarize E w podObject with
    | .error f => .error f
    | .ok w1 => summarizeAll E w1 rest

/-- A sequence of evaluations by `checkForInstrumentation`, each with its pod, its record and
the status its attempt would report; the effects of all of them, in order. -/
def runChecks (E : Env) : PodWorker → List (Pod × PodSchema × AttachStatus) → PodWorker × List Effect
  | w, [] => (w, [])
  | w, call :: rest =>
    let r1 := checkForInstrumentation E w call.1 call.2.1 call.2.2
    let r2 := runChecks E r1.1 rest
    (r2.1, r1.2 ++ r2.2)

/-! ## Reading effects and summaries -/

/-- The batches handed to `postPodRecords`, in order. -/
def podPosts : List Effect → List (List PodSchema)
  | [] => []
  | Effect.postPodRecords objList :: rest => objList :: podPosts rest
  | _ :: rest => podPosts rest

/-- The pod keys for which an instrumentation attempt was dispatched, in order. -/
def attempts : List Effect → List String
  | [] => []
  | Effect.instrument podKey :: rest => podKey :: attempts rest
  | _ :: rest => attempts rest

/-- The value of a counter `f` in the summary stored under `k`, zero when there is none. -/
def counterAt (f : ClusterPodMetrics → Int) (m : GoMap ClusterPodMetrics) (k : String) : Int :=
  ((mapGet m k).map f).getD 0

/-- The global summary a call of `summarize` starts from: the one stored under `ALL`, or the
one the call creates. -/
def globalSummary (E : Env) (w : PodWorker) : ClusterPodMetrics :=
  mapGetD w.SummaryMap E.ALL (newGlobalSummary E w)

/-- The summary a call of `summarize` for the record `r` holds in its local copy for the key
`k`, where `k` is the global key, the node or the namespace of `r`: the stored one, or the
one the call creates for that key. -/
def slot (E : Env) (w : PodWorker) (r : PodSchema) (k : String) : ClusterPodMetrics :=
  mapGetD w.SummaryMap k
    (if k = E.ALL then newGlobalSummary E w
     else if k = r.NodeName then NewClusterPodMetrics w.Bag E.ALL r.NodeName
     else newNamespaceSummary E w r.Namespace)

/-- The quota a call of `summarize` for the record `r` applies: none when the application
summary of the owner exists already. -/
def quotaFor (E : Env) (w : PodWorker) (r : PodSchema) : Option ResourceQuota :=
  if (mapGet w.AppSummaryMap r.Owner).isSome then none else theQuota E w r

/-- The application summary a call of `summarize` for the record `r` writes back. -/
def appOutcome (E : Env) (w : PodWorker) (r : PodSchema) : ClusterAppMetrics :=
  foldPodApp r (mapGetD w.AppSummaryMap r.Owner (newAppSummary w.Bag r (quotaFor E w r)))

/-- The summary a call of `summarize` for the record `r` writes back under the global key
(`node = false`), under the namespace (`node = false`) or under the node (`node = true`). -/
def podOutcome (E : Env) (w : PodWorker) (r : PodSchema) (node : Bool) (k : String) :
    ClusterPodMetrics :=
  if node then foldPodNode r (slot E w r k)
  else addStorage (containerLoop w r) (foldPod r (addQuotaStats (quotaFor E w r) (slot E w r k)))

/-- The worker a call of `summarize` for the record `r` leaves when it does not fault. -/
def summarized (E : Env) (w : PodWorker) (r : PodSchema) : PodWorker :=
  { w with
    AppSummaryMap := mapSet w.AppSummaryMap r.Owner (appOutcome E w r)
    SummaryMap :=
      mapSet (mapSet (mapSet
        (mapEnsure (mapEnsure (mapEnsure w.SummaryMap E.ALL (newGlobalSummary E w))
          r.NodeName (NewClusterPodMetrics w.Bag E.ALL r.NodeName))
          r.Namespace (newNamespaceSummary E w r.Namespace))
        E.ALL (podOutcome E w r false E.ALL))
        r.Namespace (podOutcome E w r false r.Namespace))
        r.NodeName (podOutcome E w r true r.NodeName)
    ContainerSummaryMap := (containerLoop w r).ContainerSummaryMap
    InstanceSummaryMap := (containerLoop w r).InstanceSummaryMap }

/-- Every stored pod and application summary has a pod count that is not negative, as is
the case all through a metrics cycle. -/
def SummariesSane (w : PodWorker) : Prop :=
  (∀ k s, mapGet w.SummaryMap k = some s → 0 ≤ s.PodCount) ∧
    (∀ k s, mapGet w.AppSummaryMap k = some s → 0 ≤ s.PodCount)

/-! ## Counters of the record fold -/

/-- A pod summary with its service and endpoint counts blanked: what is left are the fields
that the folding of records writes. -/
def coreOf (s : ClusterPodMetrics) : ClusterPodMetrics :=
  { s with ServiceCount := 0, ExtServiceCount := 0, EndpointCount := 0, EPReadyCount := 0,
           EPNotReadyCount := 0, OrphanEndpoint := 0 }

/-- A counter of the record fold: a field that reads the blanked summary, is zero on a fresh
one, grows by `d r` in the global, namespace and node summary alike, and is left alone by
quota and storage figures. -/
structure IsCounter (f : ClusterPodMetrics → Int) (d : PodSchema → Int) : Prop where
  core : ∀ s, f s = f (coreOf s)
  fresh : ∀ ns nd, f { Namespace := ns, Nodename := nd } = 0
  fold : ∀ r s, f (foldPod r s) = f s + d r
  node : ∀ r s, f (foldPodNode r s) = f s + d r
  quota : ∀ q s, f (addQuotaStats q s) = f s
  storage : ∀ acc s, f (addStorage acc s) = f s

/-- The record `r` is folded into the summary stored under `k`. -/
def touches (E : Env) (r : PodSchema) (k : String) : Bool :=
  decide (r.NodeName = k ∨ r.Namespace = k ∨ E.ALL = k)

/-- A pod record with its scheduling-shape fields blanked: what is left are the fields that
lines 1095 to 1178 of `processObject` do not write. -/
def schedBlank (po : PodSchema) : PodSchema :=
  { po with
    Priority := 0, ServiceAccountName := "", TerminationGracePeriodSeconds := 0,
    RestartPolicy := "", Tolerations := "", NodeAffinityPreferred := "",
    NodeAffinityRequired := "", PodAffinityPreferred := "", PodAffinityRequired := "",
    PodAntiAffinityPreferred := "", PodAntiAffinityRequired := "" }

/-- A pod record with the fields blanked that lines 1189 to 1306 of `processObject` write:
last condition, restarts, termination time, the container maps, running start, break point,
pending and up time, and usage. -/
def statusBlank (po : PodSchema) : PodSchema :=
  { po with
    ReasonCondition := "", StatusCondition := "", TypeCondition := "",
    LastTransitionTimeCondition := none, PodRestarts := 0, TerminationTime := none,
    Containers := none, InitContainers := none, RunningStartTime := none,
    RunningStartTimeMillis := 0, BreakPointMillis := 0, PendingTime := 0, UpTimeMillis := 0,
    CpuUse := 0, MemUse := 0 }

/-- A pod record with phase, scheduling-shape fields and the fields of `statusBlank`
blanked: what is left is what lines 956 to 1093 of `processObject` decide. -/
def lateBlank (po : PodSchema) : PodSchema :=
  statusBlank (schedBlank { po with Phase := "" })

/-- The record as lines 956 to 1093 of `processObject` leave it: the identity lines and,
unless the pod is evicted, the correlation and container lines. -/
def earlyRecord (E : Env) (w : PodWorker) (p : Pod) : PodSchema :=
  if !(identityPhase E w.Bag p).IsEvicted then
    containersPhase E
      { w with
        OwnerMap := mapSet w.OwnerMap (GetPodKey p) (identityPhase E w.Bag p).Owner
        NamespaceMap := mapSet w.NamespaceMap p.Namespace p.Namespace }
      p (identityPhase E w.Bag p)
  else identityPhase E w.Bag p

/-- The failure count recorded for the key `k` has reached the attempt ceiling. -/
def AtCeiling (E : Env) (w : PodWorker) (k : String) : Prop :=
  ∃ status, mapGet w.FailedCache k = some status ∧ status.Count ≥ E.MAX_INSTRUMENTATION_ATTEMPTS

/-- The run ended in a nil dereference. -/
def isNilDeref {α : Type} (x : Except Fault α) : Bool :=
  match x with
  | .error Fault.nilDereference => true
  | _ => false

/-! ## Sample inputs -/

/-- A record of a pod in namespace `default` that runs on the node `edge`. -/
def recDefault : PodSchema := { Name := "agent-0", Namespace := "default", NodeName := "edge", Phase := "Running" }

/-- A record of a pod in namespace `edge`. -/
def recEdge : PodSchema := { Name := "probe-0", Namespace := "edge", NodeName := "worker-1", Phase := "Running" }

/-- A sample environment: global key `all`, a ceiling of three attempts, the instrumentation
marker read from an annotation. -/
def sampleEnv : Env :=
  { ALL := "all"
    MAX_INSTRUMENTATION_ATTEMPTS := 3
    APPD_APPID := "appd-appid"
    APPD_TIERID := "appd-tierid"
    APPD_NODEID := "appd-nodeid"
    APPD_NODENAME := "appd-nodename"
    IsPodInstrumented := fun p => decide (mapGet p.Annotations "appd-instrumented" = some "true")
    NSQualifiesForMonitoring := fun _ _ => true
    HasMissingDependencies := fun c => decide (c.MissingConfigs ≠ "" ∨ c.MissingSecrets ≠ "")
    NoConnectivity := fun c => decide (c.MissingServices ≠ "")
    GetEPStats := fun _ => (0, 0, false)
    AppliesToPod := fun rq p => decide (rq.Namespace = p.Namespace) }

/-- The pod of the end-to-end scenario: `web-1` in `ns1`, label `name=web`, running, one
container without resources or probes. -/
def web1 : Pod :=
  { Name := "web-1", Namespace := "ns1", Labels := [("name", "web")],
    Spec := { NodeName := "node1", Containers := [{ Name := "main" }] },
    Status := { Phase := "Running" } }

/-- The pod `web-1` one observation later: still running, now with a pod address. -/
def web1Later : Pod :=
  { web1 with Status := { web1.Status with PodIP := "10.0.0.7" } }

/-- The pod `web-1` with required anti-affinity terms and no pod affinity. -/
def web1AntiAffinity : Pod :=
  { web1 with
    Spec := { web1.Spec with
      Affinity := some { PodAntiAffinity := some { Required := some [{ TopologyKey := "kubernetes.io/hostname" }] } } } }

/-- An evicted pod. -/
def evictedPod : Pod :=
  { Name := "job-7", Namespace := "ns1",
    Spec := { NodeName := "node1", Containers := [{ Name := "main", Resources := { Limits := some [("cpu", 500)] } }] },
    Status := { Phase := "Failed", Reason := "Evicted" } }

/-- A worker with three records `a`, `b`, `c` queued and an event limit of `limit`. -/
def queued3 (limit : Int) : PodWorker :=
  { Bag := { EventAPILimit := limit },
    WQ := [{ Name := "a" }, { Name := "b" }, { Name := "c" }] }

/-- The pod `web-1` with the status reason `Evicted`, its phase still `Running`. -/
def web1Evicted : Pod := { web1 with Status := { web1.Status with Reason := "Evicted" } }

/-- The pod `web-1` with an init container next to its container. -/
def web1WithInit : Pod :=
  { web1 with Spec := { web1.Spec with InitContainers := [{ Name := "setup" }] } }

/-- The pod `web-1` carrying the marker of a finished instrumentation. -/
def web1Instrumented : Pod := { web1 with Annotations := [("appd-instrumented", "true")] }

/-- A worker in which `web-1` is pending and has one failed attempt on record. -/
def wFailedOnce : PodWorker :=
  { PendingCache := ["ns1/web-1"], FailedCache := [("ns1/web-1", { Key := "ns1/web-1", Count := 1 })] }

/-- A worker in which `web-1` is pending and has reached the sample ceiling of three
failed attempts. -/
def wCeiling : PodWorker :=
  { PendingCache := ["ns1/web-1"], FailedCache := [("ns1/web-1", { Key := "ns1/web-1", Count := 3 })] }

/-- The status of a failed attempt on `web-1`. -/
def failedAttempt : AttachStatus := { Key := "ns1/web-1", Count := 1, Success := false }

/-- The status of a successful attempt on `web-1`. -/
def goodAttempt : AttachStatus := { Key := "ns1/web-1", Success := true }

/-! ## The owner lookup of the dashboard path -/

/-- The standard-library function `strings.ToLower`, on the letters `A` to `Z`; label keys
are made of ASCII letters, digits and the signs `-`, `_`, `.` and `/`. -/
def toLower (s : String) : String := String.mk (s.toList.map Char.toLower)

/-- The function `getPodOwner`, the owner lookup next to `processObject`: the label key is
compared in lower case, and the name of the pod is the last resort. -/
def getPodOwner (p : Pod) : String :=
  let owner := p.Labels.foldl (fun owner kv => if toLower kv.1 = "name" then kv.2 else owner) ""
  let owner :=
    if owner = "" ∧ p.OwnerReferences.length > 0 then p.OwnerReferences.headD "" else owner
  if owner = "" then p.Name else owner

/-! ## Further sample inputs -/

/-- A pod `db-0` without labels and without owner references. -/
def barePod : Pod :=
  { Name := "db-0", Namespace := "ns1",
    Spec := { NodeName := "node1", Containers := [{ Name := "main" }] },
    Status := { Phase := "Running" } }

/-- The pod `db-0` with the label `Name=db`, the key written with a capital, and the owner
reference `db-set`. -/
def capitalPod : Pod := { barePod with Labels := [("Name", "db")], OwnerReferences := ["db-set"] }

/-! ## Reading the quotas applied -/

/-- The quotas applied to the pod summary stored under `k`, none when there is no summary. -/
def quotasAt (m : GoMap ClusterPodMetrics) (k : String) : List ResourceQuota :=
  ((mapGet m k).map fun s => s.QuotasApplied).getD []

/-- The quotas applied to the application summary stored under `o`. -/
def appQuotasAt (m : GoMap ClusterAppMetrics) (o : String) : List ResourceQuota :=
  ((mapGet m o).map fun s => s.QuotasApplied).getD []

/-- The first quota of the cache, in iteration order, that applies to the record. -/
def firstApplicable (E : Env) (w : PodWorker) (r : PodSchema) : Option ResourceQuota :=
  (mapValues w.RQCache).find? (fun rq => E.AppliesToPod rq r)

/-- The last quota of the cache, in iteration order, that applies to the record. -/
def lastApplicable (E : Env) (w : PodWorker) (r : PodSchema) : Option ResourceQuota :=
  ((mapValues w.RQCache).filter (fun rq => E.AppliesToPod rq r)).getLast?

/-- The quotas a summary receives in a cycle over the records `rs`, when `seen` are the
owners met before: a record with a new owner brings its last applicable quota, if the
summary is one the record selects by `sel`; a record whose owner was met brings nothing. -/
def quotasOfCycle (E : Env) (w : PodWorker) (sel : PodSchema → Bool) :
    List String → List PodSchema → List ResourceQuota
  | _, [] => []
  | seen, r :: rs =>
    (if sel r = true ∧ r.Owner ∉ seen then (lastApplicable E w r).toList else []) ++
      quotasOfCycle E w sel (r.Owner :: seen) rs

/-- Two quotas of the namespace `ns1`. -/
def quotaA : ResourceQuota := { Name := "quota-a", Namespace := "ns1" }

/-- The second quota of the namespace `ns1`. -/
def quotaB : ResourceQuota := { Name := "quota-b", Namespace := "ns1" }

/-- A worker whose quota cache holds `quota-a` before `quota-b`. -/
def wTwoQuotas : PodWorker := { RQCache := [("ns1/quota-a", quotaA), ("ns1/quota-b", quotaB)] }

/-- A record of the pod `web-1` of the owner `web`, in `ns1` on `node1`. -/
def recWebA : PodSchema :=
  { Name := "web-1", Namespace := "ns1", NodeName := "node1", Owner := "web", Phase := "Running" }

/-- A record of the pod `web-2` of the same owner, on `node2`. -/
def recWebB : PodSchema :=
  { Name := "web-2", Namespace := "ns1", NodeName := "node2", Owner := "web", Phase := "Running" }

/-- The record of `web-1` on a node that is named like the namespace, `ns1`. -/
def recOnNodeNs1 : PodSchema := { recWebA with NodeName := "ns1" }

/-! ## Averaged times of the record fold -/

/-- The shares of the values `f r` that the summary adds, record after record, when its pod
count was `n` before the first of them: each value divided by the pod count just
incremented, with the truncating division of Go. -/
def shares (f : PodSchema → Int) : Int → List PodSchema → Int
  | _, [] => 0
  | n, r :: rs => Int.tdiv (f r) (n + 1) + shares f (n + 1) rs

/-- A field `f` of the pod summary to which the folding of a record adds the value `d` of
the record divided by the pod count after the increment: zero in a new summary, left alone by
the quota and storage steps. -/
structure IsAverage (f : ClusterPodMetrics → Int) (d : PodSchema → Int) : Prop where
  core : ∀ s, f (coreOf s) = f s
  fresh : ∀ ns nd, f { Namespace := ns, Nodename := nd } = 0
  fold : ∀ r s, f (foldPod r s) = f s + Int.tdiv (d r) (s.PodCount + 1)
  node : ∀ r s, f (foldPodNode r s) = f s + Int.tdiv (d r) (s.PodCount + 1)
  quota : ∀ q s, f (addQuotaStats q s) = f s
  storage : ∀ a s, f (addStorage a s) = f s

/-! ## Reading the derived times -/

/-- The two derived times of a record: pending time and up time. -/
def timesOf (po : PodSchema) : Int × Int := (po.PendingTime, po.UpTimeMillis)

/-- The pod `web-1`, started at second 8, its container running since second 10. -/
def web1Started : Pod :=
  { web1 with
    Status := { web1.Status with
      StartTime := some 8000000000
      ContainerStatuses := [{ Name := "main", State := { Running := some 10000000000 } }] } }

/-- The pod `web-1`, started at second 8 and still pending, no container status yet. -/
def web1Waiting : Pod :=
  { web1 with Status := { Phase := "Pending", StartTime := some 8000000000 } }

/-- The pod `web-1` whose container runs since second 10 and reports a last termination
that finished at second 12. -/
def web1Restarted : Pod :=
  { web1 with
    Status := { web1.Status with
      StartTime := some 8000000000
      ContainerStatuses :=
        [{ Name := "main", State := { Running := some 10000000000 },
           LastTerminationState := { Terminated := some { FinishedAt := 12000000000 } } }] } }

/-! ## Conditions, container keys and deletion: what the claims compare with -/

/-- The condition with the greatest transition time, the first of them in list order when
several share that time. -/
def latestCondition (conds : List PodCondition) : Option PodCondition :=
  conds.foldl
    (fun best cn =>
      match best with
      | none => some cn
      | some b => if cn.LastTransitionTime > b.LastTransitionTime then some cn else some b)
    none

/-- The keys of a container map, in iteration order; none for the nil map. -/
def keysOf (m : NilMap ContainerSchema) : List String := (entries m).map Prod.fst

/-- The pod `web-1` with the four conditions a kubelet reports, in its order: initialized
and scheduled at second 8, not ready since second 10. -/
def web1Conditions : Pod :=
  { web1 with
    Status := { web1.Status with
      Conditions :=
        [{ CondType := "Initialized", Status := "True", LastTransitionTime := 8000000000 },
         { CondType := "Ready", Status := "False", Reason := "ContainersNotReady",
           LastTransitionTime := 10000000000 },
         { CondType := "ContainersReady", Status := "False", Reason := "ContainersNotReady",
           LastTransitionTime := 10000000000 },
         { CondType := "PodScheduled", Status := "True", LastTransitionTime := 8000000000 }] } }

/-- The pod `web-1` reporting the status of a container `istio-proxy` that its spec does not
have. -/
def web1Sidecar : Pod :=
  { web1 with Status := { web1.Status with ContainerStatuses := [{ Name := "istio-proxy" }] } }

/-- The pod `web-1` with the init container `setup`, reporting the status of `setup`. -/
def web1InitReported : Pod :=
  { web1WithInit with
    Status := { web1.Status with InitContainerStatuses := [{ Name := "setup" }] } }

/-- The pod `web-1` registered as backend node 42. -/
def web1Node42 : Pod := { web1 with Annotations := [("appd-nodeid", "42")] }

/-- The pod `web-1` registered as backend node 42, with required anti-affinity terms and no
pod affinity. -/
def web1Deregister : Pod := { web1AntiAffinity with Annotations := [("appd-nodeid", "42")] }

/-! ## Two runs of `processObject` -/

/-- The worker without its owner and namespace index: configuration and caches. -/
def cachesOf (w : PodWorker) : PodWorker := { w with OwnerMap := [], NamespaceMap := [] }

/-- What a run of `processObject` hands to its caller and to the outside: the record, the
`changed` flag and the log fetches, or the fault. -/
def outcomeOf (x : Except Fault ProcessResult) : Except Fault (PodSchema × Bool × List Effect) :=
  match x with
  | .error f => .error f
  | .ok r => .ok (r.record, r.changed, r.effects)

/-- The pod `web-1` with the labels `app=shop` and `tier=web`, visited in this order. -/
def web1TwoLabels : Pod := { web1 with Labels := [("app", "shop"), ("tier", "web")] }

/-- The same pod with the same label map, visited in the other order. -/
def web1TwoLabelsSwapped : Pod := { web1 with Labels := [("tier", "web"), ("app", "shop")] }

/-- An answer of the metrics query that reports usage for the pod. -/
def busyMetrics : PodMetricsObj := { GetPodUsage := { CPU := 250, Memory := 64 } }

/-- A worker in which `web-1` has one failed attempt on record and is not pending. -/
def wFailedBefore : PodWorker :=
  { FailedCache := [("ns1/web-1", { Key := "ns1/web-1", Count := 1 })] }

/-! ## The owner as the specification derives it -/

/-- The value of the first label, in iteration order, whose key is `name` in lower case. -/
def nameLabel (p : Pod) : Option String :=
  (p.Labels.find? (fun kv => decide (toLower kv.1 = "name"))).map Prod.snd

/-- The owner by the three-step rule: the value of the `name` label when it is not empty,
else the name of the first owner reference when there is one and it is not empty, else the
name of the pod. -/
def ownerBySpec (p : Pod) : String :=
  match nameLabel p with
  | some v =>
    if v ≠ "" then v
    else match p.OwnerReferences with
      | ref :: _ => if ref ≠ "" then ref else p.Name
      | [] => p.Name
  | none =>
    match p.OwnerReferences with
    | ref :: _ => if ref ≠ "" then ref else p.Name
    | [] => p.Name

/-- The pod `web-1` with two containers: `main` declares a limit, `sidecar`, the last one,
declares nothing. -/
def web1TwoContainers : Pod :=
  { web1 with
    Spec := { web1.Spec with
      Containers :=
        [{ Name := "main", Resources := { Limits := some [("cpu", 500)] } }, { Name := "sidecar" }] } }

/-! ## Container batches and log lines -/

/-- The batches handed to `postContainerBatchRecords`, in order. -/
def containerPosts : List Effect → List (List ContainerSchema)
  | [] => []
  | Effect.postContainerBatchRecords objList :: rest => objList :: containerPosts rest
  | _ :: rest => containerPosts rest

/-- Three container records `a`, `b`, `c`. -/
def threeContainers : List ContainerSchema := [{ Name := "a" }, { Name := "b" }, { Name := "c" }]

/-- The standard-library call `strings.Split(l, " ")`: the fields between the spaces, one
field for a text without a space. -/
def splitOnSpace : List Char → List (List Char)
  | [] => [[]]
  | c :: cs =>
    if c = ' ' then [] :: splitOnSpace cs
    else
      match splitOnSpace cs with
      | f :: fs => (c :: f) :: fs
      | [] => [[c]]

/-- The standard-library function `strings.TrimLeft(s, cutset)`: `s` without its leading
characters that occur in `cutset`. -/
def trimLeft (s cutset : List Char) : List Char :=
  s.dropWhile (fun ch => decide (ch ∈ cutset))

/-- The body of the line loop of `saveLogs`, as far as it decides the field `Message` of the
log record: none for an empty line, which gets no record. The line is ASCII text, so that
bytes and characters are the same; `maxFieldLength` is the constant `app.MAX_FIELD_LENGTH`,
which is outside the verified sources. -/
def logMessage (maxFieldLength : Nat) (l : String) : Option String :=
  if l ≠ "" then
    let line := splitOnSpace l.toList
    let m : List Char :=
      if line.length > 0 then
        if line.length > 1 then trimLeft l.toList (line.headD [] ++ [' ']) else l.toList
      else l.toList
    let m : List Char :=
      if m.length ≥ maxFieldLength then m.drop (m.length - maxFieldLength) else m
    some (String.mk m)
  else none

/-! ## processNamespaces -/

/-- The inner loop of `processNamespaces`: the number of quotas of the namespace `name`. -/
def quotaCount (w : PodWorker) (name : String) : Int :=
  (mapValues w.RQCache).foldl (fun count rq => if rq.Namespace = name then count + 1 else count) 0

/-- What the outer loop of `processNamespaces` accumulates: the namespace cache, the list
`updated` and the counter `NamespaceNoQuotas` of the global summary. -/
structure NsAcc where
  NSCache : GoMap NsSchema := []
  updated : List NsSchema := []
  NamespaceNoQuotas : Int := 0

/-- One round of the outer loop of `processNamespaces`, for the entry `kv` of `NSCache`. -/
def namespaceStep (w : PodWorker) (acc : NsAcc) (kv : String × NsSchema) : NsAcc :=
  let count := quotaCount w kv.2.Name
  let acc1 : NsAcc :=
    { acc with
      NamespaceNoQuotas := if count = 0 then acc.NamespaceNoQuotas + 1 else acc.NamespaceNoQuotas }
  if kv.2.Quotas ≠ count then
    { acc1 with
      updated := acc1.updated ++ [{ kv.2 with Quotas := count }]
      NSCache := mapSet acc1.NSCache kv.1 { kv.2 with Quotas := count } }
  else acc1

/-- The outer loop of `processNamespaces`, a range over `NSCache`. -/
def namespaceLoop (w : PodWorker) (acc : NsAcc) : NsAcc :=
  w.NSCache.foldl (namespaceStep w) acc

/-- The function `processNamespaces`. The second component is the list `updated`, which is
handed to `postNSBatchRecords` when it is not empty. Without a global summary the function
does nothing. -/
def processNamespaces (E : Env) (w : PodWorker) : PodWorker × List NsSchema :=
  match mapGet w.SummaryMap E.ALL with
  | some summary =>
    let acc := namespaceLoop w
      { NSCache := w.NSCache, updated := [], NamespaceNoQuotas := summary.NamespaceNoQuotas }
    ({ w with
       NSCache := acc.NSCache
       SummaryMap := mapSet w.SummaryMap E.ALL
         { summary with
           NamespaceCount := (w.NSCache.length : Int)
           NamespaceNoQuotas := acc.NamespaceNoQuotas } },
     acc.updated)
  | none => (w, [])

/-- A namespace record with `Quotas` set to the number of quotas in `RQCache` whose namespace
is the name of the record. -/
def recounted (w : PodWorker) (ns : NsSchema) : NsSchema :=
  { ns with Quotas := ((mapValues w.RQCache).countP (fun rq => decide (rq.Namespace = ns.Name)) : Int) }

/-! ## The metrics cycle: records, namespaces and dashboard bags -/

/-- Modelled from the spec: the type `m.HeatNode` of the models package, outside the verified
sources; a node of the heat map, derived from one pod record. -/
structure HeatNode where
  Namespace : String := ""
  Nodename : String := ""
  Podname : String := ""
  Owner : String := ""
  State : String := ""

/-- Modelled from the spec: the constructor `m.NewHeatNode`, outside the verified sources. -/
def NewHeatNode (podSchema : PodSchema) : HeatNode :=
  { Namespace := podSchema.Namespace, Nodename := podSchema.NodeName, Podname := podSchema.Name,
    Owner := podSchema.Owner, State := podSchema.Phase }

/-- Modelled from the spec: the type `m.DashboardBag` of the models package, outside the
verified sources, with the fields `buildAppDMetrics` writes; `BagType` is `tier` or
`cluster`. -/
structure DashboardBag where
  BagType : String := ""
  Namespace : String := ""
  TierName : String := ""
  AppName : String := ""
  ClusterName : String := ""
  ClusterAppID : Int := 0
  ClusterTierID : Int := 0
  ClusterNodeID : Int := 0
  AppID : Int := 0
  TierID : Int := 0
  NodeID : Int := 0
  Pods : List PodSchema := []
  HeatNodes : List HeatNode := []

/-- Modelled from the spec: the constructor `m.NewDashboardBagTier`, outside the verified
sources. -/
def NewDashboardBagTier (ns tier : String) (pods : List PodSchema) : DashboardBag :=
  { BagType := "tier", Namespace := ns, TierName := tier, Pods := pods }

/-- Modelled from the spec: the constructor `m.NewDashboardBagCluster`, outside the verified
sources. -/
def NewDashboardBagCluster (heatMapData : List HeatNode) : DashboardBag :=
  { BagType := "cluster", HeatNodes := heatMapData }

/-- The function `shouldUpdateDashboard`. -/
def shouldUpdateDashboard (w : PodWorker) (podRecord : PodSchema) : Bool :=
  (mapGet w.DashboardCache (GetKey podRecord.Namespace podRecord.Owner)).isSome

/-- The tier bag `buildAppDMetrics` makes when the key of the record has no bag yet. -/
def newTierBag (bag : AppDBag) (podSchema : PodSchema) : DashboardBag :=
  { NewDashboardBagTier podSchema.Namespace podSchema.Owner [] with
    AppName := podSchema.AppName
    ClusterName := podSchema.ClusterName
    ClusterAppID := bag.AppID
    ClusterTierID := bag.TierID
    ClusterNodeID := bag.NodeID
    AppID := podSchema.AppID
    TierID := podSchema.TierID
    NodeID := podSchema.NodeID }

/-- The lines of `buildAppDMetrics` that add a record to the bag of its key in `dash`. -/
def dashStep (bag : AppDBag) (dash : GoMap DashboardBag) (podSchema : PodSchema) :
    GoMap DashboardBag :=
  let key := GetKey podSchema.Namespace podSchema.Owner
  let dashBag : DashboardBag :=
    match mapGet dash key with
    | some b => b
    | none => newTierBag bag podSchema
  mapSet dash key { dashBag with Pods := dashBag.Pods ++ [podSchema] }

/-- The state of the pod loop of `buildAppDMetrics`: the worker, the bag map `dash`, the heat
map, the counter and the log fetches made. -/
structure LoopState where
  worker : PodWorker
  dash : GoMap DashboardBag := []
  heatMapData : List HeatNode := []
  count : Int := 0
  effects : List Effect := []

/-- The pods of the informer store as a cycle sees them: each pod with the clock and the
answer of the metrics query that its `processObject` reads. -/
abbrev Snapshot := List (Pod × Time × PodMetricsObj)

/-- The pod loop of `buildAppDMetrics`: each pod is processed, its record summarized, its
heat node appended and, when its key is in `DashboardCache`, the record added to the bag of
the key. The endpoint matching of the loop works on copies and leaves no trace. The first
fault ends the run. -/
def podLoop (E : Env) (bag : AppDBag) : LoopState → Snapshot → Except Fault LoopState
  | s, [] => .ok s
  | s, obj :: rest =>
    match processObject E s.worker obj.1 none obj.2.1 obj.2.2 with
    | .error f => .error f
    | .ok r =>
      match summarize E r.worker r.record with
      | .error f => .error f
      | .ok w2 =>
        podLoop E bag
          { worker := w2
            dash := if shouldUpdateDashboard w2 r.record then dashStep bag s.dash r.record else s.dash
            heatMapData := s.heatMapData ++ [NewHeatNode r.record]
            count := s.count + 1
            effects := s.effects ++ r.effects }
          rest

/-- What a run of `buildAppDMetrics` leaves: the worker, the namespace records handed to
`postNSBatchRecords`, the bag map handed to `buildDashboards` (none when it is not invoked)
and the log fetches. -/
structure CycleResult where
  worker : PodWorker
  updated : List NsSchema
  dashboards : Option (GoMap DashboardBag)
  effects : List Effect

/-- The cluster bag of `buildAppDMetrics`. -/
def clusterBag (bag : AppDBag) (heatMapData : List HeatNode) : DashboardBag :=
  { NewDashboardBagCluster heatMapData with
    ClusterName := bag.AppName
    ClusterAppID := bag.AppID
    ClusterTierID := bag.TierID
    ClusterNodeID := bag.NodeID }

/-- The first lines of `buildAppDMetrics`: the summary maps made anew and the service cache
as `updateServiceCache` leaves it. -/
def cycleStart (w : PodWorker) (refreshed : GoMap ServiceSchema) : PodWorker :=
  { resetSummaries w with ServiceCache := refreshed }

/-- The lines of `buildAppDMetrics` after the pod loop: `processNamespaces` and, unless the
dashboards are delayed, the cluster bag stored under the application name and the bag map
handed on. -/
def cycleEnd (E : Env) (bag : AppDBag) (s : LoopState) : CycleResult :=
  let ns := processNamespaces E s.worker
  { worker := ns.1
    updated := ns.2
    dashboards :=
      if !ns.1.DelayDashboard then some (mapSet s.dash bag.AppName (clusterBag bag s.heatMapData))
      else none
    effects := s.effects }

/-- The function `buildAppDMetrics`, as far as it decides the namespace cache, the namespace
records posted and the dashboard bags; the metric list and the endpoint records it posts are
left out. -/
def buildAppDMetrics (E : Env) (w : PodWorker) (refreshed : GoMap ServiceSchema)
    (store : Snapshot) : Except Fault CycleResult :=
  match podLoop E w.Bag { worker := cycleStart w refreshed } store with
  | .error f => .error f
  | .ok s => .ok (cycleEnd E w.Bag s)

/-- The worker as far as `processObject` reads it: configuration and the five caches the
correlation and container lines look into. -/
def inputsOf (w : PodWorker) : PodWorker :=
  { Bag := w.Bag, ServiceCache := w.ServiceCache, EndpointCache := w.EndpointCache,
    PVCCache := w.PVCCache, CMCache := w.CMCache, SecretCache := w.SecretCache }

/-- The record `processObject` returns for a pod of the snapshot, none when it faults. -/
def recordOf (E : Env) (w : PodWorker) (obj : Pod × Time × PodMetricsObj) : Option PodSchema :=
  match processObject E w obj.1 none obj.2.1 obj.2.2 with
  | .ok r => some r.record
  | .error _ => none

/-- The records of the pods of a snapshot, in order. -/
def snapshotRecords (E : Env) (w : PodWorker) (store : Snapshot) : List PodSchema :=
  store.filterMap (recordOf E w)

/-- The worker with the fields blanked that the pod loop writes: the four summary maps and
the owner and namespace index. -/
def staticOf (w : PodWorker) : PodWorker :=
  { w with
    SummaryMap := [], AppSummaryMap := [], ContainerSummaryMap := [], InstanceSummaryMap := [],
    OwnerMap := [], NamespaceMap := [] }

/-- The key of a record in `DashboardCache` and in the bag map. -/
def dashKey (podSchema : PodSchema) : String := GetKey podSchema.Namespace podSchema.Owner

/-- The tier bag holding the given records, made for the first of them; none for no record. -/
def tierBagOf (bag : AppDBag) (pods : List PodSchema) : Option DashboardBag :=
  match pods with
  | [] => none
  | r0 :: t => some { newTierBag bag r0 with Pods := r0 :: t }

/-- A worker with two quotas in `ns1` and the namespace record of `ns1` still at no quota. -/
def wStaleNamespace : PodWorker :=
  { wTwoQuotas with NSCache := [("ns1", { Name := "ns1", Quotas := 0 })] }

/-- A worker past the warm-up, application name `cluster1`, with the workload `web` of `ns1`
in the dashboard cache. -/
def wDash : PodWorker :=
  { Bag := { AppName := "cluster1", DeploysToDashboard := ["web"] },
    DashboardCache := [("ns1/web", { Name := "web-1", Namespace := "ns1", Owner := "web" })],
    DelayDashboard := false }

/-- The worker `wDash` with the application name `ns1/web`. -/
def wDashColliding : PodWorker := { wDash with Bag := { wDash.Bag with AppName := "ns1/web" } }

/-- The worker `wDash` during the warm-up. -/
def wDashDelayed : PodWorker := { wDash with DelayDashboard := true }

/-! ## Lemmas on maps and on `summarize` -/

/-- Reading a map after a write. -/
theorem mapGet_mapSet {α : Type} (m : GoMap α) (k k' : String) (v : α) :
    mapGet (mapSet m k v) k' = if k = k' then some v else mapGet m k' := by
  induction m with
  | nil => simp [mapSet, mapGet]
  | cons e t ih =>
    obtain ⟨k0, v0⟩ := e
    by_cases h0 : k0 = k
    · subst h0
      by_cases h1 : k0 = k' <;> simp [mapSet, mapGet, h1]
    · simp only [mapSet, if_neg h0, mapGet, ih]
      by_cases h2 : k0 = k'
      · have h3 : ¬ k = k' := fun e => h0 (h2.trans e.symm)
        simp [h2, h3]
      · simp [h2]

/-- Reading a map after the get-or-create idiom. -/
theorem mapGet_mapEnsure {α : Type} (m : GoMap α) (k k' : String) (v : α) :
    mapGet (mapEnsure m k v) k' = if k = k' then some (mapGetD m k v) else mapGet m k' := by
  unfold mapEnsure mapGetD
  by_cases hk : k = k'
  · subst hk
    cases hm : mapGet m k <;> simp [hm, mapGet_mapSet]
  · cases hm : mapGet m k <;> simp [hm, mapGet_mapSet, hk]

/-- The pod count after a fold. -/
@[simp] theorem foldPod_PodCount (r : PodSchema) (s : ClusterPodMetrics) :
    (foldPod r s).PodCount = s.PodCount + 1 := rfl

/-- The pod count after a fold into a node summary. -/
@[simp] theorem foldPodNode_PodCount (r : PodSchema) (s : ClusterPodMetrics) :
    (foldPodNode r s).PodCount = s.PodCount + 1 := rfl

/-- The pod count after a fold into an application summary. -/
@[simp] theorem foldPodApp_PodCount (r : PodSchema) (s : ClusterAppMetrics) :
    (foldPodApp r s).PodCount = s.PodCount + 1 := rfl

/-- Applying a quota leaves the pod count alone. -/
@[simp] theorem addQuotaStats_PodCount (q : Option ResourceQuota) (s : ClusterPodMetrics) :
    (addQuotaStats q s).PodCount = s.PodCount := by
  cases q <;> rfl

/-- Adding storage figures leaves the pod count alone. -/
@[simp] theorem addStorage_PodCount (acc : ContAcc) (s : ClusterPodMetrics) :
    (addStorage acc s).PodCount = s.PodCount := rfl

/-- The function `summarize` in closed form: it faults exactly on a zero divisor and else
leaves `summarized`; each local copy is the `slot` of its key, whatever keys coincide. -/
theorem summarize_eq (E : Env) (w : PodWorker) (r : PodSchema) :
    summarize E w r =
      if (slot E w r E.ALL).PodCount + 1 = 0 ∨ (slot E w r r.Namespace).PodCount + 1 = 0 ∨
          (slot E w r r.NodeName).PodCount + 1 = 0 ∨ (appOutcome E w r).PodCount = 0 then
        .error Fault.divideByZero
      else .ok (summarized E w r) := by
  have hA : mapGetD w.SummaryMap E.ALL (newGlobalSummary E w) = slot E w r E.ALL := by
    simp [slot]
  have hN : mapGetD (mapEnsure w.SummaryMap E.ALL (newGlobalSummary E w)) r.NodeName
      (NewClusterPodMetrics w.Bag E.ALL r.NodeName) = slot E w r r.NodeName := by
    unfold mapGetD
    rw [mapGet_mapEnsure]
    by_cases h : E.ALL = r.NodeName
    · simp [h, slot, mapGetD]
    · have h' : ¬ r.NodeName = E.ALL := fun e => h e.symm
      simp [h, h', slot, mapGetD]
  have hS : mapGetD (mapEnsure (mapEnsure w.SummaryMap E.ALL (newGlobalSummary E w)) r.NodeName
      (NewClusterPodMetrics w.Bag E.ALL r.NodeName)) r.Namespace
      (newNamespaceSummary E w r.Namespace) = slot E w r r.Namespace := by
    unfold mapGetD
    rw [mapGet_mapEnsure, mapGet_mapEnsure]
    by_cases h1 : r.NodeName = r.Namespace
    · simp only [h1, if_true, Option.getD_some]
      rw [← h1]; exact hN
    · by_cases h2 : E.ALL = r.Namespace
      · simp [h1, h2, slot, mapGetD]
      · have h1' : ¬ r.Namespace = r.NodeName := fun e => h1 e.symm
        have h2' : ¬ r.Namespace = E.ALL := fun e => h2 e.symm
        simp [h1, h2, h1', h2', slot, mapGetD]
  unfold summarize
  simp only [hA, hN, hS]
  simp only [foldPod_PodCount, foldPodNode_PodCount, addQuotaStats_PodCount]
  rfl

/-- What `summarize` leaves under a key of the pod summary map. -/
theorem summarized_lookup (E : Env) (w : PodWorker) (r : PodSchema) (k : String) :
    mapGet (summarized E w r).SummaryMap k =
      if r.NodeName = k then some (podOutcome E w r true k)
      else if r.Namespace = k then some (podOutcome E w r false k)
      else if E.ALL = k then some (podOutcome E w r false k)
      else mapGet w.SummaryMap k := by
  simp only [summarized, mapGet_mapSet, mapGet_mapEnsure]
  by_cases h1 : r.NodeName = k
  · subst h1; simp
  · by_cases h2 : r.Namespace = k
    · subst h2; simp [h1]
    · by_cases h3 : E.ALL = k
      · subst h3; simp [h1, h2]
      · simp [h1, h2, h3]

/-- A fold whose step leaves the blanked summary alone leaves it alone. -/
theorem foldl_coreOf {β : Type} (g : ClusterPodMetrics → β → ClusterPodMetrics)
    (hg : ∀ s b, coreOf (g s b) = coreOf s) (l : List β) (s : ClusterPodMetrics) :
    coreOf (l.foldl g s) = coreOf s := by
  induction l generalizing s with
  | nil => rfl
  | cons b t ih => rw [List.foldl_cons, ih, hg]

/-- A new global summary has all its record counters at zero. -/
theorem newGlobalSummary_core (E : Env) (w : PodWorker) :
    coreOf (newGlobalSummary E w) = { Namespace := E.ALL, Nodename := E.ALL } := by
  unfold newGlobalSummary
  rw [foldl_coreOf]
  · rfl
  · intro s b; rfl

/-- A new namespace summary has all its record counters at zero. -/
theorem newNamespaceSummary_core (E : Env) (w : PodWorker) (ns : String) :
    coreOf (newNamespaceSummary E w ns) = { Namespace := ns, Nodename := E.ALL } := by
  unfold newNamespaceSummary
  rw [foldl_coreOf, foldl_coreOf]
  · rfl
  · intro s b; dsimp only; split <;> rfl
  · intro s b; dsimp only; split <;> rfl

/-- The local copy for a key that is not stored is a fresh summary. -/
theorem slot_core_of_none (E : Env) (w : PodWorker) (r : PodSchema) (k : String)
    (h : mapGet w.SummaryMap k = none) :
    ∃ ns nd, coreOf (slot E w r k) = { Namespace := ns, Nodename := nd } := by
  unfold slot mapGetD
  rw [h]
  simp only [Option.getD_none]
  split
  · exact ⟨_, _, newGlobalSummary_core E w⟩
  · split
    · exact ⟨_, _, rfl⟩
    · exact ⟨_, _, newNamespaceSummary_core E w _⟩

/-- The pod count is a counter of the record fold. -/
theorem isCounter_PodCount : IsCounter (fun s => s.PodCount) (fun _ => 1) :=
  ⟨fun _ => rfl, fun _ _ => rfl, fun _ _ => rfl, fun _ _ => rfl,
   fun q _ => by cases q <;> rfl, fun _ _ => rfl⟩

/-- The running count is a counter of the record fold. -/
theorem isCounter_PodRunning :
    IsCounter (fun s => s.PodRunning) (fun r => if r.Phase = "Running" then 1 else 0) :=
  ⟨fun _ => rfl, fun _ _ => rfl,
   fun r s => by simp only [foldPod]; split <;> simp,
   fun r s => by simp only [foldPodNode]; split <;> simp,
   fun q _ => by cases q <;> rfl, fun _ _ => rfl⟩

/-- The failed count is a counter of the record fold. -/
theorem isCounter_PodFailed :
    IsCounter (fun s => s.PodFailed) (fun r => if r.Phase = "Failed" then 1 else 0) :=
  ⟨fun _ => rfl, fun _ _ => rfl,
   fun r s => by simp only [foldPod]; split <;> simp,
   fun r s => by simp only [foldPodNode]; split <;> simp,
   fun q _ => by cases q <;> rfl, fun _ _ => rfl⟩

/-- The pending count is a counter of the record fold. -/
theorem isCounter_PodPending :
    IsCounter (fun s => s.PodPending) (fun r => if r.Phase = "Pending" then 1 else 0) :=
  ⟨fun _ => rfl, fun _ _ => rfl,
   fun r s => by simp only [foldPod]; split <;> simp,
   fun r s => by simp only [foldPodNode]; split <;> simp,
   fun q _ => by cases q <;> rfl, fun _ _ => rfl⟩

/-- A counter of the local copy is the stored counter. -/
theorem counter_slot {f : ClusterPodMetrics → Int} {d : PodSchema → Int} (hf : IsCounter f d)
    (E : Env) (w : PodWorker) (r : PodSchema) (k : String) :
    f (slot E w r k) = counterAt f w.SummaryMap k := by
  cases h : mapGet w.SummaryMap k with
  | none =>
    obtain ⟨ns, nd, hc⟩ := slot_core_of_none E w r k h
    rw [hf.core, hc, hf.fresh]
    simp [counterAt, h]
  | some s => simp [slot, mapGetD, counterAt, h]

/-- A counter of a summary written back is the stored counter plus the increment. -/
theorem counter_podOutcome {f : ClusterPodMetrics → Int} {d : PodSchema → Int} (hf : IsCounter f d)
    (E : Env) (w : PodWorker) (r : PodSchema) (node : Bool) (k : String) :
    f (podOutcome E w r node k) = counterAt f w.SummaryMap k + d r := by
  unfold podOutcome
  cases node
  · simp only [Bool.false_eq_true, if_false]
    rw [hf.storage, hf.fold, hf.quota, counter_slot hf]
  · simp only [if_true]
    rw [hf.node, counter_slot hf]

/-- One call of `summarize` adds the increment of the record to every summary the record is folded into and to no other. -/
theorem counterAt_summarized {f : ClusterPodMetrics → Int} {d : PodSchema → Int}
    (hf : IsCounter f d) (E : Env) (w : PodWorker) (r : PodSchema) (k : String) :
    counterAt f (summarized E w r).SummaryMap k =
      counterAt f w.SummaryMap k + (if touches E r k then d r else 0) := by
  have h := summarized_lookup E w r k
  unfold counterAt at *
  rw [h]
  unfold touches
  by_cases h1 : r.NodeName = k
  · simp only [h1, if_true, Option.map_some', Option.getD_some, true_or, decide_True]
    have := counter_podOutcome hf E w r true k
    simpa [counterAt] using this
  · by_cases h2 : r.Namespace = k
    · simp only [h1, h2, if_true, if_false, Option.map_some', Option.getD_some, true_or, or_true, decide_True]
      have := counter_podOutcome hf E w r false k
      simpa [counterAt] using this
    · by_cases h3 : E.ALL = k
      · simp only [h1, h2, h3, if_true, if_false, Option.map_some', Option.getD_some, or_true, decide_True]
        have := counter_podOutcome hf E w r false k
        simpa [counterAt] using this
      · simp [h1, h2, h3]

/-- A new application summary has a pod count of zero. -/
theorem newAppSummary_PodCount (bag : AppDBag) (r : PodSchema) (q : Option ResourceQuota) :
    (newAppSummary bag r q).PodCount = 0 := by
  cases q <;> rfl

/-- On sane summaries `summarize` does not fault. -/
theorem summarize_ok (E : Env) (w : PodWorker) (r : PodSchema) (hs : SummariesSane w) :
    summarize E w r = .ok (summarized E w r) := by
  rw [summarize_eq]
  have hslot : ∀ k, 0 ≤ (slot E w r k).PodCount := by
    intro k
    have h := counter_slot isCounter_PodCount E w r k
    simp only at h
    rw [h]
    unfold counterAt
    cases hk : mapGet w.SummaryMap k with
    | none => simp
    | some s => simpa using hs.1 k s hk
  have happ : 0 ≤ (mapGetD w.AppSummaryMap r.Owner (newAppSummary w.Bag r (quotaFor E w r))).PodCount := by
    unfold mapGetD
    cases hk : mapGet w.AppSummaryMap r.Owner with
    | none => simp [newAppSummary_PodCount]
    | some s => simpa using hs.2 _ s hk
  have h1 := hslot E.ALL
  have h2 := hslot r.Namespace
  have h3 := hslot r.NodeName
  rw [if_neg]
  simp only [appOutcome, foldPodApp_PodCount]
  omega

/-- The function `summarize` keeps the summaries sane. -/
theorem summarized_sane (E : Env) (w : PodWorker) (r : PodSchema) (hs : SummariesSane w) :
    SummariesSane (summarized E w r) := by
  constructor
  · intro k s hk
    rw [summarized_lookup] at hk
    have hout : ∀ node, 0 ≤ (podOutcome E w r node k).PodCount := by
      intro node
      have h := counter_podOutcome isCounter_PodCount E w r node k
      simp only at h
      rw [h]
      unfold counterAt
      cases hk' : mapGet w.SummaryMap k with
      | none => simp
      | some s' =>
        have := hs.1 k s' hk'
        simp only [Option.map_some', Option.getD_some]
        omega
    split at hk
    · cases hk; exact hout true
    · split at hk
      · cases hk; exact hout false
      · split at hk
        · cases hk; exact hout false
        · exact hs.1 k s hk
  · intro k s hk
    simp only [summarized, mapGet_mapSet] at hk
    split at hk
    · cases hk
      simp only [appOutcome, foldPodApp_PodCount]
      have : 0 ≤ (mapGetD w.AppSummaryMap r.Owner (newAppSummary w.Bag r (quotaFor E w r))).PodCount := by
        unfold mapGetD
        cases hk : mapGet w.AppSummaryMap r.Owner with
        | none => simp [newAppSummary_PodCount]
        | some s => simpa using hs.2 _ s hk
      omega
    · exact hs.2 k s hk

/-- The keys stored after `summarize`. -/
theorem summarized_isSome (E : Env) (w : PodWorker) (r : PodSchema) (k : String) :
    (mapGet (summarized E w r).SummaryMap k).isSome =
      (touches E r k || (mapGet w.SummaryMap k).isSome) := by
  rw [summarized_lookup]
  unfold touches
  by_cases h1 : r.NodeName = k
  · simp [h1]
  · by_cases h2 : r.Namespace = k
    · simp [h1, h2]
    · by_cases h3 : E.ALL = k
      · simp [h1, h2, h3]
      · simp [h1, h2, h3]

/-- Folding a list of records: no fault, sane summaries, every counter the sum of the increments of the records folded into the key, and the keys stored. -/
theorem summarizeAll_spec (E : Env) (rs : List PodSchema) (w : PodWorker) (hs : SummariesSane w) :
    ∃ w', summarizeAll E w rs = .ok w' ∧ SummariesSane w' ∧
      (∀ f d, IsCounter f d → ∀ k, counterAt f w'.SummaryMap k =
        counterAt f w.SummaryMap k + (rs.map (fun r => if touches E r k then d r else 0)).sum) ∧
      (∀ k, (mapGet w'.SummaryMap k).isSome =
        ((mapGet w.SummaryMap k).isSome || rs.any (fun r => touches E r k))) := by
  induction rs generalizing w with
  | nil => exact ⟨w, rfl, hs, by simp, by simp⟩
  | cons r t ih =>
    obtain ⟨w', h1, h2, h3, h4⟩ := ih (summarized E w r) (summarized_sane E w r hs)
    refine ⟨w', ?_, h2, ?_, ?_⟩
    · simp only [summarizeAll, summarize_ok E w r hs, h1]
    · intro f d hf k
      rw [h3 f d hf k, counterAt_summarized hf]
      simp only [List.map_cons, List.sum_cons]
      omega
    · intro k
      rw [h4 k, summarized_isSome]
      simp only [List.any_cons]
      cases touches E r k <;> cases (mapGet w.SummaryMap k).isSome <;> simp

/-- A sum of indicators is a count. -/
theorem sum_indicator {α : Type} (p : α → Bool) (l : List α) :
    (l.map (fun a => if p a then (1 : Int) else 0)).sum = (l.countP p : Int) := by
  induction l with
  | nil => simp
  | cons a t ih =>
    simp only [List.map_cons, List.sum_cons, ih, List.countP_cons]
    cases p a <;> simp
    omega

/-- The reset summaries are sane. -/
theorem resetSummaries_sane (w : PodWorker) : SummariesSane (resetSummaries w) := by
  constructor <;> intro k s h <;> simp [resetSummaries, mapGet] at h

/-- Two tests that agree on a list have the same `any`. -/
theorem any_congr_mem {α : Type} (p q : α → Bool) (l : List α) (h : ∀ a ∈ l, p a = q a) :
    l.any p = l.any q := by
  induction l with
  | nil => rfl
  | cons a t ih =>
    simp only [List.any_cons]
    rw [h a (List.mem_cons_self _ _), ih (fun b hb => h b (List.mem_cons_of_mem _ hb))]

/-- Every record is folded into the global summary. -/
theorem touches_ALL (E : Env) (r : PodSchema) : touches E r E.ALL = true := by
  simp [touches]

/-- After the reset every counter reads zero. -/
theorem counterAt_reset (f : ClusterPodMetrics → Int) (w : PodWorker) (k : String) :
    counterAt f (resetSummaries w).SummaryMap k = 0 := by
  simp [counterAt, resetSummaries, mapGet]

/-- The phase increments summed at the global key. -/
theorem sum_phase_ALL (E : Env) (rs : List PodSchema) (ph : String) :
    (rs.map (fun r => if touches E r E.ALL then (if r.Phase = ph then (1 : Int) else 0) else 0)).sum =
      (rs.countP (fun r => decide (r.Phase = ph)) : Int) := by
  rw [← sum_indicator]
  congr 1
  apply List.map_congr_left
  intro r _
  simp [touches_ALL]

/-! ## Lemmas on `processObject` -/

/-- Whatever the two observations are, a run of `processObject` that returns has
`changed = true`: the flag starts out true and `compareString` hands a true flag back. -/
theorem processObject_changed_true (E : Env) (w : PodWorker) (p : Pod) (old : Option Pod)
    (now : Time) (md : PodMetricsObj) (r : ProcessResult)
    (h : processObject E w p old now md = .ok r) : r.changed = true := by
  unfold processObject at h
  simp only [] at h
  split at h
  · cases h
  · split at h
    · cases h
    · cases h
      simp only []
      split
      · simp [compareString]
      · rfl

/-- What `processObject` does to the worker: it writes the owner and the namespace index. -/
theorem processObject_worker (E : Env) (w : PodWorker) (p : Pod) (old : Option Pod) (now : Time)
    (md : PodMetricsObj) (r : ProcessResult) (hr : processObject E w p old now md = .ok r) :
    r.worker = { w with
      OwnerMap := mapSet w.OwnerMap (GetPodKey p) (identityPhase E w.Bag p).Owner
      NamespaceMap := mapSet w.NamespaceMap p.Namespace p.Namespace } := by
  unfold processObject at hr
  simp only at hr
  split at hr
  · cases hr
  · split at hr
    · cases hr
    · cases hr; rfl

/-- The anti-affinity lines write scheduling-shape fields only. -/
theorem antiAffinityPhase_frame (aff : Affinity) (po po' : PodSchema)
    (h : antiAffinityPhase aff po = .ok po') : schedBlank po' = schedBlank po := by
  unfold antiAffinityPhase at h
  cases h1 : aff.PodAntiAffinity with
  | none => simp only [h1] at h; cases h; rfl
  | some anti =>
    simp only [h1] at h
    cases h2 : anti.Required with
    | none =>
      simp only [h2] at h
      cases h
      cases anti.Preferred <;> rfl
    | some req =>
      simp only [h2] at h
      cases h3 : aff.PodAffinity with
      | none => simp [h3] at h
      | some pa =>
        simp only [h3] at h
        cases h
        cases anti.Preferred <;> rfl

/-- Lines 1095 to 1178 write scheduling-shape fields only. -/
theorem schedulingPhase_frame (p : Pod) (po po' : PodSchema)
    (h : schedulingPhase p po = .ok po') : schedBlank po' = schedBlank po := by
  unfold schedulingPhase at h
  cases h1 : p.Spec.Affinity with
  | none => simp only [h1] at h; cases h; rfl
  | some aff =>
    simp only [h1] at h
    rw [antiAffinityPhase_frame _ _ _ h]
    cases aff.NodeAffinity <;> cases aff.PodAffinity <;> rfl

/-- The shape of a result of `processObject` for an evicted pod: the record of the identity
lines with scheduling-shape fields, phase and termination time added. -/
theorem processObject_evicted (E : Env) (w : PodWorker) (p : Pod) (old : Option Pod) (now : Time)
    (md : PodMetricsObj) (r : ProcessResult) (hev : p.Status.Reason = "Evicted")
    (hr : processObject E w p old now md = .ok r) :
    ∃ po3, schedBlank po3 = schedBlank (identityPhase E w.Bag p) ∧
      r.record = { po3 with
        TerminationTime := match p.DeletionTimestamp with
          | some t => some t
          | none => po3.TerminationTime
        Phase := p.Status.Phase } ∧
      r.worker = { w with
        OwnerMap := mapSet w.OwnerMap (GetPodKey p) (identityPhase E w.Bag p).Owner
        NamespaceMap := mapSet w.NamespaceMap p.Namespace p.Namespace } := by
  have hE : (identityPhase E w.Bag p).IsEvicted = true := by
    simp [identityPhase, hev]
  unfold processObject at hr
  simp only [hE, Bool.not_true, Bool.false_eq_true, if_false] at hr
  split at hr
  · cases hr
  · rename_i po3 hpo3
    have hf := schedulingPhase_frame _ _ _ hpo3
    have hE3 : po3.IsEvicted = true := by
      have : po3.IsEvicted = (schedBlank po3).IsEvicted := rfl
      rw [this, hf]; exact hE
    rw [if_neg (by simp [hE3])] at hr
    cases hr
    exact ⟨po3, hf, rfl, rfl⟩

/-- For an evicted pod the container loop of `summarize` is skipped. -/
theorem containerLoop_evicted (w : PodWorker) (r : PodSchema) (h : r.IsEvicted = true) :
    containerLoop w r =
      { ContainerSummaryMap := w.ContainerSummaryMap, InstanceSummaryMap := w.InstanceSummaryMap } := by
  simp [containerLoop, h]

/-- The local copy for the global key is the global summary. -/
theorem slot_ALL (E : Env) (w : PodWorker) (r : PodSchema) :
    slot E w r E.ALL = globalSummary E w := by
  simp [slot, globalSummary]

/-- What `summarize` leaves under the global key: the node variant of the fold when the node
name of the record is the global key, else the global variant. -/
theorem summarized_global (E : Env) (w : PodWorker) (r : PodSchema) :
    mapGet (summarized E w r).SummaryMap E.ALL =
      some (podOutcome E w r (decide (r.NodeName = E.ALL)) E.ALL) := by
  rw [summarized_lookup]
  by_cases h1 : r.NodeName = E.ALL
  · simp [h1]
  · by_cases h2 : r.Namespace = E.ALL <;> simp [h1, h2]

/-- The empty worker has sane summaries. -/
theorem sane_empty : SummariesSane {} := by
  constructor <;> intro k s h <;> simp [mapGet] at h

/-! ## Lemmas on the instrumentation bookkeeping -/

/-- Membership in a slice after `RemoveFromSlice`. -/
theorem mem_RemoveFromSlice (s x : String) (l : List String) :
    x ∈ RemoveFromSlice s l ↔ x ∈ l ∧ x ≠ s := by
  simp [RemoveFromSlice]

/-- The function `tryDashboardCache` leaves the failure map alone. -/
theorem tryDashboardCache_FailedCache (w : PodWorker) (r : PodSchema) :
    (tryDashboardCache w r).FailedCache = w.FailedCache := by
  unfold tryDashboardCache; split <;> rfl

/-- The attempts among the effects of two runs. -/
theorem attempts_append (a b : List Effect) : attempts (a ++ b) = attempts a ++ attempts b := by
  induction a with
  | nil => rfl
  | cons e t ih => cases e <;> simp [attempts, ih]

/-- At the ceiling an evaluation has no effect, leaves the failure map as it is and leaves
the key out of the pending set. -/
theorem check_at_ceiling (E : Env) (w : PodWorker) (podObj : Pod) (podSchema : PodSchema)
    (st : AttachStatus) (h : AtCeiling E w (GetPodKey podObj)) :
    (checkForInstrumentation E w podObj podSchema st).2 = [] ∧
    (checkForInstrumentation E w podObj podSchema st).1.FailedCache = w.FailedCache ∧
    GetPodKey podObj ∉ (checkForInstrumentation E w podObj podSchema st).1.PendingCache := by
  obtain ⟨status, h1, h2⟩ := h
  unfold checkForInstrumentation
  by_cases hi : E.IsPodInstrumented podObj = true
  · simp [hi, mem_RemoveFromSlice]
  · simp [hi, h1, h2, mem_RemoveFromSlice]

/-- An evaluation of any pod keeps a key at the ceiling there and attempts no pod of that
key: a recorded count is only ever replaced by its successor. -/
theorem check_keeps_ceiling (E : Env) (w : PodWorker) (podObj : Pod) (podSchema : PodSchema)
    (st : AttachStatus) (k : String) (h : AtCeiling E w k) :
    AtCeiling E (checkForInstrumentation E w podObj podSchema st).1 k ∧
      k ∉ attempts (checkForInstrumentation E w podObj podSchema st).2 := by
  by_cases hk : GetPodKey podObj = k
  · subst hk
    obtain ⟨e1, e2, _⟩ := check_at_ceiling E w podObj podSchema st h
    refine ⟨?_, by rw [e1]; simp [attempts]⟩
    unfold AtCeiling
    rw [e2]; exact h
  · have hk' : ¬ k = GetPodKey podObj := fun e => hk e.symm
    obtain ⟨status, h1, h2⟩ := h
    unfold checkForInstrumentation
    split
    · exact ⟨⟨status, h1, h2⟩, by simp [attempts]⟩
    · split
      · exact ⟨⟨status, h1, h2⟩, by simp [attempts]⟩
      · split
        · split
          · exact ⟨⟨status, h1, h2⟩, by simp [attempts]⟩
          · split
            · split
              · exact ⟨⟨status, h1, h2⟩, by simp [attempts, hk']⟩
              · refine ⟨⟨status, ?_, h2⟩, by simp [attempts, hk']⟩
                simp only [tryDashboardCache_FailedCache]
                exact h1
            · refine ⟨?_, ?_⟩
              · unfold AtCeiling
                simp only [mapGet_mapSet]
                by_cases hsk : st.Key = k
                · subst hsk
                  simp only [if_true, h1]
                  exact ⟨_, rfl, by simp only; omega⟩
                · simp only [hsk, if_false]
                  exact ⟨status, h1, h2⟩
              · split <;> simp [attempts, hk']
        · exact ⟨⟨status, h1, h2⟩, by simp [attempts]⟩

/-- From a state in which a key is at the ceiling, no sequence of evaluations attempts it. -/
theorem runChecks_at_ceiling (E : Env) (k : String)
    (calls : List (Pod × PodSchema × AttachStatus)) (w : PodWorker) (h : AtCeiling E w k) :
    k ∉ attempts (runChecks E w calls).2 := by
  induction calls generalizing w with
  | nil => simp [runChecks, attempts]
  | cons c t ih =>
    obtain ⟨h1, h2⟩ := check_keeps_ceiling E w c.1 c.2.1 c.2.2 k h
    simp only [runChecks, attempts_append, List.mem_append, not_or]
    exact ⟨h2, ih _ h1⟩

/-- A pod whose key is in the pending set is not attempted. -/
theorem pending_pod_not_attempted (E : Env) (w : PodWorker) (podObj : Pod)
    (podSchema : PodSchema) (st : AttachStatus) (h : GetPodKey podObj ∈ w.PendingCache) :
    attempts (checkForInstrumentation E w podObj podSchema st).2 = [] := by
  unfold checkForInstrumentation
  split
  · rfl
  · split
    · rfl
    · split
      · simp [StringInSlice, h, attempts]
      · rfl

/-- A failed attempt leaves the key of the pod in the pending set. -/
theorem failed_attempt_stays_pending (E : Env) (w : PodWorker) (podObj : Pod)
    (podSchema : PodSchema) (st : AttachStatus) (hfail : st.Success = false)
    (hatt : attempts (checkForInstrumentation E w podObj podSchema st).2 ≠ []) :
    GetPodKey podObj ∈ (checkForInstrumentation E w podObj podSchema st).1.PendingCache := by
  unfold checkForInstrumentation at hatt ⊢
  split
  · rename_i h; simp [h, attempts] at hatt
  · rename_i h
    split
    · rename_i h'; simp [h, h', attempts] at hatt
    · rename_i h'
      split
      · rename_i h''
        split
        · rename_i h3; simp [h, h', h'', h3, attempts] at hatt
        · simp [hfail]
      · rename_i h''; simp [h, h', h'', attempts] at hatt

/-! ## Lemmas on the port check -/

/-- A round of the loop of `CheckPort` keeps the port number. -/
theorem checkPortStep_PortNumber (podSchema : PodSchema) (cp : ContainerPort) (svc : ServiceSchema) :
    (checkPortStep podSchema cp svc).PortNumber = cp.PortNumber := by
  unfold checkPortStep
  simp only
  split <;> split <;> rfl

/-- A round of the loop of `CheckPort` sets `Mapped` when the service exposes the port. -/
theorem checkPortStep_Mapped (podSchema : PodSchema) (cp : ContainerPort) (svc : ServiceSchema) :
    (checkPortStep podSchema cp svc).Mapped =
      (cp.Mapped || (svc.IsPortAvailable cp podSchema).1) := by
  unfold checkPortStep
  cases hm : cp.Mapped <;> cases hr : cp.Ready <;> simp [hm, hr, ServiceSchema.IsPortAvailable]

/-- The loop of `CheckPort` over any list of services. -/
theorem checkPort_fold (podSchema : PodSchema) (svcs : List ServiceSchema) (cp : ContainerPort) :
    (svcs.foldl (checkPortStep podSchema) cp).PortNumber = cp.PortNumber ∧
    (svcs.foldl (checkPortStep podSchema) cp).Mapped =
      (cp.Mapped || svcs.any (fun svc => decide (cp.PortNumber ∈ svc.Ports))) := by
  induction svcs generalizing cp with
  | nil => simp
  | cons svc t ih =>
    obtain ⟨h1, h2⟩ := ih (checkPortStep podSchema cp svc)
    simp only [List.foldl_cons, List.any_cons, h1, h2, checkPortStep_PortNumber,
      checkPortStep_Mapped, Bool.or_assoc, ServiceSchema.IsPortAvailable]
    trivial

/-- The port record carries the declared port number. -/
theorem checkPort_PortNumber (port : V1ContainerPort) (podObj : Pod) (podSchema : PodSchema) :
    (CheckPort port podObj podSchema).PortNumber = port.ContainerPort :=
  (checkPort_fold podSchema podSchema.Services _).1

/-- The port record is mapped exactly when a correlated service reports the port exposed. -/
theorem checkPort_Mapped (port : V1ContainerPort) (podObj : Pod) (podSchema : PodSchema) :
    (CheckPort port podObj podSchema).Mapped = true ↔
      ∃ svc ∈ podSchema.Services,
        (svc.IsPortAvailable { PortNumber := port.ContainerPort, Name := port.Name } podSchema).1 = true := by
  unfold CheckPort
  rw [(checkPort_fold podSchema podSchema.Services _).2]
  simp [ServiceSchema.IsPortAvailable]

/-- The port check reads the services and the name of the record only. -/
theorem checkPort_congr (port : V1ContainerPort) (podObj : Pod) (a b : PodSchema)
    (h1 : a.Services = b.Services) (h2 : a.Name = b.Name) :
    CheckPort port podObj a = CheckPort port podObj b := by
  unfold CheckPort
  rw [h1]
  congr 1
  funext cp svc
  simp [checkPortStep, ServiceSchema.IsPortAvailable, h2]

/-- The port loop of `processContainer` in closed form. -/
theorem portsLoop_eq (podObj : Pod) (podSchema : PodSchema) (ports : List V1ContainerPort)
    (acc : List ContainerPort × String) :
    portsLoop podObj podSchema ports acc =
      (acc.1 ++ ports.map (fun port => CheckPort port podObj podSchema),
       ((ports.filter (fun port => !(CheckPort port podObj podSchema).Mapped)).map
          (fun port => toString port.ContainerPort ++ ";")).foldl (fun r s => r ++ s) acc.2) := by
  unfold portsLoop
  induction ports generalizing acc with
  | nil => simp
  | cons port t ih =>
    simp only [List.foldl_cons]
    rw [ih]
    cases hm : (CheckPort port podObj podSchema).Mapped <;>
      simp [hm, List.filter_cons, checkPort_PortNumber]

/-! ## Lemmas on the later lines of `processObject` -/

/-- The condition lines write the four condition fields only. -/
theorem conditionsPhase_frame (conds : List PodCondition) (po : PodSchema) :
    statusBlank (conditionsPhase conds po) = statusBlank po := by
  unfold conditionsPhase
  simp only
  split <;> rfl

/-- A call of `updateConatainerStatus` that returns writes restarts, termination time and the container map only. -/
theorem updateConatainerStatus_frame (bag : AppDBag) (po : PodSchema)
    (c : Option ContainerSchema) (st : ContainerStatus) (r : PodSchema × List Effect)
    (h : updateConatainerStatus bag po c st = .ok r) : statusBlank r.1 = statusBlank po := by
  unfold updateConatainerStatus at h
  simp only at h
  split at h
  · cases h
  · split at h
    · cases h
    · cases h; rfl

/-- A status loop that returns writes restarts, termination time and the container map only. -/
theorem statusLoop_frame (bag : AppDBag) (find : PodSchema → String → Option ContainerSchema)
    (sts : List ContainerStatus) (po : PodSchema) (r : PodSchema × List Effect)
    (h : statusLoop bag find sts po = .ok r) : statusBlank r.1 = statusBlank po := by
  induction sts generalizing po r with
  | nil => simp only [statusLoop] at h; cases h; rfl
  | cons st t ih =>
    simp only [statusLoop] at h
    split at h
    · cases h
    · rename_i r1 h1
      split at h
      · cases h
      · rename_i r2 h2
        cases h
        simp only
        rw [ih _ _ h2, updateConatainerStatus_frame _ _ _ _ _ h1]

/-- The start-time lines write running start and break point only. -/
theorem startTimePhase_frame (po : PodSchema) : statusBlank (startTimePhase po) = statusBlank po := by
  unfold startTimePhase
  split <;> rfl

/-- The pending-time lines write pending time and up time only. -/
theorem pendingTimePhase_frame (now : Time) (po : PodSchema) :
    statusBlank (pendingTimePhase now po) = statusBlank po := by
  unfold pendingTimePhase
  split
  · split <;> rfl
  · rfl

/-- The usage lines write usage and the container maps only. -/
theorem metricsPhase_frame (p : Pod) (md : PodMetricsObj) (po : PodSchema) :
    statusBlank (metricsPhase p md po) = statusBlank po := by
  unfold metricsPhase
  split
  · split <;> rfl
  · rfl

/-- Lines 1189 to 1306, when they return, write the fields that `statusBlank` blanks and no other. -/
theorem statusPhase_frame (bag : AppDBag) (p : Pod) (now : Time) (md : PodMetricsObj)
    (po : PodSchema) (r : PodSchema × List Effect) (h : statusPhase bag p now md po = .ok r) :
    statusBlank r.1 = statusBlank po := by
  unfold statusPhase at h
  split at h
  · cases h
  · rename_i r1 h1
    split at h
    · cases h
    · rename_i r2 h2
      cases h
      simp only
      rw [metricsPhase_frame, pendingTimePhase_frame, startTimePhase_frame,
        statusLoop_frame _ _ _ _ _ h2, statusLoop_frame _ _ _ _ _ h1, conditionsPhase_frame]

/-- The record `processObject` returns agrees with the record of the early lines on every field that the later lines do not write, and has the phase of the pod. -/
theorem processObject_record (E : Env) (w : PodWorker) (p : Pod) (old : Option Pod) (now : Time)
    (md : PodMetricsObj) (r : ProcessResult) (hr : processObject E w p old now md = .ok r) :
    lateBlank r.record = lateBlank (earlyRecord E w p) ∧ r.record.Phase = p.Status.Phase := by
  unfold processObject at hr
  simp only at hr
  split at hr
  · cases hr
  · rename_i po3 h3
    have hf := schedulingPhase_frame _ _ _ h3
    have e3 : lateBlank po3 = lateBlank (earlyRecord E w p) := by
      show lateBlank (schedBlank po3) = _
      rw [hf]
      rfl
    split at hr
    · cases hr
    · rename_i r4 h4
      cases hr
      simp only
      split at h4
      · have hs := statusPhase_frame _ _ _ _ _ _ h4
        constructor
        · show lateBlank (statusBlank r4.1) = _
          rw [hs, ← e3]
          rfl
        · show (statusBlank r4.1).Phase = _
          rw [hs]
          rfl
      · cases h4
        exact ⟨e3 ▸ rfl, rfl⟩

/-- The missing-liveness-probe count is a counter of the record fold. -/
theorem isCounter_NoLivenessProbe :
    IsCounter (fun s => s.NoLivenessProbe) (fun r => r.LiveProbes) :=
  ⟨fun _ => rfl, fun _ _ => rfl, fun _ _ => rfl, fun _ _ => rfl,
   fun q _ => by cases q <;> rfl, fun _ _ => rfl⟩

/-- The no-limits count is a counter of the record fold. -/
theorem isCounter_NoLimits :
    IsCounter (fun s => s.NoLimits) (fun r => if !r.LimitsDefined then 1 else 0) :=
  ⟨fun _ => rfl, fun _ _ => rfl,
   fun r s => by simp only [foldPod]; split <;> simp,
   fun r s => by simp only [foldPodNode]; split <;> simp,
   fun q _ => by cases q <;> rfl, fun _ _ => rfl⟩

/-- The function `tryDashboardCache` leaves the queue alone. -/
theorem tryDashboardCache_WQ (w : PodWorker) (r : PodSchema) :
    (tryDashboardCache w r).WQ = w.WQ := by
  unfold tryDashboardCache; split <;> rfl

/-- The function `checkForInstrumentation` leaves the queue alone. -/
theorem checkForInstrumentation_WQ (E : Env) (w : PodWorker) (podObj : Pod)
    (podSchema : PodSchema) (st : AttachStatus) :
    (checkForInstrumentation E w podObj podSchema st).1.WQ = w.WQ := by
  unfold checkForInstrumentation
  split
  · rfl
  · split
    · rfl
    · split
      · split
        · rfl
        · split
          · split
            · rfl
            · simp only [tryDashboardCache_WQ]
          · rfl
      · rfl

/-- The record of a pod of the scenario's kind, as the early lines leave it. -/
theorem earlyRecord_scenario (E : Env) (w : PodWorker) (p : Pod) (c : Container) (v : String)
    (hl : p.Labels = [("name", v)]) (hown : p.OwnerReferences = [])
    (hcs : p.Spec.Containers = [c]) (hinit : p.Spec.InitContainers = [])
    (hreq : c.Resources.Requests = none) (hlim : c.Resources.Limits = none)
    (hlive : c.LivenessProbe = false) (hne : p.Status.Reason ≠ "Evicted") :
    (earlyRecord E w p).Owner = v ∧ (earlyRecord E w p).LimitsDefined = false ∧
      (earlyRecord E w p).LiveProbes = 1 ∧ (earlyRecord E w p).Namespace = p.Namespace := by
  have hE : (identityPhase E w.Bag p).IsEvicted = false := by
    simp [identityPhase, hne, NewPodObj]
  simp only [earlyRecord, hE, Bool.not_false, if_true]
  simp [containersPhase, containersLoop, initContainersLoop, hcs, hinit, processContainer,
    hreq, hlim, hlive, identityPhase, labelsLoop, hl, hown, NewPodObj]

/-- Every record is folded into the summary of its namespace. -/
theorem touches_Namespace (E : Env) (r : PodSchema) : touches E r r.Namespace = true := by
  simp [touches]

/-! ## The claims -/

/-- C1. Change detection. The claim has `changed` true exactly when the phase differs from
the previous observation. On the code the flag is true always: here `web-1` is observed
twice in phase `Running`, the two observations differing in the pod address only, and
`processObject` returns `changed = true`. -/
theorem processObject_changed_without_phase_change :
    web1Later.Status.Phase = web1.Status.Phase ∧
    web1Later.Status.PodIP ≠ web1.Status.PodIP ∧
    (processObject sampleEnv {} web1Later (some web1) 0 {}).toOption.map (fun r => r.changed) =
      some true := by
  decide

/-- C2. Batch boundary. With three records queued and an event limit of two the claim has
`ceil(3 / 2) = 2` posts; one run of `flushQueue` issues a single post, of two records. -/
theorem flushQueue_single_post :
    (flushQueue (queued3 2) []).map (fun r => (podPosts r.2).map List.length) = some [2] ∧
    (3 + 2 - 1) / 2 = 2 := by
  decide

/-- C3. Drain. With three records `a`, `b`, `c` queued and an event limit of one, a run of
`flushQueue` posts `a` alone and leaves `b` and `c` in the queue: the queue is not empty
afterwards and two of the records were not handed to `postPodRecords`. -/
theorem flushQueue_leaves_records :
    (flushQueue (queued3 1) []).map
        (fun r => ((podPosts r.2).map (fun b => b.map (fun x => x.Name)),
                   r.1.WQ.map (fun x => x.Name))) =
      some ([["a"]], ["b", "c"]) := by
  decide

/-- C4, as amended. Records folded one after another by `summarize` into empty summary maps:
the fold does not fault; under the global key the pod count is the number of records and the
running, failed and pending counts are the numbers of records in that phase; and for a
namespace `ns` that is neither the global key nor the node name of a folded record, the
summary under `ns` has as pod count the number of records of namespace `ns`. The last two
lines say when the two summaries exist. -/
theorem summarize_fold_counts (E : Env) (w : PodWorker) (rs : List PodSchema) (ns : String)
    (hns : ns ≠ E.ALL) (hnode : ∀ r ∈ rs, r.NodeName ≠ ns) :
    ∃ w', summarizeAll E (resetSummaries w) rs = .ok w' ∧
      counterAt (fun s => s.PodCount) w'.SummaryMap E.ALL = rs.length ∧
      counterAt (fun s => s.PodRunning) w'.SummaryMap E.ALL =
        rs.countP (fun r => decide (r.Phase = "Running")) ∧
      counterAt (fun s => s.PodFailed) w'.SummaryMap E.ALL =
        rs.countP (fun r => decide (r.Phase = "Failed")) ∧
      counterAt (fun s => s.PodPending) w'.SummaryMap E.ALL =
        rs.countP (fun r => decide (r.Phase = "Pending")) ∧
      counterAt (fun s => s.PodCount) w'.SummaryMap ns =
        rs.countP (fun r => decide (r.Namespace = ns)) ∧
      (mapGet w'.SummaryMap E.ALL).isSome = !rs.isEmpty ∧
      (mapGet w'.SummaryMap ns).isSome = rs.any (fun r => decide (r.Namespace = ns)) := by
  obtain ⟨w', h1, _, h3, h4⟩ := summarizeAll_spec E rs (resetSummaries w) (resetSummaries_sane w)
  have htouch : ∀ r ∈ rs, touches E r ns = decide (r.Namespace = ns) := by
    intro r hr
    have h := hnode r hr
    have hns' : ¬ E.ALL = ns := fun e => hns e.symm
    simp [touches, h, hns']
  refine ⟨w', h1, ?_, ?_, ?_, ?_, ?_, ?_, ?_⟩
  · rw [h3 _ _ isCounter_PodCount, counterAt_reset]
    have : (rs.map (fun r => if touches E r E.ALL then (1 : Int) else 0)).sum = rs.length := by
      rw [sum_indicator]
      simp [touches_ALL]
    simpa using this
  · rw [h3 _ _ isCounter_PodRunning, counterAt_reset, sum_phase_ALL]; simp
  · rw [h3 _ _ isCounter_PodFailed, counterAt_reset, sum_phase_ALL]; simp
  · rw [h3 _ _ isCounter_PodPending, counterAt_reset, sum_phase_ALL]; simp
  · rw [h3 _ _ isCounter_PodCount, counterAt_reset, ← sum_indicator]
    simp only [zero_add]
    congr 1
    apply List.map_congr_left
    intro r hr
    rw [htouch r hr]
  · rw [h4]
    cases rs <;> simp [resetSummaries, mapGet, touches_ALL]
  · rw [h4]
    rw [any_congr_mem _ _ rs htouch]
    simp [resetSummaries, mapGet]

/-- C4, witness: the two sample records folded, read at the namespace `default`, which is
no node name. -/
theorem summarize_fold_counts_witness :
    ("default" ≠ sampleEnv.ALL ∧ ∀ r ∈ [recDefault, recEdge], r.NodeName ≠ "default") ∧
    ∃ w', summarizeAll sampleEnv (resetSummaries {}) [recDefault, recEdge] = .ok w' ∧
      counterAt (fun s => s.PodCount) w'.SummaryMap sampleEnv.ALL = 2 ∧
      counterAt (fun s => s.PodRunning) w'.SummaryMap sampleEnv.ALL = 2 ∧
      counterAt (fun s => s.PodCount) w'.SummaryMap "default" = 1 := by
  refine ⟨⟨by decide, by decide⟩, ?_⟩
  obtain ⟨w', h⟩ := summarize_fold_counts sampleEnv {} [recDefault, recEdge] "default"
    (by decide) (by decide)
  exact ⟨w', h.1, by simpa using h.2.1, by simpa [recDefault, recEdge] using h.2.2.1,
    by simpa [recDefault, recEdge] using h.2.2.2.2.2.1⟩

/-- C4, counterexample to the claim as stated. Two records are folded into empty maps: one
of namespace `default` on the node `edge`, one of namespace `edge`. Node and namespace
summaries share one map, so the summary stored for the namespace `edge` has pod count 2,
while one record has that namespace. -/
theorem namespace_count_with_node_collision :
    ((summarizeAll sampleEnv (resetSummaries {}) [recDefault, recEdge]).toOption.bind
        (fun w => (mapGet w.SummaryMap "edge").map (fun s => s.PodCount))) = some 2 ∧
      [recDefault, recEdge].countP (fun r => decide (r.Namespace = "edge")) = 1 := by
  decide

/-- C5. Eviction exclusion. For a pod whose status reason is `Evicted`, folding the record
that `processObject` returned, in a worker whose summaries are sane: `summarize` does not
fault, the global summary has `PodCount` and `Evictions` one higher than the global summary
the call started from, the CPU, memory and storage totals are as they were, and the
container and instance summary maps are unchanged. -/
theorem evicted_pod_fold (E : Env) (w : PodWorker) (p : Pod) (old : Option Pod) (now : Time)
    (md : PodMetricsObj) (r : ProcessResult) (hev : p.Status.Reason = "Evicted")
    (hr : processObject E w p old now md = .ok r) (hs : SummariesSane w) :
    ∃ w' g', summarize E r.worker r.record = .ok w' ∧ mapGet w'.SummaryMap E.ALL = some g' ∧
      g'.PodCount = (globalSummary E r.worker).PodCount + 1 ∧
      g'.Evictions = (globalSummary E r.worker).Evictions + 1 ∧
      g'.LimitCpu = (globalSummary E r.worker).LimitCpu ∧
      g'.LimitMemory = (globalSummary E r.worker).LimitMemory ∧
      g'.RequestCpu = (globalSummary E r.worker).RequestCpu ∧
      g'.RequestMemory = (globalSummary E r.worker).RequestMemory ∧
      g'.UseCpu = (globalSummary E r.worker).UseCpu ∧
      g'.UseMemory = (globalSummary E r.worker).UseMemory ∧
      g'.PodStorageRequest = (globalSummary E r.worker).PodStorageRequest ∧
      g'.PodStorageLimit = (globalSummary E r.worker).PodStorageLimit ∧
      g'.StorageRequest = (globalSummary E r.worker).StorageRequest ∧
      g'.StorageCapacity = (globalSummary E r.worker).StorageCapacity ∧
      w'.ContainerSummaryMap = r.worker.ContainerSummaryMap ∧
      w'.InstanceSummaryMap = r.worker.InstanceSummaryMap := by
  obtain ⟨po3, hf, hrec, hw⟩ := processObject_evicted E w p old now md r hev hr
  have hs' : SummariesSane r.worker := by rw [hw]; exact hs
  have hid : ∀ f : PodSchema → Int, (∀ po, f po = f (schedBlank po)) →
      f po3 = f (identityPhase E w.Bag p) := by
    intro f hfb; rw [hfb, hf, ← hfb]
  have hE : r.record.IsEvicted = true := by
    rw [hrec]
    show po3.IsEvicted = true
    have : po3.IsEvicted = (schedBlank po3).IsEvicted := rfl
    rw [this, hf]; simp [schedBlank, identityPhase, hev]
  have hR : r.record.Reason = "Evicted" := by
    rw [hrec]
    show po3.Reason = "Evicted"
    have : po3.Reason = (schedBlank po3).Reason := rfl
    rw [this, hf]; simp [schedBlank, identityPhase, hev]
  have h0 : r.record.CpuLimit = 0 ∧ r.record.MemLimit = 0 ∧ r.record.CpuRequest = 0 ∧
      r.record.MemRequest = 0 ∧ r.record.CpuUse = 0 ∧ r.record.MemUse = 0 := by
    rw [hrec]
    refine ⟨?_, ?_, ?_, ?_, ?_, ?_⟩
    · exact hid (fun po => po.CpuLimit) (fun _ => rfl)
    · exact hid (fun po => po.MemLimit) (fun _ => rfl)
    · exact hid (fun po => po.CpuRequest) (fun _ => rfl)
    · exact hid (fun po => po.MemRequest) (fun _ => rfl)
    · exact hid (fun po => po.CpuUse) (fun _ => rfl)
    · exact hid (fun po => po.MemUse) (fun _ => rfl)
  obtain ⟨c1, c2, c3, c4, c5, c6⟩ := h0
  have hloop := containerLoop_evicted r.worker r.record hE
  refine ⟨summarized E r.worker r.record, _, summarize_ok E _ _ hs', summarized_global _ _ _, ?_⟩
  by_cases h1 : r.record.NodeName = E.ALL
  · simp [h1, podOutcome, slot_ALL, foldPodNode, hR, c1, c2, c3, c4, summarized, hloop]
  · simp [h1, podOutcome, slot_ALL, foldPod, addStorage, hR, c1, c2, c3, c4, c5, c6, summarized, hloop]
    cases quotaFor E r.worker r.record <;> simp [addQuotaStats]

/-- C5, witness: the sample evicted pod, which declares a CPU limit, processed and folded in
the empty worker. -/
theorem evicted_pod_fold_witness :
    (evictedPod.Status.Reason = "Evicted" ∧ SummariesSane {}) ∧
    ∃ r, processObject sampleEnv {} evictedPod none 0 {} = .ok r ∧
      ∃ w' g', summarize sampleEnv r.worker r.record = .ok w' ∧
        mapGet w'.SummaryMap sampleEnv.ALL = some g' ∧
        g'.PodCount = (globalSummary sampleEnv r.worker).PodCount + 1 ∧
        g'.Evictions = (globalSummary sampleEnv r.worker).Evictions + 1 ∧
        g'.LimitCpu = (globalSummary sampleEnv r.worker).LimitCpu ∧
        g'.LimitMemory = (globalSummary sampleEnv r.worker).LimitMemory ∧
        g'.RequestCpu = (globalSummary sampleEnv r.worker).RequestCpu ∧
        g'.RequestMemory = (globalSummary sampleEnv r.worker).RequestMemory ∧
        g'.UseCpu = (globalSummary sampleEnv r.worker).UseCpu ∧
        g'.UseMemory = (globalSummary sampleEnv r.worker).UseMemory ∧
        g'.PodStorageRequest = (globalSummary sampleEnv r.worker).PodStorageRequest ∧
        g'.PodStorageLimit = (globalSummary sampleEnv r.worker).PodStorageLimit ∧
        g'.StorageRequest = (globalSummary sampleEnv r.worker).StorageRequest ∧
        g'.StorageCapacity = (globalSummary sampleEnv r.worker).StorageCapacity ∧
        w'.ContainerSummaryMap = r.worker.ContainerSummaryMap ∧
        w'.InstanceSummaryMap = r.worker.InstanceSummaryMap :=
  ⟨⟨rfl, sane_empty⟩, _, rfl,
    evicted_pod_fold sampleEnv {} evictedPod none 0 {} _ rfl rfl sane_empty⟩

/-- C6. Instrumentation ceiling. For a pod whose entry in `FailedCache` has a count of at
least `MAX_INSTRUMENTATION_ATTEMPTS` (instrumented or not), `checkForInstrumentation`
dispatches no attempt, leaves `FailedCache` unchanged and leaves the key of the pod out of
`PendingCache`; and whatever evaluations follow, of this pod or of others and with whatever
outcome, none of them dispatches an attempt for the key of the pod. -/
theorem ceiling_is_terminal (E : Env) (w : PodWorker) (podObj : Pod) (podSchema : PodSchema)
    (st status : AttachStatus)
    (hf : mapGet w.FailedCache (GetPodKey podObj) = some status)
    (hc : status.Count ≥ E.MAX_INSTRUMENTATION_ATTEMPTS) :
    attempts (checkForInstrumentation E w podObj podSchema st).2 = [] ∧
    (checkForInstrumentation E w podObj podSchema st).1.FailedCache = w.FailedCache ∧
    GetPodKey podObj ∉ (checkForInstrumentation E w podObj podSchema st).1.PendingCache ∧
    ∀ calls : List (Pod × PodSchema × AttachStatus),
      GetPodKey podObj ∉
        attempts (runChecks E (checkForInstrumentation E w podObj podSchema st).1 calls).2 := by
  have h : AtCeiling E w (GetPodKey podObj) := ⟨status, hf, hc⟩
  obtain ⟨e1, e2, e3⟩ := check_at_ceiling E w podObj podSchema st h
  refine ⟨by rw [e1]; rfl, e2, e3, ?_⟩
  intro calls
  exact runChecks_at_ceiling E _ calls _ (check_keeps_ceiling E w podObj podSchema st _ h).1

/-- C6, witness: `web-1`, not instrumented and pending, with three failed attempts on record
under the sample ceiling of three. -/
theorem ceiling_is_terminal_witness :
    (sampleEnv.IsPodInstrumented web1 = false ∧
      mapGet wCeiling.FailedCache (GetPodKey web1) = some { Key := "ns1/web-1", Count := 3 } ∧
      ({ Key := "ns1/web-1", Count := 3 } : AttachStatus).Count ≥
        sampleEnv.MAX_INSTRUMENTATION_ATTEMPTS) ∧
    (attempts (checkForInstrumentation sampleEnv wCeiling web1 {} failedAttempt).2 = [] ∧
    (checkForInstrumentation sampleEnv wCeiling web1 {} failedAttempt).1.FailedCache =
      wCeiling.FailedCache ∧
    GetPodKey web1 ∉ (checkForInstrumentation sampleEnv wCeiling web1 {} failedAttempt).1.PendingCache ∧
    ∀ calls : List (Pod × PodSchema × AttachStatus),
      GetPodKey web1 ∉
        attempts (runChecks sampleEnv
          (checkForInstrumentation sampleEnv wCeiling web1 {} failedAttempt).1 calls).2) :=
  ⟨⟨by decide, rfl, by decide⟩,
    ceiling_is_terminal sampleEnv wCeiling web1 {} failedAttempt { Key := "ns1/web-1", Count := 3 }
      rfl (by decide)⟩

/-- C7. Retry. The claim has a running, uninstrumented pod whose attempt failed, and whose
count is below the ceiling, attempted again by the next call. On the code, whenever a call
of `checkForInstrumentation` has dispatched an attempt and the attempt has failed, the key
of the pod is left in `PendingCache`, and the next call for the pod dispatches nothing,
whatever the ceiling and the recorded count are. -/
theorem failed_pod_not_retried (E : Env) (w : PodWorker) (podObj : Pod) (podSchema : PodSchema)
    (st st' : AttachStatus) (hfail : st.Success = false)
    (hatt : attempts (checkForInstrumentation E w podObj podSchema st).2 ≠ []) :
    GetPodKey podObj ∈ (checkForInstrumentation E w podObj podSchema st).1.PendingCache ∧
    attempts (checkForInstrumentation E
      (checkForInstrumentation E w podObj podSchema st).1 podObj podSchema st').2 = [] :=
  ⟨failed_attempt_stays_pending E w podObj podSchema st hfail hatt,
    pending_pod_not_attempted E _ podObj podSchema st'
      (failed_attempt_stays_pending E w podObj podSchema st hfail hatt)⟩

/-- C7, at the failing input: `web-1`, running and not instrumented, is evaluated in the
empty worker; the attempt is dispatched and fails, which leaves one failure on record under
the sample ceiling of three; the second evaluation dispatches nothing. -/
theorem failed_pod_not_retried_witness :
    (failedAttempt.Success = false ∧
      attempts (checkForInstrumentation sampleEnv {} web1 {} failedAttempt).2 ≠ []) ∧
    (sampleEnv.IsPodInstrumented web1 = false ∧ IsPodRunnnig web1 = true ∧
      (mapGet (checkForInstrumentation sampleEnv {} web1 {} failedAttempt).1.FailedCache
          "ns1/web-1").map (fun s => decide (s.Count < sampleEnv.MAX_INSTRUMENTATION_ATTEMPTS)) =
        some true) ∧
    (GetPodKey web1 ∈ (checkForInstrumentation sampleEnv {} web1 {} failedAttempt).1.PendingCache ∧
      attempts (checkForInstrumentation sampleEnv
        (checkForInstrumentation sampleEnv {} web1 {} failedAttempt).1 web1 {} failedAttempt).2 =
        []) :=
  ⟨⟨rfl, by decide⟩, by decide,
    failed_pod_not_retried sampleEnv {} web1 {} failedAttempt failedAttempt rfl (by decide)⟩

/-- An entry of `FailedCache` is still there after any call of `checkForInstrumentation`. -/
theorem check_keeps_failed_entry (E : Env) (w : PodWorker) (podObj : Pod) (podSchema : PodSchema)
    (st : AttachStatus) (k : String) (hk : (mapGet w.FailedCache k).isSome = true) :
    (mapGet (checkForInstrumentation E w podObj podSchema st).1.FailedCache k).isSome = true := by
  unfold checkForInstrumentation
  split
  · exact hk
  · split
    · exact hk
    · split
      · split
        · exact hk
        · simp only
          split
          · split
            · exact hk
            · simp only [tryDashboardCache_FailedCache]
              exact hk
          · simp only [mapGet_mapSet]
            split
            · rfl
            · exact hk
      · exact hk

/-- C8, as amended. The attempt record is not removed. When `checkForInstrumentation` finds
the pod instrumented it leaves `FailedCache` unchanged and the key of the pod out of
`PendingCache`. A run of `onDeletePod` that returns, for any pod, instrumented or not, leaves
`FailedCache` and `PendingCache` unchanged. And an entry of `FailedCache` is still there
after any call of `checkForInstrumentation` and after any run of `onNewPod` or `onUpdatePod`
that returns, whatever the pod and the outcome of the attempt. -/
theorem attempt_record_kept (E : Env) (w : PodWorker) (podObj : Pod) (podSchema : PodSchema)
    (st : AttachStatus) (podDeleted : Pod) (now : Time) (md : PodMetricsObj) :
    (E.IsPodInstrumented podObj = true →
      (checkForInstrumentation E w podObj podSchema st).1.FailedCache = w.FailedCache ∧
      GetPodKey podObj ∉ (checkForInstrumentation E w podObj podSchema st).1.PendingCache) ∧
    (∀ r, onDeletePod E w podDeleted now md = .ok r →
      r.1.FailedCache = w.FailedCache ∧ r.1.PendingCache = w.PendingCache) ∧
    (∀ k, (mapGet w.FailedCache k).isSome = true →
      (mapGet (checkForInstrumentation E w podObj podSchema st).1.FailedCache k).isSome = true ∧
      (∀ r, onNewPod E w podObj now md st = .ok r → (mapGet r.1.FailedCache k).isSome = true) ∧
      (∀ podOld r, onUpdatePod E w podOld podObj now md st = .ok r →
        (mapGet r.1.FailedCache k).isSome = true)) := by
  refine ⟨?_, ?_, ?_⟩
  · intro hi
    simp [checkForInstrumentation, hi, mem_RemoveFromSlice]
  · intro r hd
    unfold onDeletePod at hd
    split at hd
    · cases hd; exact ⟨rfl, rfl⟩
    · split at hd
      · cases hd
      · rename_i pr hpr
        cases hd
        rw [processObject_worker _ _ _ _ _ _ _ hpr]
        exact ⟨rfl, rfl⟩
  · intro k hk
    refine ⟨check_keeps_failed_entry E w podObj podSchema st k hk, ?_, ?_⟩
    · intro r hn
      unfold onNewPod at hn
      split at hn
      · cases hn; exact hk
      · split at hn
        · cases hn
        · rename_i pr hpr
          cases hn
          apply check_keeps_failed_entry
          simp only [tryDashboardCache_FailedCache]
          rw [processObject_worker _ _ _ _ _ _ _ hpr]
          exact hk
    · intro podOld r hu
      unfold onUpdatePod at hu
      split at hu
      · cases hu; exact hk
      · split at hu
        · cases hu
        · rename_i pr hpr
          cases hu
          apply check_keeps_failed_entry
          split
          · simp only [tryDashboardCache_FailedCache]
            rw [processObject_worker _ _ _ _ _ _ _ hpr]
            exact hk
          · simp only [tryDashboardCache_FailedCache]
            rw [processObject_worker _ _ _ _ _ _ _ hpr]
            exact hk

/-- C8, witness: with one failed attempt of `web-1` on record, the instrumented `web-1` is
evaluated, and the pod `web-1` without the marker is deleted; the record is there after
each. -/
theorem attempt_record_kept_witness :
    sampleEnv.IsPodInstrumented web1Instrumented = true ∧
    sampleEnv.IsPodInstrumented web1 = false ∧
    ((checkForInstrumentation sampleEnv wFailedOnce web1Instrumented {} goodAttempt).1.FailedCache =
        wFailedOnce.FailedCache ∧
      GetPodKey web1Instrumented ∉
        (checkForInstrumentation sampleEnv wFailedOnce web1Instrumented {} goodAttempt).1.PendingCache) ∧
    (∃ r, onDeletePod sampleEnv wFailedOnce web1 0 {} = .ok r ∧
      r.1.FailedCache = wFailedOnce.FailedCache ∧ r.1.PendingCache = wFailedOnce.PendingCache) ∧
    (mapGet wFailedOnce.FailedCache "ns1/web-1").isSome = true ∧
    (mapGet (checkForInstrumentation sampleEnv wFailedOnce web1Instrumented {} goodAttempt).1.FailedCache
      "ns1/web-1").isSome = true :=
  ⟨by decide, by decide,
    (attempt_record_kept sampleEnv wFailedOnce web1Instrumented {} goodAttempt web1 0 {}).1
      (by decide),
    ⟨_, rfl,
      (attempt_record_kept sampleEnv wFailedOnce web1Instrumented {} goodAttempt web1 0 {}).2.1
        _ rfl⟩,
    rfl,
    ((attempt_record_kept sampleEnv wFailedOnce web1Instrumented {} goodAttempt web1 0 {}).2.2
      "ns1/web-1" rfl).1⟩

/-- C8, counterexample to the claim as stated. With one failed attempt of `web-1` on record,
the entry is still in `FailedCache` after `checkForInstrumentation` has found the pod
instrumented, and still there after `onDeletePod` has handled the deletion of the pod. -/
theorem attempt_record_not_removed :
    sampleEnv.IsPodInstrumented web1Instrumented = true ∧
    (mapGet (checkForInstrumentation sampleEnv wFailedOnce web1Instrumented {} goodAttempt).1.FailedCache
        (GetPodKey web1Instrumented)).isSome = true ∧
    (onDeletePod sampleEnv wFailedOnce web1 0 {}).toOption.map
        (fun r => (mapGet r.1.FailedCache (GetPodKey web1)).isSome) = some true := by
  decide

/-- C9. Port mapping. For a container processed by `processContainer` against the pod
record `podSchema`: the port records are those `CheckPort` builds for the declared ports, in
order; the record of a port carries its number and has `Mapped = true` exactly when a service
in `podSchema.Services` reports the port exposed; and `MissingServices` is the concatenation,
in declaration order, of `"<port number>;"` over the ports whose record is not mapped. -/
theorem port_mapping (w : PodWorker) (podObj : Pod) (podSchema : PodSchema) (c : Container)
    (init : Bool) :
    (processContainer w podObj podSchema c init).containerObj.ContainerPorts =
      c.Ports.map (fun port => CheckPort port podObj podSchema) ∧
    (∀ port : V1ContainerPort,
      (CheckPort port podObj podSchema).PortNumber = port.ContainerPort ∧
      ((CheckPort port podObj podSchema).Mapped = true ↔
        ∃ svc ∈ podSchema.Services,
          (svc.IsPortAvailable { PortNumber := port.ContainerPort, Name := port.Name }
            podSchema).1 = true)) ∧
    (processContainer w podObj podSchema c init).containerObj.MissingServices =
      String.join ((c.Ports.filter (fun port => !(CheckPort port podObj podSchema).Mapped)).map
        (fun port => toString port.ContainerPort ++ ";")) := by
  have hc : ∀ port, CheckPort port podObj
      { podSchema with
        NumPrivileged := if (decide (c.SecurityContext = some (some true))) = true
          then podSchema.NumPrivileged + 1 else podSchema.NumPrivileged
        LiveProbes := if (!c.LivenessProbe) = true then podSchema.LiveProbes + 1
          else podSchema.LiveProbes } = CheckPort port podObj podSchema :=
    fun port => checkPort_congr port podObj _ _ rfl rfl
  refine ⟨?_, fun port => ⟨checkPort_PortNumber _ _ _, checkPort_Mapped _ _ _⟩, ?_⟩
  · simp only [processContainer, portsLoop_eq, hc, NewContainerObj, List.nil_append]
  · simp only [processContainer, portsLoop_eq, hc, NewContainerObj, String.join]

/-- C10, as amended. End-to-end scenario, for every pod of its kind on which `processObject`
returns a record: a qualifying pod that is not evicted, with labels `{name: v}`, phase
`Running`, no owner reference, one container without requests, limits or liveness probe
and no init container. The record has owner `v`, no limits defined and one missing liveness
probe; `onNewPod` returns with the record added to the end of the queue; and in a worker
with sane summaries `summarize` returns with `PodRunning`, `NoLivenessProbe` and `NoLimits`
one higher under the global key and under the namespace of the pod. -/
theorem scenario_for_returned_pods (E : Env) (w : PodWorker) (p : Pod) (c : Container) (v : String)
    (now : Time) (md : PodMetricsObj) (st : AttachStatus) (r : ProcessResult)
    (hl : p.Labels = [("name", v)]) (hph : p.Status.Phase = "Running")
    (hown : p.OwnerReferences = [])
    (hcs : p.Spec.Containers = [c]) (hinit : p.Spec.InitContainers = [])
    (hreq : c.Resources.Requests = none) (hlim : c.Resources.Limits = none)
    (hlive : c.LivenessProbe = false) (hne : p.Status.Reason ≠ "Evicted")
    (hq : qualifies E w p = true) (hs : SummariesSane w)
    (hr : processObject E w p none now md = .ok r) :
    (r.record.Owner = v ∧ r.record.LimitsDefined = false ∧ r.record.LiveProbes = 1) ∧
    (∃ out, onNewPod E w p now md st = .ok out ∧ out.1.WQ = w.WQ ++ [r.record]) ∧
    (∃ w2, summarize E r.worker r.record = .ok w2 ∧
      ∀ k, k = E.ALL ∨ k = p.Namespace →
        counterAt (fun s => s.PodRunning) w2.SummaryMap k =
          counterAt (fun s => s.PodRunning) r.worker.SummaryMap k + 1 ∧
        counterAt (fun s => s.NoLivenessProbe) w2.SummaryMap k =
          counterAt (fun s => s.NoLivenessProbe) r.worker.SummaryMap k + 1 ∧
        counterAt (fun s => s.NoLimits) w2.SummaryMap k =
          counterAt (fun s => s.NoLimits) r.worker.SummaryMap k + 1) := by
  obtain ⟨hlate, hphase⟩ := processObject_record E w p none now md r hr
  obtain ⟨e1, e2, e3, e4⟩ := earlyRecord_scenario E w p c v hl hown hcs hinit hreq hlim hlive hne
  have hO : r.record.Owner = v := by
    have : r.record.Owner = (lateBlank r.record).Owner := rfl
    rw [this, hlate]; exact e1
  have hL : r.record.LimitsDefined = false := by
    have : r.record.LimitsDefined = (lateBlank r.record).LimitsDefined := rfl
    rw [this, hlate]; exact e2
  have hP : r.record.LiveProbes = 1 := by
    have : r.record.LiveProbes = (lateBlank r.record).LiveProbes := rfl
    rw [this, hlate]; exact e3
  have hN : r.record.Namespace = p.Namespace := by
    have : r.record.Namespace = (lateBlank r.record).Namespace := rfl
    rw [this, hlate]; exact e4
  have hw := processObject_worker E w p none now md r hr
  have hs' : SummariesSane r.worker := by rw [hw]; exact hs
  refine ⟨⟨hO, hL, hP⟩, ?_, ?_⟩
  · have hon : onNewPod E w p now md st =
        .ok ((checkForInstrumentation E
              { tryDashboardCache r.worker r.record with
                WQ := (tryDashboardCache r.worker r.record).WQ ++ [r.record] } p r.record st).1,
            r.effects ++ (checkForInstrumentation E
              { tryDashboardCache r.worker r.record with
                WQ := (tryDashboardCache r.worker r.record).WQ ++ [r.record] } p r.record st).2) := by
      simp only [onNewPod, hq, Bool.not_true, Bool.false_eq_true, if_false, hr]
    refine ⟨_, hon, ?_⟩
    simp only [checkForInstrumentation_WQ, tryDashboardCache_WQ, hw]
  · refine ⟨summarized E r.worker r.record, summarize_ok E _ _ hs', ?_⟩
    intro k hk
    have ht : touches E r.record k = true := by
      rcases hk with h | h
      · rw [h]; exact touches_ALL E _
      · rw [h, ← hN]; exact touches_Namespace E _
    refine ⟨?_, ?_, ?_⟩
    · rw [counterAt_summarized isCounter_PodRunning]
      simp [ht, hphase, hph]
    · rw [counterAt_summarized isCounter_NoLivenessProbe]
      simp [ht, hP]
    · rw [counterAt_summarized isCounter_NoLimits]
      simp [ht, hL]

/-- C10, witness: the pod `web-1` in namespace `ns1` with label `name=web`, in the empty
worker. -/
theorem scenario_for_returned_pods_witness :
    (web1.Labels = [("name", "web")] ∧ web1.Status.Phase = "Running" ∧
      web1.OwnerReferences = [] ∧ web1.Spec.Containers = [{ Name := "main" }] ∧
      web1.Spec.InitContainers = [] ∧ web1.Status.Reason ≠ "Evicted" ∧
      qualifies sampleEnv {} web1 = true ∧ SummariesSane {}) ∧
    ∃ r, processObject sampleEnv {} web1 none 0 {} = .ok r ∧
      (r.record.Owner = "web" ∧ r.record.LimitsDefined = false ∧ r.record.LiveProbes = 1) ∧
      (∃ out, onNewPod sampleEnv {} web1 0 {} goodAttempt = .ok out ∧
        out.1.WQ = ({} : PodWorker).WQ ++ [r.record]) ∧
      (∃ w2, summarize sampleEnv r.worker r.record = .ok w2 ∧
        ∀ k, k = sampleEnv.ALL ∨ k = web1.Namespace →
          counterAt (fun s => s.PodRunning) w2.SummaryMap k =
            counterAt (fun s => s.PodRunning) r.worker.SummaryMap k + 1 ∧
          counterAt (fun s => s.NoLivenessProbe) w2.SummaryMap k =
            counterAt (fun s => s.NoLivenessProbe) r.worker.SummaryMap k + 1 ∧
          counterAt (fun s => s.NoLimits) w2.SummaryMap k =
            counterAt (fun s => s.NoLimits) r.worker.SummaryMap k + 1) :=
  ⟨⟨rfl, rfl, rfl, rfl, rfl, by decide, rfl, sane_empty⟩, _, rfl,
    scenario_for_returned_pods sampleEnv {} web1 { Name := "main" } "web" 0 {} goodAttempt _
      rfl rfl rfl rfl rfl rfl rfl rfl (by decide) rfl sane_empty rfl⟩

/-- C10, counterexample to the claim as stated. Three pods with labels `{name: web}`, phase
`Running`, no owner reference and the one container of `web-1`, in the empty worker. With
the status reason `Evicted` the containers are skipped and the record has `LiveProbes = 0`;
with an init container the record has `LiveProbes = 2`; with required anti-affinity terms
and no pod affinity, `processObject` and `onNewPod` end in a nil dereference, so that there
is no record and nothing is queued. -/
theorem scenario_outside_its_conditions :
    ((web1Evicted.Labels, web1Evicted.Status.Phase, web1Evicted.OwnerReferences) =
        ([("name", "web")], "Running", []) ∧
      (processObject sampleEnv {} web1Evicted none 0 {}).toOption.map
        (fun r => r.record.LiveProbes) = some 0) ∧
    ((web1WithInit.Labels, web1WithInit.Status.Phase, web1WithInit.OwnerReferences) =
        ([("name", "web")], "Running", []) ∧
      web1WithInit.Spec.Containers.length = 1 ∧
      (processObject sampleEnv {} web1WithInit none 0 {}).toOption.map
        (fun r => r.record.LiveProbes) = some 2) ∧
    ((web1AntiAffinity.Labels, web1AntiAffinity.Status.Phase, web1AntiAffinity.OwnerReferences) =
        ([("name", "web")], "Running", []) ∧
      web1AntiAffinity.Spec.Containers.map
          (fun c => (c.Resources.Requests.isSome, c.Resources.Limits.isSome, c.LivenessProbe)) =
        [(false, false, false)] ∧
      web1AntiAffinity.Spec.InitContainers.length = 0 ∧
      isNilDeref (processObject sampleEnv {} web1AntiAffinity none 0 {}) = true ∧
      isNilDeref (onNewPod sampleEnv {} web1AntiAffinity 0 {} goodAttempt) = true) := by
  decide

/-- Claim C11, at two pods. The pod `db-0` has no label and no owner reference: its record
has the empty owner, not the name `db-0`. With the label `Name=db` and the owner reference
`db-set` the record has the owner `db-set`, not `db`: `processObject` compares the key with
`name` as it is written. The sibling `getPodOwner` answers `db-0` and `db`. -/
theorem owner_of_processObject_misses_cases :
    (∃ r, processObject sampleEnv {} barePod none 0 {} = .ok r ∧ r.record.Owner = "" ∧
      barePod.Labels = [] ∧ barePod.OwnerReferences = [] ∧ barePod.Name = "db-0" ∧
      getPodOwner barePod = "db-0") ∧
    (∃ r, processObject sampleEnv {} capitalPod none 0 {} = .ok r ∧
      r.record.Owner = "db-set" ∧ mapGet capitalPod.Labels "Name" = some "db" ∧
      toLower "Name" = "name" ∧ getPodOwner capitalPod = "db") :=
  ⟨⟨_, rfl, by decide⟩, ⟨_, rfl, by decide⟩⟩

/-! ## Lemmas on the quotas applied -/

/-- A fold that keeps the latest element passing a test ends with the last such element. -/
theorem foldl_keep_last {α : Type} (p : α → Bool) (l : List α) (q : Option α) :
    l.foldl (fun q a => if p a then some a else q) q =
      match (l.filter p).getLast? with
      | some x => some x
      | none => q := by
  induction l generalizing q with
  | nil => rfl
  | cons a t ih =>
    rw [List.foldl_cons, ih]
    by_cases h : p a = true
    · simp only [h, if_true, List.filter_cons_of_pos, List.getLast?_cons]
      cases (List.filter p t).getLast? <;> rfl
    · rw [List.filter_cons_of_neg h]
      simp only [h, if_false, Bool.false_eq_true]

/-- The quota loop of `summarize` ends with the last applicable quota. -/
theorem theQuota_eq_lastApplicable (E : Env) (w : PodWorker) (r : PodSchema) :
    theQuota E w r = lastApplicable E w r := by
  unfold theQuota lastApplicable
  rw [foldl_keep_last]
  cases ((mapValues w.RQCache).filter (fun rq => E.AppliesToPod rq r)).getLast? <;> rfl

/-- The quotas of the local copy are the stored ones. -/
theorem quotas_slot (E : Env) (w : PodWorker) (r : PodSchema) (k : String) :
    (slot E w r k).QuotasApplied = quotasAt w.SummaryMap k := by
  cases h : mapGet w.SummaryMap k with
  | none =>
    obtain ⟨ns, nd, hc⟩ := slot_core_of_none E w r k h
    have : (coreOf (slot E w r k)).QuotasApplied = [] := by rw [hc]
    simpa [quotasAt, h] using this
  | some s => simp [slot, mapGetD, quotasAt, h]

/-- The quotas of a summary written back: the stored ones and, outside the node summary,
the quota of the call. -/
theorem quotas_podOutcome (E : Env) (w : PodWorker) (r : PodSchema) (node : Bool) (k : String) :
    (podOutcome E w r node k).QuotasApplied =
      quotasAt w.SummaryMap k ++ (if node then [] else (quotaFor E w r).toList) := by
  unfold podOutcome
  cases node
  · simp only [Bool.false_eq_true, if_false]
    rw [← quotas_slot E w r k]
    cases quotaFor E w r <;> simp [addStorage, foldPod, addQuotaStats]
  · simp only [if_true, List.append_nil]
    rw [← quotas_slot E w r k]
    rfl

/-- One call of `summarize` adds its quota under the global key and under the namespace,
unless the node of the record has that key. -/
theorem quotasAt_summarized (E : Env) (w : PodWorker) (r : PodSchema) (k : String) :
    quotasAt (summarized E w r).SummaryMap k =
      quotasAt w.SummaryMap k ++
        (if r.NodeName ≠ k ∧ (k = E.ALL ∨ k = r.Namespace) then (quotaFor E w r).toList else []) := by
  have h := summarized_lookup E w r k
  unfold quotasAt at *
  rw [h]
  by_cases h1 : r.NodeName = k
  · simp only [h1, if_true, Option.map_some', Option.getD_some, ne_eq, not_true_eq_false, false_and, if_false]
    have := quotas_podOutcome E w r true k
    simpa [quotasAt] using this
  · by_cases h2 : r.Namespace = k
    · simp only [h1, h2, if_true, if_false, Option.map_some', Option.getD_some]
      have := quotas_podOutcome E w r false k
      simpa [quotasAt, h1, h2] using this
    · by_cases h3 : E.ALL = k
      · simp only [h1, h2, h3, if_true, if_false, Option.map_some', Option.getD_some]
        have := quotas_podOutcome E w r false k
        simpa [quotasAt, h1, h3] using this
      · have h2' : ¬ k = r.Namespace := fun e => h2 e.symm
        have h3' : ¬ k = E.ALL := fun e => h3 e.symm
        simp [h1, h2, h3, h2', h3']

/-- One call of `summarize` adds its quota to the application summary of the owner. -/
theorem appQuotasAt_summarized (E : Env) (w : PodWorker) (r : PodSchema) (o : String) :
    appQuotasAt (summarized E w r).AppSummaryMap o =
      appQuotasAt w.AppSummaryMap o ++ (if r.Owner = o then (quotaFor E w r).toList else []) := by
  unfold appQuotasAt
  simp only [summarized, mapGet_mapSet]
  by_cases h : r.Owner = o
  · subst h
    simp only [if_true, Option.map_some', Option.getD_some, appOutcome, mapGetD, quotaFor]
    cases hk : mapGet w.AppSummaryMap r.Owner with
    | none =>
      simp only [Option.isSome_none, Bool.false_eq_true, if_false, Option.getD_none, Option.map_none', List.nil_append]
      cases theQuota E w r <;> rfl
    | some s => simp [foldPodApp]
  · simp [h]

/-- The quotas of a cycle depend on the worker through the quota cache only. -/
theorem quotasOfCycle_congr (E : Env) (w w2 : PodWorker) (h : w2.RQCache = w.RQCache)
    (sel : PodSchema → Bool) (rs : List PodSchema) (seen : List String) :
    quotasOfCycle E w2 sel seen rs = quotasOfCycle E w sel seen rs := by
  induction rs generalizing seen with
  | nil => rfl
  | cons r t ih => simp only [quotasOfCycle, ih, lastApplicable, h]

/-- The quota of a call, when the owners met are those with an application summary. -/
theorem quotaFor_seen (E : Env) (w : PodWorker) (r : PodSchema) (seen : List String)
    (hseen : ∀ o, o ∈ seen ↔ (mapGet w.AppSummaryMap o).isSome = true) :
    quotaFor E w r = if r.Owner ∈ seen then none else lastApplicable E w r := by
  unfold quotaFor
  rw [theQuota_eq_lastApplicable]
  by_cases h : r.Owner ∈ seen
  · simp [h, (hseen r.Owner).1 h]
  · have : ¬ (mapGet w.AppSummaryMap r.Owner).isSome = true := fun e => h ((hseen r.Owner).2 e)
    simp [h, this]

/-- Folding a list of records: the quotas applied to every application summary and to
every pod summary. -/
theorem quotas_fold (E : Env) (rs : List PodSchema) (w : PodWorker) (seen : List String)
    (hs : SummariesSane w)
    (hseen : ∀ o, o ∈ seen ↔ (mapGet w.AppSummaryMap o).isSome = true) :
    ∃ w', summarizeAll E w rs = .ok w' ∧
      (∀ o, appQuotasAt w'.AppSummaryMap o =
        appQuotasAt w.AppSummaryMap o ++
          quotasOfCycle E w (fun r => decide (r.Owner = o)) seen rs) ∧
      (∀ k, quotasAt w'.SummaryMap k =
        quotasAt w.SummaryMap k ++
          quotasOfCycle E w
            (fun r => decide (r.NodeName ≠ k ∧ (k = E.ALL ∨ k = r.Namespace))) seen rs) := by
  induction rs generalizing w seen with
  | nil => exact ⟨w, rfl, by simp [quotasOfCycle], by simp [quotasOfCycle]⟩
  | cons r t ih =>
    have hseen2 : ∀ o, o ∈ r.Owner :: seen ↔
        (mapGet (summarized E w r).AppSummaryMap o).isSome = true := by
      intro o
      simp only [summarized, mapGet_mapSet, List.mem_cons]
      by_cases h : r.Owner = o
      · simp [h]
      · have h' : ¬ o = r.Owner := fun e => h e.symm
        simp [h, h', hseen o]
    obtain ⟨w', h1, h2, h3⟩ := ih (summarized E w r) (r.Owner :: seen) (summarized_sane E w r hs) hseen2
    refine ⟨w', ?_, ?_, ?_⟩
    · simp only [summarizeAll, summarize_ok E w r hs, h1]
    · intro o
      rw [h2 o, appQuotasAt_summarized, quotaFor_seen E w r seen hseen,
        quotasOfCycle_congr E w (summarized E w r) rfl]
      simp only [quotasOfCycle, List.append_assoc, decide_eq_true_eq]
      congr 2
      by_cases hm : r.Owner ∈ seen
      · simp only [hm, if_true, not_true_eq_false, and_false, if_false, Option.toList_none,
          ite_self]
      · simp only [hm, if_false, not_false_eq_true, and_true]
    · intro k
      rw [h3 k, quotasAt_summarized, quotaFor_seen E w r seen hseen,
        quotasOfCycle_congr E w (summarized E w r) rfl]
      simp only [quotasOfCycle, List.append_assoc, decide_eq_true_eq]
      congr 2
      by_cases hm : r.Owner ∈ seen
      · simp only [hm, if_true, not_true_eq_false, and_false, if_false, Option.toList_none,
          ite_self]
      · simp only [hm, if_false, not_false_eq_true, and_true]
/-- The quotas of a cycle depend on the selection only at the records of the cycle. -/
theorem quotasOfCycle_sel (E : Env) (w : PodWorker) (sel sel2 : PodSchema → Bool)
    (rs : List PodSchema) (seen : List String) (h : ∀ r ∈ rs, sel r = sel2 r) :
    quotasOfCycle E w sel seen rs = quotasOfCycle E w sel2 seen rs := by
  induction rs generalizing seen with
  | nil => rfl
  | cons r t ih =>
    simp only [quotasOfCycle, h r (List.mem_cons_self _ _),
      ih (r.Owner :: seen) (fun b hb => h b (List.mem_cons_of_mem _ hb))]

/-- Claim C12, refuted as stated: with `quota-a` before `quota-b` in the cache and both
applying to `web-1`, the first applicable quota is `quota-a`, yet the application, namespace
and global summaries created for the record receive `quota-b`. When the node of the record is
named like the namespace, the namespace summary receives no quota at all. -/
theorem first_quota_does_not_win :
    firstApplicable sampleEnv wTwoQuotas recWebA = some quotaA ∧ quotaA.Name ≠ quotaB.Name ∧
    (∃ w', summarize sampleEnv wTwoQuotas recWebA = .ok w' ∧
      appQuotasAt w'.AppSummaryMap "web" = [quotaB] ∧ quotasAt w'.SummaryMap "ns1" = [quotaB] ∧
      quotasAt w'.SummaryMap "all" = [quotaB]) ∧
    (∃ w', summarize sampleEnv wTwoQuotas recOnNodeNs1 = .ok w' ∧
      appQuotasAt w'.AppSummaryMap "web" = [quotaB] ∧ quotasAt w'.SummaryMap "ns1" = []) :=
  ⟨rfl, by decide, ⟨_, rfl, rfl, rfl, rfl⟩, ⟨_, rfl, rfl, rfl⟩⟩

/-- Claim C12, amended: a cycle over any records does not fault, and every summary receives,
for each distinct owner, the last applicable quota of the first record of that owner and
nothing from the later records of the owner: the application summary of the owner always,
the global and the namespace summary of the record when no record of the cycle has a node
named like their key. -/
theorem last_quota_once_per_owner (E : Env) (w : PodWorker) (rs : List PodSchema) :
    ∃ w', summarizeAll E (resetSummaries w) rs = .ok w' ∧
      (∀ o, appQuotasAt w'.AppSummaryMap o =
        quotasOfCycle E w (fun r => decide (r.Owner = o)) [] rs) ∧
      (∀ k, (∀ r ∈ rs, r.NodeName ≠ k) →
        quotasAt w'.SummaryMap k =
          quotasOfCycle E w (fun r => decide (k = E.ALL ∨ k = r.Namespace)) [] rs) := by
  obtain ⟨w', h1, h2, h3⟩ := quotas_fold E rs (resetSummaries w) [] (resetSummaries_sane w)
    (by intro o; simp [resetSummaries, mapGet])
  refine ⟨w', h1, ?_, ?_⟩
  · intro o
    rw [h2 o, quotasOfCycle_congr E w (resetSummaries w) rfl]
    simp [appQuotasAt, resetSummaries, mapGet]
  · intro k hk
    rw [h3 k, quotasOfCycle_congr E w (resetSummaries w) rfl]
    rw [quotasOfCycle_sel E w _ (fun r => decide (k = E.ALL ∨ k = r.Namespace)) rs []
      (fun r hr => by simp [hk r hr])]
    simp [quotasAt, resetSummaries, mapGet]

/-- The amended claim C12 on the two records of the owner `web`: `quota-b`, once. -/
theorem last_quota_once_per_owner_witness :
    (∀ r ∈ [recWebA, recWebB], r.NodeName ≠ "all") ∧
    ∃ w', summarizeAll sampleEnv (resetSummaries wTwoQuotas) [recWebA, recWebB] = .ok w' ∧
      appQuotasAt w'.AppSummaryMap "web" = [quotaB] ∧ quotasAt w'.SummaryMap "all" = [quotaB] :=
  ⟨by decide,
    (last_quota_once_per_owner sampleEnv wTwoQuotas [recWebA, recWebB]).elim
      fun w' h => ⟨w', h.1, (h.2.1 "web").trans rfl, (h.2.2 "all" (by decide)).trans rfl⟩⟩

/-! ## Lemmas on the averaged times -/

/-- The pending time of a summary is an averaged field. -/
theorem isAverage_PendingTime : IsAverage (fun s => s.PendingTime) (fun r => r.PendingTime) :=
  ⟨fun _ => rfl, fun _ _ => rfl, fun _ _ => rfl, fun _ _ => rfl,
   fun q _ => by cases q <;> rfl, fun _ _ => rfl⟩

/-- The up time of a summary is an averaged field. -/
theorem isAverage_UpTime : IsAverage (fun s => s.UpTime) (fun r => r.UpTimeMillis) :=
  ⟨fun _ => rfl, fun _ _ => rfl, fun _ _ => rfl, fun _ _ => rfl,
   fun q _ => by cases q <;> rfl, fun _ _ => rfl⟩

/-- An averaged field of the local copy is the stored one. -/
theorem average_slot {f : ClusterPodMetrics → Int} {d : PodSchema → Int} (hf : IsAverage f d)
    (E : Env) (w : PodWorker) (r : PodSchema) (k : String) :
    f (slot E w r k) = counterAt f w.SummaryMap k := by
  cases h : mapGet w.SummaryMap k with
  | none =>
    obtain ⟨ns, nd, hc⟩ := slot_core_of_none E w r k h
    rw [← hf.core, hc, hf.fresh]
    simp [counterAt, h]
  | some s => simp [slot, mapGetD, counterAt, h]

/-- An averaged field of a summary written back: the stored value plus the share of the
record. -/
theorem average_podOutcome {f : ClusterPodMetrics → Int} {d : PodSchema → Int}
    (hf : IsAverage f d) (E : Env) (w : PodWorker) (r : PodSchema) (node : Bool) (k : String) :
    f (podOutcome E w r node k) =
      counterAt f w.SummaryMap k +
        Int.tdiv (d r) (counterAt (fun s => s.PodCount) w.SummaryMap k + 1) := by
  have hc := counter_slot isCounter_PodCount E w r k
  simp only at hc
  unfold podOutcome
  cases node
  · simp only [Bool.false_eq_true, if_false]
    rw [hf.storage, hf.fold, hf.quota, average_slot hf, addQuotaStats_PodCount, hc]
  · simp only [if_true]
    rw [hf.node, average_slot hf, hc]

/-- One call of `summarize` adds the share of the record to the global summary. -/
theorem average_summarized_ALL {f : ClusterPodMetrics → Int} {d : PodSchema → Int}
    (hf : IsAverage f d) (E : Env) (w : PodWorker) (r : PodSchema) :
    counterAt f (summarized E w r).SummaryMap E.ALL =
      counterAt f w.SummaryMap E.ALL +
        Int.tdiv (d r) (counterAt (fun s => s.PodCount) w.SummaryMap E.ALL + 1) := by
  have h := summarized_lookup E w r E.ALL
  unfold counterAt at *
  rw [h]
  by_cases h1 : r.NodeName = E.ALL
  · simp only [h1, if_true, Option.map_some', Option.getD_some]
    have := average_podOutcome hf E w r true E.ALL
    simpa [counterAt] using this
  · by_cases h2 : r.Namespace = E.ALL
    · simp only [h1, h2, if_true, if_false, Option.map_some', Option.getD_some]
      have := average_podOutcome hf E w r false E.ALL
      simpa [counterAt] using this
    · simp only [h1, h2, if_true, if_false, Option.map_some', Option.getD_some]
      have := average_podOutcome hf E w r false E.ALL
      simpa [counterAt] using this

/-- Folding a list of records adds their shares to the global summary. -/
theorem average_fold {f : ClusterPodMetrics → Int} {d : PodSchema → Int}
    (hf : IsAverage f d) (E : Env) (rs : List PodSchema) (w : PodWorker) (hs : SummariesSane w) :
    ∃ w', summarizeAll E w rs = .ok w' ∧
      counterAt f w'.SummaryMap E.ALL =
        counterAt f w.SummaryMap E.ALL +
          shares d (counterAt (fun s => s.PodCount) w.SummaryMap E.ALL) rs := by
  induction rs generalizing w with
  | nil => exact ⟨w, rfl, by simp [shares]⟩
  | cons r t ih =>
    obtain ⟨w', h1, h2⟩ := ih (summarized E w r) (summarized_sane E w r hs)
    refine ⟨w', ?_, ?_⟩
    · simp only [summarizeAll, summarize_ok E w r hs, h1]
    · rw [h2, average_summarized_ALL hf, counterAt_summarized isCounter_PodCount, touches_ALL]
      simp only [shares, if_true]
      omega

/-- The shares, with the records numbered from the pod count on. -/
theorem shares_enum (d : PodSchema → Int) (rs : List PodSchema) (n : Nat) :
    shares d (n : Int) rs = ((rs.enumFrom (n + 1)).map fun ir => Int.tdiv (d ir.2) (ir.1 : Int)).sum := by
  induction rs generalizing n with
  | nil => rfl
  | cons r t ih =>
    simp only [shares, List.enumFrom_cons, List.map_cons, List.sum_cons]
    have := ih (n + 1)
    push_cast at this ⊢
    rw [this]
/-- Claim C13: a cycle over the records `r1..rn` does not fault, so no divisor is zero; the
global summary then has the pod count `n`, the pending time `r1.PendingTime / 1 + ... +
rn.PendingTime / n` and the up time `r1.UpTimeMillis / 1 + ... + rn.UpTimeMillis / n`, with
the truncating division of Go. This holds for all records, with or without colliding keys. -/
theorem global_times_sum_of_shares (E : Env) (w : PodWorker) (rs : List PodSchema) :
    ∃ w', summarizeAll E (resetSummaries w) rs = .ok w' ∧
      counterAt (fun s => s.PodCount) w'.SummaryMap E.ALL = rs.length ∧
      counterAt (fun s => s.PendingTime) w'.SummaryMap E.ALL =
        ((rs.enumFrom 1).map fun ir => Int.tdiv ir.2.PendingTime (ir.1 : Int)).sum ∧
      counterAt (fun s => s.UpTime) w'.SummaryMap E.ALL =
        ((rs.enumFrom 1).map fun ir => Int.tdiv ir.2.UpTimeMillis (ir.1 : Int)).sum := by
  obtain ⟨w1, h1, hp⟩ := average_fold isAverage_PendingTime E rs (resetSummaries w)
    (resetSummaries_sane w)
  obtain ⟨w2, h2, hu⟩ := average_fold isAverage_UpTime E rs (resetSummaries w)
    (resetSummaries_sane w)
  obtain ⟨w3, h3, -, hc, -⟩ := summarizeAll_spec E rs (resetSummaries w) (resetSummaries_sane w)
  rw [h1] at h2 h3
  cases h2
  cases h3
  have hn := hc _ _ isCounter_PodCount E.ALL
  have h0 : ∀ f : ClusterPodMetrics → Int, counterAt f (resetSummaries w).SummaryMap E.ALL = 0 :=
    fun f => counterAt_reset f w E.ALL
  refine ⟨w1, h1, ?_, ?_, ?_⟩
  · rw [hn, h0]
    simp [touches_ALL]
  · rw [hp, h0, h0]
    simpa using shares_enum (fun r => r.PendingTime) rs 0
  · rw [hu, h0, h0]
    simpa using shares_enum (fun r => r.UpTimeMillis) rs 0

/-! ## Lemmas on the derived times -/

/-- The container loop leaves the derived times alone. -/
theorem containersLoop_times (E : Env) (w : PodWorker) (p : Pod) (cs : List Container)
    (po : PodSchema) : timesOf (containersLoop E w p cs po) = timesOf po := by
  unfold containersLoop
  induction cs generalizing po with
  | nil => rfl
  | cons c t ih => rw [List.foldl_cons, ih]; rfl

/-- The init-container loop leaves the derived times alone. -/
theorem initContainersLoop_times (w : PodWorker) (p : Pod) (cs : List Container)
    (po : PodSchema) : timesOf (initContainersLoop w p cs po) = timesOf po := by
  unfold initContainersLoop
  induction cs generalizing po with
  | nil => rfl
  | cons c t ih => rw [List.foldl_cons, ih]; rfl

/-- After the early lines both derived times are zero. -/
theorem earlyRecord_times (E : Env) (w : PodWorker) (p : Pod) :
    timesOf (earlyRecord E w p) = (0, 0) := by
  unfold earlyRecord
  split
  · unfold containersPhase
    simp only
    rw [initContainersLoop_times, containersLoop_times]
    rfl
  · rfl

/-- The pending-time lines, run on zero times with the time stamps in order, give times
that are not negative. -/
theorem pendingTimePhase_nonneg (now : Time) (x : PodSchema) (hx : timesOf x = (0, 0))
    (hstart : x.StartTimeMillis ≤ millis now) (hbreak : x.BreakPointMillis ≤ millis now)
    (hrun : x.BreakPointMillis ≤ x.RunningStartTimeMillis)
    (hterm : x.TerminationTimeMillis > 0 → x.BreakPointMillis ≤ x.TerminationTimeMillis) :
    0 ≤ (pendingTimePhase now x).PendingTime ∧ 0 ≤ (pendingTimePhase now x).UpTimeMillis := by
  have h1 : x.PendingTime = 0 := congrArg Prod.fst hx
  have h2 : x.UpTimeMillis = 0 := congrArg Prod.snd hx
  unfold pendingTimePhase
  split
  · split
    · simp only
      constructor
      · omega
      · split
        · have := hterm (by assumption); omega
        · omega
    · simp only
      constructor <;> omega
  · constructor <;> omega

/-- The pending-time lines leave the time stamps alone. -/
theorem pendingTimePhase_keeps (now : Time) (x : PodSchema) :
    (pendingTimePhase now x).StartTimeMillis = x.StartTimeMillis ∧
    (pendingTimePhase now x).BreakPointMillis = x.BreakPointMillis ∧
    (pendingTimePhase now x).RunningStartTimeMillis = x.RunningStartTimeMillis ∧
    (pendingTimePhase now x).TerminationTimeMillis = x.TerminationTimeMillis := by
  unfold pendingTimePhase
  split
  · split <;> exact ⟨rfl, rfl, rfl, rfl⟩
  · exact ⟨rfl, rfl, rfl, rfl⟩

/-- The usage lines leave the derived times and the time stamps alone. -/
theorem metricsPhase_keeps (p : Pod) (md : PodMetricsObj) (x : PodSchema) :
    timesOf (metricsPhase p md x) = timesOf x ∧
    (metricsPhase p md x).StartTimeMillis = x.StartTimeMillis ∧
    (metricsPhase p md x).BreakPointMillis = x.BreakPointMillis ∧
    (metricsPhase p md x).RunningStartTimeMillis = x.RunningStartTimeMillis ∧
    (metricsPhase p md x).TerminationTimeMillis = x.TerminationTimeMillis := by
  unfold metricsPhase
  split
  · split <;> exact ⟨rfl, rfl, rfl, rfl, rfl⟩
  · exact ⟨rfl, rfl, rfl, rfl, rfl⟩

/-- A call of `updateConatainerStatus` that returns leaves the derived times alone. -/
theorem updateConatainerStatus_times (bag : AppDBag) (po : PodSchema)
    (c : Option ContainerSchema) (st : ContainerStatus) (r : PodSchema × List Effect)
    (h : updateConatainerStatus bag po c st = .ok r) : timesOf r.1 = timesOf po := by
  unfold updateConatainerStatus at h
  simp only at h
  split at h
  · cases h
  · split at h
    · cases h
    · cases h; rfl

/-- A status loop that returns leaves the derived times alone. -/
theorem statusLoop_times (bag : AppDBag) (find : PodSchema → String → Option ContainerSchema)
    (sts : List ContainerStatus) (po : PodSchema) (r : PodSchema × List Effect)
    (h : statusLoop bag find sts po = .ok r) : timesOf r.1 = timesOf po := by
  induction sts generalizing po r with
  | nil => simp only [statusLoop] at h; cases h; rfl
  | cons st t ih =>
    simp only [statusLoop] at h
    split at h
    · cases h
    · rename_i r1 h1
      split at h
      · cases h
      · rename_i r2 h2
        cases h
        simp only
        rw [ih _ _ h2, updateConatainerStatus_times _ _ _ _ _ h1]

/-- The condition lines leave the derived times alone. -/
theorem conditionsPhase_times (conds : List PodCondition) (po : PodSchema) :
    timesOf (conditionsPhase conds po) = timesOf po := by
  unfold conditionsPhase
  simp only
  split <;> rfl

/-- The start-time lines leave the derived times alone. -/
theorem startTimePhase_times (po : PodSchema) : timesOf (startTimePhase po) = timesOf po := by
  unfold startTimePhase
  split <;> rfl

/-- The record `processObject` returns is, for an evicted pod, a record with both derived
times zero and otherwise what the pending-time and usage lines make of such a record. -/
theorem processObject_timing (E : Env) (w : PodWorker) (p : Pod) (old : Option Pod) (now : Time)
    (md : PodMetricsObj) (r : ProcessResult) (hr : processObject E w p old now md = .ok r) :
    ∃ x, timesOf x = (0, 0) ∧
      (r.record = x ∨ r.record = metricsPhase p md (pendingTimePhase now x)) := by
  unfold processObject at hr
  simp only at hr
  split at hr
  · cases hr
  · rename_i po3 h3
    have hf := schedulingPhase_frame _ _ _ h3
    have e3 : timesOf po3 = (0, 0) := by
      show timesOf (schedBlank po3) = _
      rw [hf]
      exact earlyRecord_times E w p
    split at hr
    · cases hr
    · rename_i r4 h4
      cases hr
      simp only
      split at h4
      · unfold statusPhase at h4
        split at h4
        · cases h4
        · rename_i r1 h1
          split at h4
          · cases h4
          · rename_i r2 h2
            cases h4
            refine ⟨startTimePhase r2.1, ?_, Or.inr rfl⟩
            rw [startTimePhase_times, statusLoop_times _ _ _ _ _ h2,
              statusLoop_times _ _ _ _ _ h1, conditionsPhase_times]
            exact e3
      · cases h4
        refine ⟨_, ?_, Or.inl rfl⟩
        exact e3

/-- Claim C14, refuted as stated, with the clock at second 5. The pod `web-1` started at
second 8 with its container running since second 10 gets the up time -3000; the same pod
still pending gets the pending time -3000. With the clock at second 20, a container that
reports a last termination later than its running start gives the pending time -2000. -/
theorem times_negative_out_of_order :
    (∃ r, processObject sampleEnv {} web1Started none 5000000000 {} = .ok r ∧
      r.record.PendingTime = 2000 ∧ r.record.UpTimeMillis = -3000) ∧
    (∃ r, processObject sampleEnv {} web1Waiting none 5000000000 {} = .ok r ∧
      r.record.PendingTime = -3000 ∧ r.record.UpTimeMillis = 0) ∧
    (∃ r, processObject sampleEnv {} web1Restarted none 20000000000 {} = .ok r ∧
      r.record.PendingTime = -2000 ∧ r.record.UpTimeMillis = 8000) :=
  ⟨⟨_, rfl, by decide⟩, ⟨_, rfl, by decide⟩, ⟨_, rfl, by decide⟩⟩

/-- Claim C14, amended: when the time stamps of the returned record are in order, that is
the clock is not earlier than the start time and the break point, and the break point is not
later than the running start nor than the termination time if there is one, then the pending
time and the up time of the record are not negative. -/
theorem times_not_negative_in_order (E : Env) (w : PodWorker) (p : Pod) (old : Option Pod)
    (now : Time) (md : PodMetricsObj) (r : ProcessResult)
    (hr : processObject E w p old now md = .ok r)
    (hstart : r.record.StartTimeMillis ≤ millis now)
    (hbreak : r.record.BreakPointMillis ≤ millis now)
    (hrun : r.record.BreakPointMillis ≤ r.record.RunningStartTimeMillis)
    (hterm : r.record.TerminationTimeMillis > 0 →
      r.record.BreakPointMillis ≤ r.record.TerminationTimeMillis) :
    0 ≤ r.record.PendingTime ∧ 0 ≤ r.record.UpTimeMillis := by
  obtain ⟨x, hx, h | h⟩ := processObject_timing E w p old now md r hr
  · rw [h]
    have h1 : x.PendingTime = 0 := congrArg Prod.fst hx
    have h2 : x.UpTimeMillis = 0 := congrArg Prod.snd hx
    omega
  · obtain ⟨m0, m1, m2, m3, m4⟩ := metricsPhase_keeps p md (pendingTimePhase now x)
    obtain ⟨k1, k2, k3, k4⟩ := pendingTimePhase_keeps now x
    rw [h] at hstart hbreak hrun hterm ⊢
    rw [m1, k1] at hstart
    rw [m2, k2] at hbreak hrun hterm
    rw [m3, k3] at hrun
    rw [m4, k4] at hterm
    have := pendingTimePhase_nonneg now x hx hstart hbreak hrun hterm
    have e1 : (metricsPhase p md (pendingTimePhase now x)).PendingTime =
        (pendingTimePhase now x).PendingTime := congrArg Prod.fst m0
    have e2 : (metricsPhase p md (pendingTimePhase now x)).UpTimeMillis =
        (pendingTimePhase now x).UpTimeMillis := congrArg Prod.snd m0
    rw [e1, e2]
    exact this

/-- The amended claim C14 on `web-1` with the clock at second 20: pending for 2000 ms, up for
12000 ms. -/
theorem times_not_negative_in_order_witness :
    ∃ r, processObject sampleEnv {} web1Started none 20000000000 {} = .ok r ∧
      r.record.PendingTime = 2000 ∧ r.record.UpTimeMillis = 12000 ∧
      0 ≤ r.record.PendingTime ∧ 0 ≤ r.record.UpTimeMillis :=
  ⟨_, rfl, by decide, by decide,
    times_not_negative_in_order sampleEnv {} web1Started none 20000000000 {} _ rfl
      (by decide) (by decide) (by decide) (by decide)⟩

/-- What `onDeletePod` does for a qualifying pod on which `processObject` returns: the record
is added to the queue, and the node is deregistered when the record has a node identifier. -/
theorem onDeletePod_of_returned (E : Env) (w : PodWorker) (p : Pod) (now : Time)
    (md : PodMetricsObj) (r : ProcessResult) (hq : qualifies E w p = true)
    (h : processObject E w p none now md = .ok r) :
    ∃ w', onDeletePod E w p now md =
        .ok (w', r.effects ++
          (if r.record.NodeID > 0 then [Effect.deleteAppDNode r.record.NodeID] else [])) ∧
      w'.WQ = w.WQ ++ [r.record] := by
  have hw := processObject_worker E w p none now md r h
  refine ⟨{ r.worker with WQ := r.worker.WQ ++ [r.record] }, ?_, ?_⟩
  · simp only [onDeletePod, hq, h, Bool.not_true, Bool.false_eq_true, if_false]
  · simp only [hw]

/-- Claim C15, at the pod `web-1` with the conditions Initialized and PodScheduled of second
8 and Ready and ContainersReady of second 10: the first condition with the greatest
transition time is Ready, with status False; the record of `processObject` has the type,
status, reason and time of PodScheduled, the last condition of the list. -/
theorem condition_taken_from_end_of_list :
    (latestCondition web1Conditions.Status.Conditions).map
        (fun c => (c.CondType, c.Status, c.Reason, c.LastTransitionTime)) =
      some ("Ready", "False", "ContainersNotReady", 10000000000) ∧
    ∃ r, processObject sampleEnv {} web1Conditions none 0 {} = .ok r ∧
      r.record.IsEvicted = false ∧ r.record.TypeCondition = "PodScheduled" ∧
      r.record.StatusCondition = "True" ∧ r.record.ReasonCondition = ". " ∧
      r.record.LastTransitionTimeCondition = some 8000000000 :=
  ⟨by decide, _, rfl, by decide⟩

/-- Claim C16, at two pods: `processObject` ends in a nil dereference for the pod with
required anti-affinity terms and no pod affinity, and for the pod that reports the status of
a container its spec does not have. -/
theorem processObject_faults :
    web1AntiAffinity.Spec.Affinity.map (fun a => a.PodAffinity.isNone) = some true ∧
    processObject sampleEnv {} web1AntiAffinity none 0 {} = .error Fault.nilDereference ∧
    web1Sidecar.Spec.Containers.map (fun c => c.Name) = ["main"] ∧
    web1Sidecar.Status.ContainerStatuses.map (fun s => s.Name) = ["istio-proxy"] ∧
    processObject sampleEnv {} web1Sidecar none 0 {} = .error Fault.nilDereference :=
  ⟨rfl, rfl, rfl, rfl, rfl⟩

/-- Claim C17, at the pod `web-1` with the container `main` and the init container `setup`
that reports the status of `setup`: the record has the keys `main` and `setup` in
`Containers`. -/
theorem init_container_among_containers :
    web1InitReported.Spec.Containers.map (fun c => c.Name) = ["main"] ∧
    web1InitReported.Spec.InitContainers.map (fun c => c.Name) = ["setup"] ∧
    ∃ r, processObject sampleEnv {} web1InitReported none 0 {} = .ok r ∧
      r.record.IsEvicted = false ∧ keysOf r.record.Containers = ["main", "setup"] ∧
      keysOf r.record.InitContainers = ["setup"] :=
  ⟨rfl, rfl, _, rfl, by decide⟩

/-- Claim C18, at the qualifying pod `web-1` registered as node 42 that has required
anti-affinity terms and no pod affinity: `onDeletePod` ends in a nil dereference, so no
record is queued and the node is not deregistered. Without the anti-affinity terms the
record is queued and node 42 deregistered. -/
theorem onDeletePod_faults_before_queueing :
    qualifies sampleEnv {} web1Deregister = true ∧
    onDeletePod sampleEnv {} web1Deregister 0 {} = .error Fault.nilDereference ∧
    ∃ w', onDeletePod sampleEnv {} web1Node42 0 {} = .ok (w', [Effect.deleteAppDNode 42]) ∧
      w'.WQ.map (fun x => (x.Name, x.NodeID)) = [("web-1", 42)] :=
  ⟨rfl, rfl, _, rfl, by decide⟩

/-! ## Lemmas on repeated runs and on the failure record -/

/-- The correlation and container lines do not read the owner and namespace index. -/
theorem containersPhase_indep (E : Env) (w : PodWorker) (a b : GoMap String) :
    containersPhase E { w with OwnerMap := a, NamespaceMap := b } = containersPhase E w := rfl

/-- The outcome of `processObject` does not depend on the owner and namespace index. -/
theorem processObject_caches (E : Env) (w : PodWorker) (p : Pod) (old : Option Pod) (now : Time)
    (md : PodMetricsObj) :
    outcomeOf (processObject E (cachesOf w) p old now md) = outcomeOf (processObject E w p old now md) := by
  unfold processObject
  simp only [cachesOf, containersPhase_indep]
  cases schedulingPhase p
      (if (!(identityPhase E w.Bag p).IsEvicted) = true then
        containersPhase E w p (identityPhase E w.Bag p)
      else identityPhase E w.Bag p) with
  | error f => rfl
  | ok po3 =>
    simp only
    split <;> rfl

/-- Two workers with the same configuration and caches give the same outcome. -/
theorem processObject_same_caches (E : Env) (w w2 : PodWorker) (p : Pod) (old : Option Pod)
    (now : Time) (md : PodMetricsObj) (h : cachesOf w2 = cachesOf w) :
    outcomeOf (processObject E w2 p old now md) = outcomeOf (processObject E w p old now md) := by
  rw [← processObject_caches E w2, ← processObject_caches E w, h]

/-- The failure record after an attempt that was dispatched and failed. -/
theorem failed_attempt_cache (E : Env) (w : PodWorker) (podObj : Pod)
    (podSchema : PodSchema) (st : AttachStatus) (hfail : st.Success = false)
    (hatt : attempts (checkForInstrumentation E w podObj podSchema st).2 ≠ []) :
    (checkForInstrumentation E w podObj podSchema st).1.FailedCache =
      mapSet w.FailedCache st.Key
        (match mapGet w.FailedCache st.Key with
          | some existing => { st with Count := existing.Count + 1 }
          | none => st) := by
  unfold checkForInstrumentation at hatt ⊢
  split
  · rename_i h; simp [h, attempts] at hatt
  · rename_i h
    split
    · rename_i h'; simp [h, h', attempts] at hatt
    · rename_i h'
      split
      · rename_i h''
        split
        · rename_i h3; simp [h, h', h'', h3, attempts] at hatt
        · simp only [hfail, Bool.false_eq_true, if_false]
      · rename_i h''; simp [h, h', h'', attempts] at hatt

/-- Claim C19, refuted as stated. The pods `web1TwoLabels` and `web1TwoLabelsSwapped` are one
pod, the label map visited in two of the orders a range over it may take: the records differ
in the label text. And two runs on `web-1` to which the metrics query answers differently
differ in the usage. -/
theorem records_differ_between_runs :
    (∀ k, mapGet web1TwoLabels.Labels k = mapGet web1TwoLabelsSwapped.Labels k) ∧
    web1TwoLabels.Labels.Perm web1TwoLabelsSwapped.Labels ∧
    (∃ r, processObject sampleEnv {} web1TwoLabels none 0 {} = .ok r ∧
      r.record.Labels = "app:shop;tier:web;") ∧
    (∃ r, processObject sampleEnv {} web1TwoLabelsSwapped none 0 {} = .ok r ∧
      r.record.Labels = "tier:web;app:shop;") ∧
    (∃ r, processObject sampleEnv {} web1 none 0 {} = .ok r ∧ r.record.CpuUse = 0) ∧
    (∃ r, processObject sampleEnv {} web1 none 0 busyMetrics = .ok r ∧ r.record.CpuUse = 250) := by
  refine ⟨?_, ?_, ⟨_, rfl, by decide⟩, ⟨_, rfl, by decide⟩, ⟨_, rfl, by decide⟩,
    ⟨_, rfl, by decide⟩⟩
  · intro k
    simp only [web1TwoLabels, web1TwoLabelsSwapped, mapGet]
    by_cases h1 : "app" = k
    · subst h1; simp
    · by_cases h2 : "tier" = k
      · subst h2; simp
      · simp [h1, h2]
  · exact List.Perm.swap _ _ _

/-- Claim C19, amended: with the maps visited in the same order and the same answer of the
metrics query, a second run of `processObject` on the worker the first run leaves returns
the same record, the same `changed` flag and the same log fetches; and so does a run on that
worker with any other owner and namespace index. -/
theorem processObject_repeatable (E : Env) (w : PodWorker) (p : Pod) (old : Option Pod)
    (now : Time) (md : PodMetricsObj) (r1 : ProcessResult)
    (h1 : processObject E w p old now md = .ok r1) :
    (∃ r2, processObject E r1.worker p old now md = .ok r2 ∧ r2.record = r1.record ∧
      r2.changed = r1.changed ∧ r2.effects = r1.effects) ∧
    (∀ om nm, ∃ r3,
      processObject E { r1.worker with OwnerMap := om, NamespaceMap := nm } p old now md =
        .ok r3 ∧
      r3.record = r1.record ∧ r3.changed = r1.changed ∧ r3.effects = r1.effects) := by
  have hw := processObject_worker E w p old now md r1 h1
  have key : ∀ w2, cachesOf w2 = cachesOf w →
      ∃ r2, processObject E w2 p old now md = .ok r2 ∧ r2.record = r1.record ∧
        r2.changed = r1.changed ∧ r2.effects = r1.effects := by
    intro w2 hc
    have h := processObject_same_caches E w w2 p old now md hc
    rw [h1] at h
    cases h2 : processObject E w2 p old now md with
    | error f => rw [h2] at h; cases h
    | ok r2 =>
      rw [h2] at h
      simp only [outcomeOf, Except.ok.injEq, Prod.mk.injEq] at h
      exact ⟨r2, rfl, h.1, h.2.1, h.2.2⟩
  exact ⟨key _ (by rw [hw]; rfl), fun om nm => key _ (by rw [hw]; rfl)⟩

/-- The amended claim C19 on `web-1`: the first run writes the owner index, the second run
returns the same record. -/
theorem processObject_repeatable_witness :
    ∃ r1, processObject sampleEnv {} web1 none 0 {} = .ok r1 ∧
      r1.worker.OwnerMap = [("ns1/web-1", "web")] ∧
      ∃ r2, processObject sampleEnv r1.worker web1 none 0 {} = .ok r2 ∧
        r2.record = r1.record ∧ r2.changed = r1.changed ∧ r2.effects = r1.effects :=
  ⟨_, rfl, rfl, (processObject_repeatable sampleEnv {} web1 none 0 {} _ rfl).1⟩

/-- Claim C20: after an attempt that was dispatched and failed, reporting the status `st`,
the failure record under `st.Key` has the previous count plus one when there was a record,
and the count of `st` when there was none; the records under all other keys are as before. -/
theorem failed_count_incremented (E : Env) (w : PodWorker) (podObj : Pod)
    (podSchema : PodSchema) (st : AttachStatus) (hfail : st.Success = false)
    (hatt : attempts (checkForInstrumentation E w podObj podSchema st).2 ≠ []) :
    (∀ existing, mapGet w.FailedCache st.Key = some existing →
      (mapGet (checkForInstrumentation E w podObj podSchema st).1.FailedCache st.Key).map
        (fun s => s.Count) = some (existing.Count + 1)) ∧
    (mapGet w.FailedCache st.Key = none →
      (mapGet (checkForInstrumentation E w podObj podSchema st).1.FailedCache st.Key).map
        (fun s => s.Count) = some st.Count) ∧
    (∀ k, k ≠ st.Key →
      mapGet (checkForInstrumentation E w podObj podSchema st).1.FailedCache k =
        mapGet w.FailedCache k) := by
  rw [failed_attempt_cache E w podObj podSchema st hfail hatt]
  refine ⟨?_, ?_, ?_⟩
  · intro existing he
    simp [mapGet_mapSet, he]
  · intro he
    simp [mapGet_mapSet, he]
  · intro k hk
    have : ¬ st.Key = k := fun e => hk e.symm
    simp [mapGet_mapSet, this]

/-- Claim C20 on `web-1` with one failure on record: the failed attempt makes it two. -/
theorem failed_count_incremented_witness :
    (failedAttempt.Success = false ∧
      attempts (checkForInstrumentation sampleEnv wFailedBefore web1 {} failedAttempt).2 ≠ []) ∧
    (mapGet wFailedBefore.FailedCache failedAttempt.Key).map (fun s => s.Count) = some 1 ∧
    (mapGet (checkForInstrumentation sampleEnv wFailedBefore web1 {} failedAttempt).1.FailedCache
      failedAttempt.Key).map (fun s => s.Count) = some (1 + 1) :=
  ⟨⟨rfl, by decide⟩, by decide,
    (failed_count_incremented sampleEnv wFailedBefore web1 {} failedAttempt rfl (by decide)).1
      _ rfl⟩

/-! ## Lemmas on the eviction flag, the owner lookup and the limits flag -/

/-- The container loop leaves the eviction flag alone. -/
theorem containersLoop_IsEvicted (E : Env) (w : PodWorker) (p : Pod) (cs : List Container)
    (po : PodSchema) : (containersLoop E w p cs po).IsEvicted = po.IsEvicted := by
  unfold containersLoop
  induction cs generalizing po with
  | nil => rfl
  | cons c t ih => rw [List.foldl_cons, ih]; rfl

/-- The init-container loop leaves the eviction flag alone. -/
theorem initContainersLoop_IsEvicted (w : PodWorker) (p : Pod) (cs : List Container)
    (po : PodSchema) : (initContainersLoop w p cs po).IsEvicted = po.IsEvicted := by
  unfold initContainersLoop
  induction cs generalizing po with
  | nil => rfl
  | cons c t ih => rw [List.foldl_cons, ih]; rfl

/-- After the early lines the eviction flag says whether the status reason is `Evicted`. -/
theorem earlyRecord_IsEvicted (E : Env) (w : PodWorker) (p : Pod) :
    (earlyRecord E w p).IsEvicted = decide (p.Status.Reason = "Evicted") := by
  have hid : (identityPhase E w.Bag p).IsEvicted = decide (p.Status.Reason = "Evicted") := by
    by_cases h : p.Status.Reason = "Evicted"
    · simp [identityPhase, h]
    · simp [identityPhase, h, NewPodObj]
  unfold earlyRecord
  split
  · unfold containersPhase
    simp only
    rw [initContainersLoop_IsEvicted, containersLoop_IsEvicted]
    exact hid
  · exact hid

/-- A fold that takes the value of every element passing a test ends with the value of the
last such element. -/
theorem foldl_last_match {α : Type} (P : α → Bool) (g : α → String) (l : List α) (init : String) :
    l.foldl (fun o a => if P a = true then g a else o) init =
      match (l.filter P).getLast? with
      | some a => g a
      | none => init := by
  induction l generalizing init with
  | nil => rfl
  | cons a t ih =>
    rw [List.foldl_cons, ih]
    by_cases h : P a = true
    · simp only [h, if_true, List.filter_cons_of_pos, List.getLast?_cons]
      cases (List.filter P t).getLast? <;> rfl
    · rw [List.filter_cons_of_neg h]
      simp only [h, if_false, Bool.false_eq_true]

/-- In a list of at most one element the last element is the first. -/
theorem getLast_of_short {α : Type} (l : List α) (h : l.length ≤ 1) : l.getLast? = l.head? := by
  match l, h with
  | [], _ => rfl
  | [a], _ => rfl
  | a :: b :: t, h => simp at h

/-- The first element of a filtered list is the first element passing the test. -/
theorem head_filter_eq_find {α : Type} (P : α → Bool) (l : List α) :
    (l.filter P).head? = l.find? P := by
  induction l with
  | nil => rfl
  | cons a t ih =>
    by_cases h : P a = true
    · simp [List.filter_cons_of_pos, List.find?_cons, h]
    · rw [List.filter_cons_of_neg h, ih]
      simp [List.find?_cons, h]

/-- A text replaced by a fallback when empty is empty only if the fallback is. -/
theorem ite_empty_fallback (o n : String) (h : (if o = "" then n else o) = "") : n = "" := by
  split at h
  · exact h
  · rename_i hne; exact absurd h hne

/-- The container loop leaves the flag `LimitsDefined` as the last container sets it. -/
theorem containersLoop_LimitsDefined (E : Env) (w : PodWorker) (p : Pod) (cs : List Container)
    (po : PodSchema) :
    (containersLoop E w p cs po).LimitsDefined =
      match cs.getLast? with
      | some c => c.Resources.Requests.isSome || c.Resources.Limits.isSome
      | none => po.LimitsDefined := by
  unfold containersLoop
  induction cs generalizing po with
  | nil => rfl
  | cons c t ih =>
    rw [List.foldl_cons, ih, List.getLast?_cons]
    cases t.getLast? <;> rfl

/-- The init-container loop leaves the flag `LimitsDefined` alone. -/
theorem initContainersLoop_LimitsDefined (w : PodWorker) (p : Pod) (cs : List Container)
    (po : PodSchema) : (initContainersLoop w p cs po).LimitsDefined = po.LimitsDefined := by
  unfold initContainersLoop
  induction cs generalizing po with
  | nil => rfl
  | cons c t ih => rw [List.foldl_cons, ih]; rfl

/-- Claim C21: for a pod that is not instrumented and below the failure ceiling, an attempt
is dispatched only if the pod is running and its key is not pending; when the key is pending
or the pod is not running, nothing is dispatched and the pending set and the failure records
are left as they were. A running pod whose key is not pending does get its attempt. -/
theorem dispatch_needs_running_not_pending (E : Env) (w : PodWorker) (podObj : Pod)
    (podSchema : PodSchema) (st : AttachStatus)
    (hni : E.IsPodInstrumented podObj = false)
    (hbelow : ∀ s, mapGet w.FailedCache (GetPodKey podObj) = some s →
      s.Count < E.MAX_INSTRUMENTATION_ATTEMPTS) :
    (attempts (checkForInstrumentation E w podObj podSchema st).2 ≠ [] →
      IsPodRunnnig podObj = true ∧ GetPodKey podObj ∉ w.PendingCache) ∧
    (GetPodKey podObj ∈ w.PendingCache ∨ IsPodRunnnig podObj = false →
      (checkForInstrumentation E w podObj podSchema st).2 = [] ∧
      (checkForInstrumentation E w podObj podSchema st).1.PendingCache = w.PendingCache ∧
      (checkForInstrumentation E w podObj podSchema st).1.FailedCache = w.FailedCache) ∧
    (IsPodRunnnig podObj = true → GetPodKey podObj ∉ w.PendingCache →
      attempts (checkForInstrumentation E w podObj podSchema st).2 = [GetPodKey podObj]) := by
  unfold checkForInstrumentation
  split
  · rename_i h; rw [hni] at h; cases h
  · split
    · rename_i h
      cases hm : mapGet w.FailedCache (GetPodKey podObj) with
      | none => rw [hm] at h; cases h
      | some s =>
        rw [hm] at h
        have := hbelow s hm
        simp only [decide_eq_true_eq] at h
        omega
    · split
      · rename_i hr
        split
        · rename_i hp
          have hp' : GetPodKey podObj ∈ w.PendingCache := by simpa [StringInSlice] using hp
          exact ⟨fun h => absurd rfl h, fun _ => ⟨rfl, rfl, rfl⟩, fun _ h => absurd hp' h⟩
        · rename_i hp
          have hp' : GetPodKey podObj ∉ w.PendingCache := by simpa [StringInSlice] using hp
          refine ⟨fun _ => ⟨hr, hp'⟩, ?_, ?_⟩
          · intro h; rcases h with h | h
            · exact absurd h hp'
            · rw [hr] at h; cases h
          · intro _ _
            simp only
            split
            · split <;> rfl
            · simp only [attempts]
              split <;> rfl
      · rename_i hr
        exact ⟨fun h => absurd rfl h, fun _ => ⟨rfl, rfl, rfl⟩, fun h => absurd h hr⟩
/-- Claim C21 on `web-1`, running, not instrumented, pending with one failure on record under
the ceiling of three: nothing is dispatched, the two caches are unchanged. -/
theorem dispatch_needs_running_not_pending_witness :
    (sampleEnv.IsPodInstrumented web1 = false ∧
      mapGet wFailedOnce.FailedCache (GetPodKey web1) = some { Key := "ns1/web-1", Count := 1 } ∧
      GetPodKey web1 ∈ wFailedOnce.PendingCache) ∧
    (checkForInstrumentation sampleEnv wFailedOnce web1 {} failedAttempt).2 = [] ∧
    (checkForInstrumentation sampleEnv wFailedOnce web1 {} failedAttempt).1.PendingCache =
      wFailedOnce.PendingCache ∧
    (checkForInstrumentation sampleEnv wFailedOnce web1 {} failedAttempt).1.FailedCache =
      wFailedOnce.FailedCache :=
  ⟨⟨rfl, rfl, by decide⟩,
    (dispatch_needs_running_not_pending sampleEnv wFailedOnce web1 {} failedAttempt rfl
      (fun s hs => by
        have h1 : mapGet wFailedOnce.FailedCache (GetPodKey web1) =
            some { Key := "ns1/web-1", Count := 1 } := rfl
        rw [h1] at hs
        cases hs
        decide)).2.1 (Or.inl (by decide))⟩

/-- Claim C22: the record `processObject` returns has the eviction flag exactly when the
status reason of the pod is `Evicted`; and a record with the flag has no services, no
endpoints, no entries in its two container maps, container counts of zero and all request,
limit and storage figures at zero. -/
theorem evicted_flag_and_empty_record (E : Env) (w : PodWorker) (p : Pod) (old : Option Pod)
    (now : Time) (md : PodMetricsObj) (r : ProcessResult)
    (hr : processObject E w p old now md = .ok r) :
    (r.record.IsEvicted = true ↔ p.Status.Reason = "Evicted") ∧
    (r.record.IsEvicted = true →
      r.record.Services = [] ∧ r.record.Endpoints = [] ∧
      entries r.record.Containers = [] ∧ entries r.record.InitContainers = [] ∧
      r.record.ContainerCount = 0 ∧ r.record.InitContainerCount = 0 ∧
      r.record.CpuRequest = 0 ∧ r.record.MemRequest = 0 ∧
      r.record.CpuLimit = 0 ∧ r.record.MemLimit = 0 ∧
      r.record.PodStorageRequest = 0 ∧ r.record.PodStorageLimit = 0 ∧
      r.record.StorageRequest = 0 ∧ r.record.StorageCapacity = 0) := by
  have hflag : r.record.IsEvicted = decide (p.Status.Reason = "Evicted") := by
    have h := (processObject_record E w p old now md r hr).1
    have : r.record.IsEvicted = (lateBlank r.record).IsEvicted := rfl
    rw [this, h]
    exact earlyRecord_IsEvicted E w p
  constructor
  · rw [hflag]; simp
  · intro he
    rw [hflag] at he
    have hev : p.Status.Reason = "Evicted" := by simpa using he
    obtain ⟨po3, hf, hrec, -⟩ := processObject_evicted E w p old now md r hev hr
    have fld : ∀ {α : Type} (g : PodSchema → α), (∀ x, g (schedBlank x) = g x) →
        g po3 = g (identityPhase E w.Bag p) := by
      intro α g hg
      rw [← hg po3, hf, hg]
    rw [hrec]
    exact ⟨fld (fun x => x.Services) (fun _ => rfl), fld (fun x => x.Endpoints) (fun _ => rfl),
      fld (fun x => entries x.Containers) (fun _ => rfl),
      fld (fun x => entries x.InitContainers) (fun _ => rfl),
      fld (fun x => x.ContainerCount) (fun _ => rfl),
      fld (fun x => x.InitContainerCount) (fun _ => rfl),
      fld (fun x => x.CpuRequest) (fun _ => rfl), fld (fun x => x.MemRequest) (fun _ => rfl),
      fld (fun x => x.CpuLimit) (fun _ => rfl), fld (fun x => x.MemLimit) (fun _ => rfl),
      fld (fun x => x.PodStorageRequest) (fun _ => rfl),
      fld (fun x => x.PodStorageLimit) (fun _ => rfl),
      fld (fun x => x.StorageRequest) (fun _ => rfl),
      fld (fun x => x.StorageCapacity) (fun _ => rfl)⟩

/-- Claim C22 on the evicted pod `job-7`, whose one container declares a CPU limit. -/
theorem evicted_flag_and_empty_record_witness :
    ∃ r, processObject sampleEnv {} evictedPod none 0 {} = .ok r ∧
      evictedPod.Spec.Containers.length = 1 ∧
      (r.record.IsEvicted = true ↔ evictedPod.Status.Reason = "Evicted") ∧
      r.record.IsEvicted = true ∧ r.record.ContainerCount = 0 ∧ r.record.CpuLimit = 0 :=
  ⟨_, rfl, rfl, (evicted_flag_and_empty_record sampleEnv {} evictedPod none 0 {} _ rfl).1,
    rfl, rfl, rfl⟩

/-- Claim C26: for a pod with at most one label whose key is `name` in lower case,
`getPodOwner` returns the owner of the three-step rule, and it returns the empty string only
when the name of the pod is empty. -/
theorem getPodOwner_by_spec (p : Pod)
    (h : (p.Labels.filter (fun kv => decide (toLower kv.1 = "name"))).length ≤ 1) :
    getPodOwner p = ownerBySpec p ∧ (getPodOwner p = "" → p.Name = "") := by
  have hfold : p.Labels.foldl (fun owner kv => if toLower kv.1 = "name" then kv.2 else owner) "" =
      (nameLabel p).getD "" := by
    have := foldl_last_match (fun kv : String × String => decide (toLower kv.1 = "name"))
      Prod.snd p.Labels ""
    simp only [decide_eq_true_eq] at this
    rw [this, getLast_of_short _ h, head_filter_eq_find]
    unfold nameLabel
    cases List.find? (fun kv => decide (toLower kv.1 = "name")) p.Labels <;> rfl
  have hown : getPodOwner p = ownerBySpec p := by
    unfold getPodOwner ownerBySpec
    simp only [hfold]
    cases hn : nameLabel p with
    | none =>
      cases hr : p.OwnerReferences with
      | nil => simp
      | cons ref t => by_cases hne : ref = "" <;> simp [hne]
    | some v =>
      by_cases hv : v = ""
      · cases hr : p.OwnerReferences with
        | nil => simp [hv]
        | cons ref t => by_cases hne : ref = "" <;> simp [hv, hne]
      · simp [hv]
  refine ⟨hown, ?_⟩
  intro he
  exact ite_empty_fallback _ _ he

/-- Claim C26 on the pod `db-0` with the label `Name=db` and the owner reference `db-set`. -/
theorem getPodOwner_by_spec_witness :
    (capitalPod.Labels.filter (fun kv => decide (toLower kv.1 = "name"))).length ≤ 1 ∧
    getPodOwner capitalPod = ownerBySpec capitalPod ∧ ownerBySpec capitalPod = "db" :=
  ⟨by decide, (getPodOwner_by_spec capitalPod (by decide)).1, by decide⟩

/-- Claim C27: a call of `checkForInstrumentation` on a pending set without duplicate keys
leaves a pending set without duplicate keys, whatever the pod and the outcome of the
attempt. -/
theorem pending_keys_stay_distinct (E : Env) (w : PodWorker) (podObj : Pod) (podSchema : PodSchema)
    (st : AttachStatus) (h : w.PendingCache.Nodup) :
    (checkForInstrumentation E w podObj podSchema st).1.PendingCache.Nodup := by
  have hrem : ∀ (k : String) (l : List String), l.Nodup → (RemoveFromSlice k l).Nodup :=
    fun k l hl => hl.filter _
  unfold checkForInstrumentation
  split
  · exact hrem _ _ h
  · split
    · exact hrem _ _ h
    · split
      · split
        · exact h
        · rename_i hp
          have hp' : GetPodKey podObj ∉ w.PendingCache := by simpa [StringInSlice] using hp
          have h1 : (w.PendingCache ++ [GetPodKey podObj]).Nodup := by
            rw [List.nodup_append]
            refine ⟨h, List.nodup_singleton _, ?_⟩
            intro a ha hb
            simp only [List.mem_singleton] at hb
            subst hb
            exact hp' ha
          simp only
          split
          · split
            · exact hrem _ _ h1
            · simp only [tryDashboardCache]
              split <;> exact hrem _ _ h1
          · exact h1
      · exact h
/-- Claim C27 on `web-1` in the empty worker, the attempt failing: the key is pending once. -/
theorem pending_keys_stay_distinct_witness :
    ([] : List String).Nodup ∧
    (checkForInstrumentation sampleEnv {} web1 {} failedAttempt).1.PendingCache = ["ns1/web-1"] ∧
    (checkForInstrumentation sampleEnv {} web1 {} failedAttempt).1.PendingCache.Nodup :=
  ⟨List.nodup_nil, by decide,
    pending_keys_stay_distinct sampleEnv {} web1 {} failedAttempt List.nodup_nil⟩

/-- Claim C29: for a pod that is not evicted, the flag `LimitsDefined` of the record
`processObject` returns is that of the last regular container alone, true exactly when that
container declares requests or limits, and false when there is no regular container. -/
theorem limits_of_last_container (E : Env) (w : PodWorker) (p : Pod) (old : Option Pod)
    (now : Time) (md : PodMetricsObj) (r : ProcessResult)
    (hr : processObject E w p old now md = .ok r) (hne : p.Status.Reason ≠ "Evicted") :
    r.record.LimitsDefined =
      match p.Spec.Containers.getLast? with
      | some cn => cn.Resources.Requests.isSome || cn.Resources.Limits.isSome
      | none => false := by
  have h := (processObject_record E w p old now md r hr).1
  have h1 : r.record.LimitsDefined = (lateBlank r.record).LimitsDefined := rfl
  rw [h1, h]
  show (earlyRecord E w p).LimitsDefined = _
  have hE : (identityPhase E w.Bag p).IsEvicted = false := by
    simp [identityPhase, hne, NewPodObj]
  simp only [earlyRecord, hE, Bool.not_false, if_true]
  unfold containersPhase
  simp only
  rw [initContainersLoop_LimitsDefined, containersLoop_LimitsDefined]
  cases p.Spec.Containers.getLast? <;> rfl
/-- Claim C29 on `web-1` with the containers `main`, which declares a limit, and `sidecar`,
which declares nothing: the flag of the record is false. -/
theorem limits_of_last_container_witness :
    web1TwoContainers.Status.Reason ≠ "Evicted" ∧
    ∃ r, processObject sampleEnv {} web1TwoContainers none 0 {} = .ok r ∧
      r.record.LimitsDefined = false :=
  ⟨by decide, _, rfl,
    limits_of_last_container sampleEnv {} web1TwoContainers none 0 {} _ rfl (by decide)⟩

/-! ## Lemmas on the queue flush -/

/-- The pod posts of two effect lists in a row. -/
theorem podPosts_append (a b : List Effect) : podPosts (a ++ b) = podPosts a ++ podPosts b := by
  induction a with
  | nil => rfl
  | cons e t ih => cases e <;> simp [podPosts, ih]

/-- The batch loop of `postContainerRecords` posts no pod records. -/
theorem containerBatchLoop_podPosts (limit : Int) (objList : List ContainerSchema) :
    podPosts (containerBatchLoop limit objList).2.2 = [] := by
  unfold containerBatchLoop
  have gen : ∀ (l : List ContainerSchema) (acc : Int × List ContainerSchema × List Effect),
      podPosts acc.2.2 = [] →
      podPosts (l.foldl
        (fun acc c =>
          let containerList := acc.2.1 ++ [c]
          if acc.1 = limit then
            (0 + 1, [], acc.2.2 ++ [Effect.postContainerBatchRecords containerList])
          else (acc.1 + 1, containerList, acc.2.2)) acc).2.2 = [] := by
    intro l
    induction l with
    | nil => intro acc h; exact h
    | cons c t ih =>
      intro acc h
      rw [List.foldl_cons]
      apply ih
      simp only
      split
      · simp [podPosts_append, h, podPosts]
      · exact h
  exact gen objList _ rfl

/-- The function `postContainerRecords` posts no pod records. -/
theorem postContainerRecords_podPosts (bag : AppDBag) (objList : List ContainerSchema) :
    podPosts (postContainerRecords bag objList) = [] := by
  unfold postContainerRecords
  simp only
  split
  · simp [podPosts_append, containerBatchLoop_podPosts, podPosts]
  · exact containerBatchLoop_podPosts _ _

/-- The loop of `flushQueue`, entered with the counter at the length of the queue and fewer
records collected than `M`, the limit or one if the limit is below one: it posts the records
collected and the next ones, up to `M` in all, and leaves the rest of the queue. -/
theorem flushLoop_spec (bag : AppDBag) (M : Nat) (hM1 : 1 ≤ M)
    (hM : (M : Int) = max bag.EventAPILimit 1) (queue : List PodSchema) :
    ∀ (objList : List PodSchema) (containerList : List ContainerSchema), queue ≠ [] →
      objList.length < M →
      ∃ cl, flushLoop bag queue queue.length objList containerList =
        some (queue.drop (min queue.length (M - objList.length)),
          Effect.postPodRecords (objList ++ queue.take (min queue.length (M - objList.length))) ::
            postContainerRecords bag cl) := by
  induction queue with
  | nil => intro _ _ h; exact absurd rfl h
  | cons q rest ih =>
    intro objList containerList _ hlen
    have hc : ((q :: rest).length : Int) ≥ 0 := by simp; omega
    simp only [flushLoop, hc, if_true]
    by_cases hcond : ((q :: rest).length : Int) - 1 = 0 ∨
        ((objList ++ [q]).length : Int) ≥ bag.EventAPILimit
    · simp only [hcond, if_true]
      have hj : min (q :: rest).length (M - objList.length) = 1 := by
        simp only [List.length_cons, List.length_append, List.length_nil, Nat.cast_add,
          Nat.cast_one] at hcond ⊢
        rcases hcond with h | h
        · have : rest.length = 0 := by omega
          omega
        · have : M ≤ objList.length + 1 := by
            have h2 : (M : Int) ≤ max bag.EventAPILimit 1 := le_of_eq hM
            rcases le_max_iff.1 h2 with h3 | h3
            · omega
            · omega
          omega
      rw [hj]
      exact ⟨containerList ++ mapValues (entries q.Containers), by simp⟩
    · simp only [hcond, if_false]
      push_neg at hcond
      obtain ⟨h1, h2⟩ := hcond
      have hrest : rest ≠ [] := by
        intro e; subst e; simp at h1
      have hlen2 : (objList ++ [q]).length < M := by
        simp only [List.length_append, List.length_cons, List.length_nil, Nat.cast_add,
          Nat.cast_one] at h2 ⊢
        have : bag.EventAPILimit ≤ (M : Int) := by rw [hM]; exact le_max_left _ _
        omega
      have hcount : ((q :: rest).length : Int) - 1 = (rest.length : Int) := by simp
      rw [hcount]
      obtain ⟨cl, hcl⟩ := ih (objList ++ [q]) _ hrest hlen2
      refine ⟨cl, ?_⟩
      rw [hcl]
      have hj : min (q :: rest).length (M - objList.length) =
          min rest.length (M - (objList ++ [q]).length) + 1 := by
        simp only [List.length_cons, List.length_append, List.length_nil] at hlen2 ⊢
        omega
      rw [hj]
      simp

/-- Claim C25, at the limits 1 and 2: with the limit 1 and the two records `a`, `b` the
function `postContainerRecords` sends one batch of two records and then an empty batch; with
the limit 2 and three records it sends one batch of three and then an empty batch. -/
theorem container_batches_out_of_bounds :
    (containerPosts (postContainerRecords { EventAPILimit := 1 } (threeContainers.take 2))).map
        (fun b => b.map (fun c => c.Name)) = [["a", "b"], []] ∧
    (containerPosts (postContainerRecords { EventAPILimit := 2 } threeContainers)).map
        (fun b => b.map (fun c => c.Name)) = [["a", "b", "c"], []] := by
  decide

/-- Claim C28: a run of `flushQueue` on an empty queue returns without a post; on a queue of
`Q >= 1` records it returns with exactly one pod-record post, of the first
`min(Q, max(L, 1))` records in queue order, and leaves the other records in the queue. -/
theorem flushQueue_one_post_take (w : PodWorker) (refreshed : GoMap ServiceSchema) :
    (w.WQ = [] → ∃ w', flushQueue w refreshed = some (w', []) ∧ w'.WQ = []) ∧
    (w.WQ ≠ [] → ∃ w' eff, flushQueue w refreshed = some (w', eff) ∧
      podPosts eff = [w.WQ.take (min w.WQ.length (max w.Bag.EventAPILimit 1).toNat)] ∧
      w'.WQ = w.WQ.drop (min w.WQ.length (max w.Bag.EventAPILimit 1).toNat) ∧
      w'.WQ.length = w.WQ.length - min w.WQ.length (max w.Bag.EventAPILimit 1).toNat) := by
  constructor
  · intro h
    refine ⟨{ w with ServiceCache := refreshed }, ?_, h⟩
    simp [flushQueue, h]
  · intro h
    have hM1 : 1 ≤ (max w.Bag.EventAPILimit 1).toNat := by
      have : (1 : Int) ≤ max w.Bag.EventAPILimit 1 := le_max_right _ _
      omega
    have hM : (((max w.Bag.EventAPILimit 1).toNat : Nat) : Int) = max w.Bag.EventAPILimit 1 := by
      have : (1 : Int) ≤ max w.Bag.EventAPILimit 1 := le_max_right _ _
      omega
    obtain ⟨cl, hcl⟩ := flushLoop_spec w.Bag _ hM1 hM w.WQ [] [] h (by simp only [List.length_nil]; omega)
    simp only [List.length_nil, Nat.sub_zero, List.nil_append] at hcl
    have hne : ¬ ((w.WQ.length : Int) = 0) := by
      intro e
      have : w.WQ.length = 0 := by omega
      exact h (List.length_eq_zero.1 this)
    refine ⟨{ w with
        ServiceCache := refreshed
        WQ := w.WQ.drop (min w.WQ.length (max w.Bag.EventAPILimit 1).toNat) },
      Effect.postPodRecords (w.WQ.take (min w.WQ.length (max w.Bag.EventAPILimit 1).toNat)) ::
        postContainerRecords w.Bag cl, ?_, ?_, rfl, ?_⟩
    · simp only [flushQueue, hne, if_false, hcl]
    · simp only [podPosts, postContainerRecords_podPosts]
    · simp only [List.length_drop]
/-- Claim C28 on the queue `a`, `b`, `c` with the limit 1: `a` is posted, `b` and `c` stay. -/
theorem flushQueue_one_post_take_witness :
    (queued3 1).WQ ≠ [] ∧
    ∃ w' eff, flushQueue (queued3 1) [] = some (w', eff) ∧
      podPosts eff =
        [(queued3 1).WQ.take (min (queued3 1).WQ.length (max (queued3 1).Bag.EventAPILimit 1).toNat)] ∧
      w'.WQ = (queued3 1).WQ.drop
        (min (queued3 1).WQ.length (max (queued3 1).Bag.EventAPILimit 1).toNat) ∧
      w'.WQ.length =
        (queued3 1).WQ.length - min (queued3 1).WQ.length (max (queued3 1).Bag.EventAPILimit 1).toNat :=
  ⟨List.cons_ne_nil _ _, (flushQueue_one_post_take (queued3 1) []).2 (List.cons_ne_nil _ _)⟩

/-- Claim C30, at the line `2019-03-01T10:00:00Z 200 OK`: the time stamp has no space and the
message is `200 OK`, yet the record gets the message `OK`. The message `GET /index` is kept,
and cut to its last four characters under a field length of four; the empty line gets no
record. -/
theorem log_message_loses_leading_characters :
    "2019-03-01T10:00:00Z 200 OK" = "2019-03-01T10:00:00Z" ++ " " ++ "200 OK" ∧
    ' ' ∉ "2019-03-01T10:00:00Z".toList ∧
    logMessage 4000 "2019-03-01T10:00:00Z 200 OK" = some "OK" ∧
    logMessage 4000 "2019-03-01T10:00:00Z GET /index" = some "GET /index" ∧
    logMessage 4 "2019-03-01T10:00:00Z GET /index" = some "ndex" ∧
    logMessage 4000 "" = none := by
  decide

/-! ## Lemmas on `processNamespaces` and on the metrics cycle -/

/-- The inner loop of `processNamespaces` counts the quotas of the namespace. -/
theorem quotaCount_eq (w : PodWorker) (name : String) :
    quotaCount w name = ((mapValues w.RQCache).countP (fun rq => decide (rq.Namespace = name)) : Int) := by
  unfold quotaCount
  have gen : ∀ (l : List ResourceQuota) (n : Int),
      l.foldl (fun count rq => if rq.Namespace = name then count + 1 else count) n =
        n + (l.countP (fun rq => decide (rq.Namespace = name)) : Int) := by
    intro l
    induction l with
    | nil => intro n; simp
    | cons a t ih =>
      intro n
      rw [List.foldl_cons, ih, List.countP_cons]
      by_cases h : a.Namespace = name
      · simp [h]; omega
      · simp [h]
  rw [gen]; simp

/-- A write under a key that the entries before it do not have replaces the entry in place. -/
theorem mapSet_append_fresh {α : Type} (pre : GoMap α) (k : String) (v v' : α) (t : GoMap α)
    (h : k ∉ pre.map Prod.fst) : mapSet (pre ++ (k, v) :: t) k v' = pre ++ (k, v') :: t := by
  induction pre with
  | nil => simp [mapSet]
  | cons a p ih =>
    obtain ⟨k0, v0⟩ := a
    simp only [List.map_cons, List.mem_cons, not_or] at h
    have h0 : ¬ k0 = k := fun e => h.1 e.symm
    simp only [List.cons_append, mapSet, h0, if_false]
    exact congrArg _ (ih h.2)

/-- A round of the namespace loop at its own entry: the entry is recounted in place, and
appended to `updated` when its count changed. -/
theorem namespaceStep_eq (w : PodWorker) (pre t : GoMap NsSchema) (upd : List NsSchema) (n : Int)
    (k : String) (ns : NsSchema) (hfresh : k ∉ pre.map Prod.fst) :
    ∃ n', namespaceStep w { NSCache := pre ++ (k, ns) :: t, updated := upd, NamespaceNoQuotas := n }
        (k, ns) =
      { NSCache := pre ++ (k, recounted w ns) :: t
        updated := upd ++ (if ns.Quotas ≠ (recounted w ns).Quotas then [recounted w ns] else [])
        NamespaceNoQuotas := n' } := by
  have e1 : ({ ns with Quotas := quotaCount w ns.Name } : NsSchema) = recounted w ns := by
    simp [recounted, quotaCount_eq]
  have e0 : (recounted w ns).Quotas = quotaCount w ns.Name := by
    simp [recounted, quotaCount_eq]
  refine ⟨if quotaCount w ns.Name = 0 then n + 1 else n, ?_⟩
  unfold namespaceStep
  simp only [e1, e0]
  by_cases hq : ns.Quotas ≠ quotaCount w ns.Name
  · rw [if_pos hq, if_pos hq, mapSet_append_fresh pre k ns _ t hfresh]
  · rw [if_neg hq, if_neg hq, List.append_nil]
    have e2 : ns = recounted w ns := by
      have h1 : ns.Quotas = quotaCount w ns.Name := by simpa using hq
      rw [← e1]
      cases ns
      simp only at h1
      simp only [h1]
    rw [← e2]

/-- The namespace loop over the entries that are left, on a cache with distinct keys. -/
theorem namespaceLoop_spec (w : PodWorker) (suf pre : GoMap NsSchema) (upd : List NsSchema) (n : Int)
    (hk : ((pre ++ suf).map Prod.fst).Nodup) :
    ∃ n', suf.foldl (namespaceStep w)
      { NSCache := pre ++ suf, updated := upd, NamespaceNoQuotas := n } =
      { NSCache := pre ++ suf.map (fun kv => (kv.1, recounted w kv.2))
        updated := upd ++ ((suf.filter (fun kv => decide (kv.2.Quotas ≠ (recounted w kv.2).Quotas))).map
          (fun kv => recounted w kv.2))
        NamespaceNoQuotas := n' } := by
  induction suf generalizing pre upd n with
  | nil => exact ⟨n, by simp⟩
  | cons kv t ih =>
    obtain ⟨k, ns⟩ := kv
    have hfresh : k ∉ pre.map Prod.fst := by
      intro hmem
      rw [List.map_append, List.nodup_append] at hk
      exact hk.2.2 hmem (by simp)
    have hk2 : (((pre ++ [(k, recounted w ns)]) ++ t).map Prod.fst).Nodup := by
      simpa using hk
    obtain ⟨n1, hn1⟩ := namespaceStep_eq w pre t upd n k ns hfresh
    rw [List.foldl_cons, hn1]
    obtain ⟨n', hn'⟩ := ih (pre ++ [(k, recounted w ns)])
      (upd ++ (if ns.Quotas ≠ (recounted w ns).Quotas then [recounted w ns] else [])) n1 hk2
    refine ⟨n', ?_⟩
    simp only [List.append_assoc, List.singleton_append] at hn'
    rw [hn']
    by_cases hq : ns.Quotas ≠ (recounted w ns).Quotas
    · simp [hq]
    · simp [hq]

/-- With a global summary and distinct keys, `processNamespaces` recounts every entry of the
namespace cache and returns the entries whose count changed. -/
theorem processNamespaces_spec (E : Env) (w : PodWorker)
    (hsum : (mapGet w.SummaryMap E.ALL).isSome = true)
    (hkeys : (w.NSCache.map Prod.fst).Nodup) :
    (processNamespaces E w).1.NSCache = w.NSCache.map (fun kv => (kv.1, recounted w kv.2)) ∧
    (processNamespaces E w).2 =
      (w.NSCache.filter (fun kv => decide (kv.2.Quotas ≠ (recounted w kv.2).Quotas))).map
        (fun kv => recounted w kv.2) ∧
    (processNamespaces E w).1.RQCache = w.RQCache ∧
    (mapGet (processNamespaces E w).1.SummaryMap E.ALL).isSome = true := by
  cases hs : mapGet w.SummaryMap E.ALL with
  | none => rw [hs] at hsum; cases hsum
  | some summary =>
    obtain ⟨n', hn'⟩ := namespaceLoop_spec w w.NSCache [] [] summary.NamespaceNoQuotas
      (by simpa using hkeys)
    simp only [List.nil_append] at hn'
    simp only [processNamespaces, hs, namespaceLoop, hn', mapGet_mapSet, if_true, Option.isSome_some,
      and_self]

/-- The correlation and container lines read the worker through `inputsOf` only. -/
theorem containersPhase_inputs (E : Env) (w : PodWorker) :
    containersPhase E (inputsOf w) = containersPhase E w := rfl

/-- The outcome of `processObject` depends on the worker through `inputsOf` only. -/
theorem processObject_inputs (E : Env) (w : PodWorker) (p : Pod) (old : Option Pod) (now : Time)
    (md : PodMetricsObj) :
    outcomeOf (processObject E (inputsOf w) p old now md) =
      outcomeOf (processObject E w p old now md) := by
  have hb : (inputsOf w).Bag = w.Bag := rfl
  unfold processObject
  simp only [containersPhase_indep, containersPhase_inputs]
  simp only [hb]
  cases schedulingPhase p
      (if (!(identityPhase E w.Bag p).IsEvicted) = true then
        containersPhase E w p (identityPhase E w.Bag p)
      else identityPhase E w.Bag p) with
  | error f => rfl
  | ok po3 =>
    simp only
    split <;> rfl

/-- Two workers with the same configuration and caches give the same record. -/
theorem recordOf_inputs (E : Env) (w w2 : PodWorker) (h : inputsOf w2 = inputsOf w)
    (obj : Pod × Time × PodMetricsObj) : recordOf E w2 obj = recordOf E w obj := by
  have h1 := processObject_inputs E w obj.1 none obj.2.1 obj.2.2
  have h2 := processObject_inputs E w2 obj.1 none obj.2.1 obj.2.2
  rw [h, h1] at h2
  unfold recordOf
  cases ha : processObject E w obj.1 none obj.2.1 obj.2.2 <;>
    cases hb : processObject E w2 obj.1 none obj.2.1 obj.2.2 <;>
    rw [ha, hb] at h2 <;> simp [outcomeOf] at h2 ⊢
  exact h2.1.symm

/-- A call of `summarize` that returns leaves the worker `summarized`. -/
theorem summarize_ok_eq (E : Env) (w w2 : PodWorker) (r : PodSchema)
    (h : summarize E w r = .ok w2) : w2 = summarized E w r := by
  rw [summarize_eq] at h
  split at h
  · cases h
  · cases h; rfl

/-- One round of the pod loop: the fields outside the summaries and the index are kept, the
global summary exists afterwards, and the record is the one of the pod. -/
theorem loop_step_static (E : Env) (w w2 : PodWorker) (obj : Pod × Time × PodMetricsObj)
    (r : ProcessResult) (h1 : processObject E w obj.1 none obj.2.1 obj.2.2 = .ok r)
    (h2 : summarize E r.worker r.record = .ok w2) :
    staticOf w2 = staticOf w ∧ (mapGet w2.SummaryMap E.ALL).isSome = true ∧
      recordOf E w obj = some r.record := by
  have hw := processObject_worker E w obj.1 none obj.2.1 obj.2.2 r h1
  have he := summarize_ok_eq E _ _ _ h2
  refine ⟨?_, ?_, ?_⟩
  · rw [he, hw]; rfl
  · rw [he, summarized_isSome, touches_ALL]; rfl
  · simp only [recordOf, h1]

/-- The pod loop, when it returns: what it keeps, the global summary, the heat map and the
bag map. -/
theorem podLoop_spec (E : Env) (bag : AppDBag) (store : Snapshot) :
    ∀ (s s' : LoopState), podLoop E bag s store = .ok s' →
      staticOf s'.worker = staticOf s.worker ∧
      (store ≠ [] → (mapGet s'.worker.SummaryMap E.ALL).isSome = true) ∧
      (store = [] → s'.worker = s.worker) ∧
      (snapshotRecords E s.worker store).length = store.length ∧
      s'.heatMapData = s.heatMapData ++ (snapshotRecords E s.worker store).map NewHeatNode ∧
      s'.dash = ((snapshotRecords E s.worker store).filter (shouldUpdateDashboard s.worker)).foldl
        (dashStep bag) s.dash := by
  induction store with
  | nil =>
    intro s s' h
    simp only [podLoop] at h
    cases h
    exact ⟨rfl, fun h => absurd rfl h, fun _ => rfl, rfl, by simp [snapshotRecords],
      by simp [snapshotRecords]⟩
  | cons obj rest ih =>
    intro s s' h
    simp only [podLoop] at h
    split at h
    · cases h
    · rename_i r h1
      split at h
      · cases h
      · rename_i w2 h2
        obtain ⟨hst, hall, hrec⟩ := loop_step_static E s.worker w2 obj r h1 h2
        obtain ⟨i1, i2, i3, i4, i5, i6⟩ := ih _ _ h
        simp only at i1 i2 i3 i4 i5 i6
        have hin : inputsOf w2 = inputsOf s.worker := by
          have : ∀ x, inputsOf x = inputsOf (staticOf x) := fun _ => rfl
          rw [this w2, hst, ← this]
        have hrecs : snapshotRecords E w2 rest = snapshotRecords E s.worker rest := by
          unfold snapshotRecords
          congr 1
          funext o
          exact recordOf_inputs E s.worker w2 hin o
        have hsh : shouldUpdateDashboard w2 = shouldUpdateDashboard s.worker := by
          funext x
          have : ∀ y, shouldUpdateDashboard y x = shouldUpdateDashboard (staticOf y) x :=
            fun _ => rfl
          rw [this w2, hst, ← this]
        have hsnap : snapshotRecords E s.worker (obj :: rest) =
            r.record :: snapshotRecords E s.worker rest := by
          simp only [snapshotRecords, List.filterMap_cons, hrec]
        refine ⟨i1.trans hst, fun _ => ?_, fun hh => absurd hh (List.cons_ne_nil _ _), ?_, ?_, ?_⟩
        · by_cases hr : rest = []
          · rw [i3 hr]; exact hall
          · exact i2 hr
        · rw [hsnap, List.length_cons, ← hrecs, i4, List.length_cons]
        · rw [i5, hsnap, hrecs]; simp
        · rw [i6, hsnap, hrecs, hsh]
          by_cases hs : shouldUpdateDashboard s.worker r.record = true
          · simp [List.filter_cons, hs]
          · simp [List.filter_cons, hs]

/-- The bag map after a record was added, read at a key. -/
theorem dashStep_lookup (bag : AppDBag) (dash : GoMap DashboardBag) (r : PodSchema) (k : String) :
    mapGet (dashStep bag dash r) k =
      if dashKey r = k then
        some { (mapGet dash k).getD (newTierBag bag r) with
          Pods := ((mapGet dash k).getD (newTierBag bag r)).Pods ++ [r] }
      else mapGet dash k := by
  unfold dashStep dashKey
  simp only [mapGet_mapSet]
  by_cases h : GetKey r.Namespace r.Owner = k
  · subst h
    simp only [if_true]
    cases mapGet dash (GetKey r.Namespace r.Owner) <;> rfl
  · simp only [h, if_false]

/-- The bag map after a list of records was added, read at a key. -/
theorem dashFold_lookup (bag : AppDBag) (l : List PodSchema) (k : String) :
    ∀ dash : GoMap DashboardBag, mapGet (l.foldl (dashStep bag) dash) k =
      match mapGet dash k with
      | some b => some { b with Pods := b.Pods ++ l.filter (fun r => decide (dashKey r = k)) }
      | none => tierBagOf bag (l.filter (fun r => decide (dashKey r = k))) := by
  induction l with
  | nil =>
    intro dash
    simp only [List.foldl_nil, List.filter_nil, List.append_nil, tierBagOf]
    cases mapGet dash k <;> rfl
  | cons r t ih =>
    intro dash
    rw [List.foldl_cons, ih, dashStep_lookup]
    by_cases h : dashKey r = k
    · simp only [h, if_true, List.filter_cons_of_pos, decide_True]
      cases hd : mapGet dash k with
      | none => simp [tierBagOf, newTierBag, NewDashboardBagTier]
      | some b => simp
    · simp only [h, if_false, decide_False, Bool.false_eq_true, not_false_eq_true,
        List.filter_cons_of_neg]

/-- The records of a key among those with a key in `DashboardCache`. -/
theorem filter_should (w : PodWorker) (l : List PodSchema) (k : String) :
    (l.filter (shouldUpdateDashboard w)).filter (fun r => decide (dashKey r = k)) =
      if (mapGet w.DashboardCache k).isSome then l.filter (fun r => decide (dashKey r = k))
      else [] := by
  induction l with
  | nil => simp
  | cons r t ih =>
    by_cases hk : dashKey r = k
    · by_cases hs : (mapGet w.DashboardCache k).isSome = true
      · have hsr : shouldUpdateDashboard w r = true := by
          simp only [shouldUpdateDashboard]; rw [show GetKey r.Namespace r.Owner = k from hk]; exact hs
        rw [List.filter_cons_of_pos hsr, List.filter_cons_of_pos (by simpa using hk), ih]
        simp [hs, hk]
      · have hsr : ¬ shouldUpdateDashboard w r = true := by
          simp only [shouldUpdateDashboard]; rw [show GetKey r.Namespace r.Owner = k from hk]; exact hs
        rw [List.filter_cons_of_neg hsr, ih]
        simp [hs]
    · by_cases hsr : shouldUpdateDashboard w r = true
      · rw [List.filter_cons_of_pos hsr, List.filter_cons_of_neg (by simpa using hk), ih,
          List.filter_cons_of_neg (by simpa using hk)]
      · rw [List.filter_cons_of_neg hsr, ih, List.filter_cons_of_neg (by simpa using hk)]

/-- The function `processNamespaces` leaves the warm-up flag alone. -/
theorem processNamespaces_static (E : Env) (w : PodWorker) :
    (processNamespaces E w).1.DelayDashboard = w.DelayDashboard := by
  unfold processNamespaces
  split <;> rfl

/-- A run of `buildAppDMetrics` that returns: the pod loop returned, and the result is what
the last lines make of its state. -/
theorem buildAppDMetrics_ok (E : Env) (w : PodWorker) (refreshed : GoMap ServiceSchema)
    (store : Snapshot) (res : CycleResult) (h : buildAppDMetrics E w refreshed store = .ok res) :
    ∃ s, podLoop E w.Bag { worker := cycleStart w refreshed } store = .ok s ∧
      res = cycleEnd E w.Bag s := by
  unfold buildAppDMetrics at h
  split at h
  · cases h
  · rename_i s hs
    cases h
    exact ⟨s, hs, rfl⟩

/-- The recount depends on the worker through the quota cache only. -/
theorem recounted_congr (w w2 : PodWorker) (h : w2.RQCache = w.RQCache) :
    recounted w2 = recounted w := by
  funext ns
  simp only [recounted, h]

/-- The namespace cache and the records posted after a cycle that returns, for a snapshot
without pods and for one with pods. -/
theorem cycle_namespaces (E : Env) (w : PodWorker) (refreshed : GoMap ServiceSchema)
    (store : Snapshot) (res : CycleResult) (h : buildAppDMetrics E w refreshed store = .ok res)
    (hkeys : (w.NSCache.map Prod.fst).Nodup) :
    res.worker.RQCache = w.RQCache ∧
    (store = [] → res.worker.NSCache = w.NSCache ∧ res.updated = []) ∧
    (store ≠ [] →
      res.worker.NSCache = w.NSCache.map (fun kv => (kv.1, recounted w kv.2)) ∧
      res.updated =
        (w.NSCache.filter (fun kv => decide (kv.2.Quotas ≠ (recounted w kv.2).Quotas))).map
          (fun kv => recounted w kv.2)) := by
  obtain ⟨s, hs, rfl⟩ := buildAppDMetrics_ok E w refreshed store res h
  obtain ⟨i1, i2, i3, -, -, -⟩ := podLoop_spec E w.Bag store _ _ hs
  simp only at i1 i2 i3
  have hns : s.worker.NSCache = w.NSCache := by
    have : ∀ x : PodWorker, x.NSCache = (staticOf x).NSCache := fun _ => rfl
    rw [this, i1]; rfl
  have hrq : s.worker.RQCache = w.RQCache := by
    have : ∀ x : PodWorker, x.RQCache = (staticOf x).RQCache := fun _ => rfl
    rw [this, i1]; rfl
  simp only [cycleEnd]
  refine ⟨?_, ?_, ?_⟩
  · unfold processNamespaces
    split
    · exact hrq
    · exact hrq
  · intro he
    have hw := i3 he
    have hnone : mapGet s.worker.SummaryMap E.ALL = none := by rw [hw]; rfl
    simp only [processNamespaces, hnone]
    exact ⟨hns, trivial⟩
  · intro hne
    obtain ⟨p1, p2, -, -⟩ := processNamespaces_spec E s.worker (i2 hne) (by rw [hns]; exact hkeys)
    rw [p1, p2, hns, recounted_congr w s.worker hrq]
    exact ⟨rfl, rfl⟩

/-- Claim C23, refuted as stated, at a snapshot without pods: the cache holds two quotas of
`ns1` and the namespace record of `ns1` has `Quotas = 0`; after the cycle the record still has
`Quotas = 0`, and nothing is posted. -/
theorem namespaces_stale_without_pods :
    ∃ res, buildAppDMetrics sampleEnv wStaleNamespace [] [] = .ok res ∧
      res.worker.NSCache.map (fun kv => (kv.1, kv.2.Quotas)) = [("ns1", 0)] ∧
      (recounted wStaleNamespace { Name := "ns1", Quotas := 0 }).Quotas = 2 ∧
      res.updated.length = 0 :=
  ⟨_, rfl, by decide, by decide, by decide⟩

/-- Claim C23, amended: after a cycle over a snapshot with at least one pod, every entry of
the namespace cache has `Quotas` equal to the number of quotas in `RQCache` of its name, the
records posted are exactly the entries whose `Quotas` changed, and a further cycle on the
caches so left posts no namespace record and leaves the namespace cache as it is. The keys
of the cache are distinct, as the keys of a map are. -/
theorem namespaces_recounted (E : Env) (w : PodWorker) (refreshed : GoMap ServiceSchema)
    (store : Snapshot) (res : CycleResult) (h : buildAppDMetrics E w refreshed store = .ok res)
    (hne : store ≠ []) (hkeys : (w.NSCache.map Prod.fst).Nodup) :
    res.worker.NSCache = w.NSCache.map (fun kv => (kv.1, recounted w kv.2)) ∧
    res.updated =
      (w.NSCache.filter (fun kv => decide (kv.2.Quotas ≠ (recounted w kv.2).Quotas))).map
        (fun kv => recounted w kv.2) ∧
    (∀ refreshed2 store2 res2, buildAppDMetrics E res.worker refreshed2 store2 = .ok res2 →
      res2.updated = [] ∧ res2.worker.NSCache = res.worker.NSCache) := by
  obtain ⟨hrq, -, h3⟩ := cycle_namespaces E w refreshed store res h hkeys
  obtain ⟨hcache, hupd⟩ := h3 hne
  refine ⟨hcache, hupd, ?_⟩
  intro refreshed2 store2 res2 h2
  have hkeys2 : (res.worker.NSCache.map Prod.fst).Nodup := by
    rw [hcache, List.map_map]
    exact hkeys
  obtain ⟨-, q2, q3⟩ := cycle_namespaces E res.worker refreshed2 store2 res2 h2 hkeys2
  by_cases he : store2 = []
  · exact ⟨(q2 he).2, (q2 he).1⟩
  · obtain ⟨c2, u2⟩ := q3 he
    have hrc : recounted res.worker = recounted w := recounted_congr w res.worker hrq
    have hfix : ∀ kv ∈ res.worker.NSCache, recounted w kv.2 = kv.2 := by
      intro kv hkv
      rw [hcache, List.mem_map] at hkv
      obtain ⟨kv0, -, rfl⟩ := hkv
      simp [recounted]
    constructor
    · rw [u2, hrc]
      have : (res.worker.NSCache.filter
          (fun kv => decide (kv.2.Quotas ≠ (recounted w kv.2).Quotas))) = [] := by
        rw [List.filter_eq_nil_iff]
        intro kv hkv
        rw [hfix kv hkv]
        simp
      rw [this]; rfl
    · rw [c2, hrc]
      conv_rhs => rw [← List.map_id res.worker.NSCache]
      apply List.map_congr_left
      intro kv hkv
      rw [hfix kv hkv]
      rfl

/-- The amended claim C23 on the snapshot of `web-1`: the record of `ns1` goes from no quota
to two and is posted. -/
theorem namespaces_recounted_witness :
    ∃ res, buildAppDMetrics sampleEnv wStaleNamespace [] [(web1, 0, {})] = .ok res ∧
      res.worker.NSCache.map (fun kv => (kv.1, kv.2.Quotas)) = [("ns1", 2)] ∧
      res.worker.NSCache =
        wStaleNamespace.NSCache.map (fun kv => (kv.1, recounted wStaleNamespace kv.2)) ∧
      res.updated =
        (wStaleNamespace.NSCache.filter
          (fun kv => decide (kv.2.Quotas ≠ (recounted wStaleNamespace kv.2).Quotas))).map
          (fun kv => recounted wStaleNamespace kv.2) :=
  ⟨_, rfl, by decide,
    (namespaces_recounted sampleEnv wStaleNamespace [] [(web1, 0, {})] _ rfl
      (List.cons_ne_nil _ _) (by decide)).1,
    (namespaces_recounted sampleEnv wStaleNamespace [] [(web1, 0, {})] _ rfl
      (List.cons_ne_nil _ _) (by decide)).2.1⟩

/-- Claim C24, refuted as stated, at a worker whose application name is `ns1/web`: the key
`ns1/web` is in `DashboardCache` and the pod `web-1` of the snapshot has namespace `ns1` and
owner `web`, yet the bag map handed on has under that key the cluster bag, and no tier bag
at all. -/
theorem tier_bag_lost_under_application_name :
    ∃ res, buildAppDMetrics sampleEnv wDashColliding [] [(web1, 0, {})] = .ok res ∧
      wDashColliding.DelayDashboard = false ∧
      (mapGet wDashColliding.DashboardCache "ns1/web").isSome = true ∧
      (snapshotRecords sampleEnv (cycleStart wDashColliding []) [(web1, 0, {})]).map
        (fun r => (r.Namespace, r.Owner)) = [("ns1", "web")] ∧
      res.dashboards.map (fun d => d.map (fun kb => (kb.1, kb.2.BagType, kb.2.Pods.length))) =
        some [("ns1/web", "cluster", 0)] :=
  ⟨_, rfl, rfl, by decide, by decide, by decide⟩

/-- Claim C24, amended: a cycle that returns has one record per pod of the snapshot. During
the warm-up no bag map is handed on. After it, the bag map handed on has under the
application name the cluster bag, with one heat node per record in order, and under every
other key `k` the tier bag of exactly the records whose key is `k`, when `k` is in
`DashboardCache` and there is such a record, and nothing otherwise. -/
theorem dashboards_of_cycle (E : Env) (w : PodWorker) (refreshed : GoMap ServiceSchema)
    (store : Snapshot) (res : CycleResult) (h : buildAppDMetrics E w refreshed store = .ok res) :
    (snapshotRecords E (cycleStart w refreshed) store).length = store.length ∧
    (w.DelayDashboard = true → res.dashboards = none) ∧
    (w.DelayDashboard = false → ∃ dash, res.dashboards = some dash ∧
      mapGet dash w.Bag.AppName =
        some (clusterBag w.Bag ((snapshotRecords E (cycleStart w refreshed) store).map NewHeatNode)) ∧
      ∀ k, k ≠ w.Bag.AppName →
        mapGet dash k =
          if (mapGet w.DashboardCache k).isSome then
            tierBagOf w.Bag ((snapshotRecords E (cycleStart w refreshed) store).filter
              (fun r => decide (dashKey r = k)))
          else none) := by
  obtain ⟨s, hs, rfl⟩ := buildAppDMetrics_ok E w refreshed store res h
  obtain ⟨i1, -, -, i4, i5, i6⟩ := podLoop_spec E w.Bag store _ _ hs
  simp only [List.nil_append] at i1 i4 i5 i6
  simp only [cycleEnd]
  · have hd : (processNamespaces E s.worker).1.DelayDashboard = w.DelayDashboard := by
      rw [processNamespaces_static]
      have : ∀ x : PodWorker, x.DelayDashboard = (staticOf x).DelayDashboard := fun _ => rfl
      rw [this, i1]; rfl
    have hdc : ∀ k, mapGet (cycleStart w refreshed).DashboardCache k = mapGet w.DashboardCache k :=
      fun _ => rfl
    refine ⟨i4, ?_, ?_⟩
    · intro hdel
      simp only [hd, hdel, Bool.not_true, Bool.false_eq_true, if_false]
    · intro hdel
      refine ⟨mapSet s.dash w.Bag.AppName (clusterBag w.Bag s.heatMapData),
        by simp only [hd, hdel, Bool.not_false, if_true], ?_, ?_⟩
      · rw [mapGet_mapSet, if_pos rfl, i5]
      · intro k hk
        have hk' : ¬ w.Bag.AppName = k := fun e => hk e.symm
        rw [mapGet_mapSet, if_neg hk', i6, dashFold_lookup]
        have : mapGet ([] : GoMap DashboardBag) k = none := rfl
        rw [this]
        simp only
        have hf := filter_should (cycleStart w refreshed) (snapshotRecords E (cycleStart w refreshed) store) k
        rw [hdc] at hf
        show tierBagOf w.Bag (List.filter (fun r => decide (dashKey r = k))
          (List.filter (shouldUpdateDashboard (cycleStart w refreshed))
            (snapshotRecords E (cycleStart w refreshed) store))) = _
        rw [hf]
        split <;> rfl

/-- The amended claim C24 on the snapshot of `web-1` and `db-0`: a tier bag for `ns1/web` with
the record of `web-1`, and the cluster bag with two heat nodes. -/
theorem dashboards_of_cycle_witness :
    ∃ res, buildAppDMetrics sampleEnv wDash [] [(web1, 0, {}), (barePod, 0, {})] = .ok res ∧
      res.dashboards.map (fun d => d.map
        (fun kb => (kb.1, kb.2.BagType, kb.2.Pods.map (fun r => r.Name), kb.2.HeatNodes.length))) =
        some [("ns1/web", "tier", ["web-1"], 0), ("cluster1", "cluster", [], 2)] ∧
      (snapshotRecords sampleEnv (cycleStart wDash []) [(web1, 0, {}), (barePod, 0, {})]).length =
        [(web1, (0 : Time), ({} : PodMetricsObj)), (barePod, 0, {})].length :=
  ⟨_, rfl, by decide,
    (dashboards_of_cycle sampleEnv wDash [] [(web1, 0, {}), (barePod, 0, {})] _ rfl).1⟩

end ClusterAgent
